import Mathlib

/-!
# PalmEngine / palmx: model loading, drawing, the resource cache, fonts and key input

A shallow embedding of the model/mesh loading pipeline, of the draw functions,
of the resource cache, of the font and text functions and of the window
procedure of the engine, followed by theorems about them.

Conventions of the embedding

* A C array that travels with its own element count (`mFaces`/`mNumFaces`,
  `mIndices`/`mNumIndices`, `mMeshes`/`mNumMeshes`, `mChildren`/`mNumChildren`,
  the scene tables) is a `List`; the count is its length.
* The per-vertex arrays of `aiMesh` share one count, `mNumVertices`, and may be
  null; they are lists (or `Option` lists) read with a checked index, and a
  read that the C++ program would perform outside the array, or through a null
  pointer, is a `Fault`.
* `std::shared_ptr<T>` is `Option Nat`: `none` is the empty pointer, `some a`
  points to the object at address `a` of the heap of `T` objects.
* `std::unordered_map<std::string, V>` and `std::map<char, V>` are association
  lists with unique keys; a `std::string` is a `String` whose characters stand
  for its `char`s.
* Calls into OpenGL, stb_image, FreeType, the logger, `Shader::Compile`, the
  input system and the window system are recorded, in program order, in
  `World.trace`; what they return comes from the oracles of `Env`.
* `float` values are the rationals they stand for (finite values). The
  loaders only copy them; the matrices of the draw functions are kept as the
  sequence of their factors; where the code computes with them (the quad and
  the pen of `DrawText`) every operation gives its exact result rounded to
  `float` by the oracle `Env.fl`, one rounding per conversion, product, sum
  and difference, as in an evaluation in `float` precision without contraction.
* Reading a file through `std::ifstream` is an oracle that gives the error bits
  left in the stream state and the characters copied; whether
  `std::ifstream::failure` is thrown is decided by the exception mask the code sets.
-/

/-! ## Vectors and matrices (`glm`) -/

/-- The type `glm::vec3`. -/
structure vec3 where
  x : Rat
  y : Rat
  z : Rat
  deriving DecidableEq, Repr

/-- The type `glm::vec2`. -/
structure vec2 where
  x : Rat
  y : Rat
  deriving DecidableEq, Repr

/-- An angle in radians, kept as the number of degrees that `glm::radians`
was given. -/
structure Radians where
  degrees : Rat
  deriving DecidableEq, Repr

/-- The function `glm::radians(degrees)`. -/
def glm.radians (degrees : Rat) : Radians := ⟨degrees⟩

/-- One factor of a transformation matrix. -/
inductive Transformation where
  | translate (v : vec3)
  | rotate (angle : Radians) (axis : vec3)
  | scale (v : vec3)
  deriving DecidableEq, Repr

/-- The type `glm::mat4`, for the matrices the code builds: the identity
multiplied on the right by a sequence of transformations, kept as that
sequence (the products of floats are not evaluated). -/
structure mat4 where
  factors : List Transformation
  deriving DecidableEq, Repr

/-- The matrix `glm::mat4(1.0f)`. -/
def glm.mat4_1 : mat4 := ⟨[]⟩

/-- The function `glm::translate(m, v)`: `m` times the translation by `v`. -/
def glm.translate (m : mat4) (v : vec3) : mat4 := ⟨m.factors ++ [Transformation.translate v]⟩

/-- The function `glm::rotate(m, angle, axis)`: `m` times the rotation. -/
def glm.rotate (m : mat4) (angle : Radians) (axis : vec3) : mat4 :=
  ⟨m.factors ++ [Transformation.rotate angle axis]⟩

/-- The function `glm::scale(m, v)`: `m` times the scaling by `v`. -/
def glm.scale (m : mat4) (v : vec3) : mat4 := ⟨m.factors ++ [Transformation.scale v]⟩

/-! ## Input events -/

/-- The two members of the enumeration `KeyInput::KeyInputType` that `Input.cpp` names. -/
inductive KeyInput.KeyInputType where
  | INPUT_KEYBOARD_KEY_DOWN
  | INPUT_KEYBOARD_KEY_UP
  deriving DecidableEq, Repr

/-- The arguments of the constructor `KeyInput(type, key)`; `key` is the `char`
it is given. -/
structure KeyInput where
  type : KeyInput.KeyInputType
  key : Int
  deriving DecidableEq, Repr

/-! ## External collaborators -/

/-- The OpenGL enumerants used by the code. -/
inductive GLenum where
  | GL_RED | GL_RGB | GL_RGBA
  | GL_TEXTURE_2D | GL_UNSIGNED_BYTE | GL_FLOAT | GL_INT | GL_FALSE
  | GL_TEXTURE_WRAP_S | GL_TEXTURE_WRAP_T | GL_TEXTURE_MIN_FILTER | GL_TEXTURE_MAG_FILTER
  | GL_REPEAT | GL_LINEAR | GL_LINEAR_MIPMAP_LINEAR | GL_NEAREST
  | GL_ARRAY_BUFFER | GL_ELEMENT_ARRAY_BUFFER | GL_STATIC_DRAW
  | GL_TRIANGLES | GL_UNSIGNED_INT
  | GL_CULL_FACE | GL_CLAMP_TO_EDGE | GL_UNPACK_ALIGNMENT
  deriving DecidableEq, Repr

/-- One call into an external collaborator (GPU API, image decoder, logger,
shader compiler), with the arguments that matter. -/
inductive Effect where
  | glGenTextures (id : Nat)
  | glBindTexture (target : GLenum) (id : Nat)
  | glTexImage2D (target : GLenum) (level : Nat) (internalformat : GLenum)
      (width height : Int) (border : Nat) (format type : GLenum)
  | glGenerateMipmap (target : GLenum)
  | glTexParameteri (target pname param : GLenum)
  | glGenVertexArrays (id : Nat)
  | glGenBuffers (id : Nat)
  | glBindVertexArray (id : Nat)
  | glBindBuffer (target : GLenum) (id : Nat)
  | glBufferData (target : GLenum) (size : Nat) (usage : GLenum)
  | glEnableVertexAttribArray (index : Nat)
  | glVertexAttribPointer (index size : Nat) (type normalized : GLenum) (stride pointer : Nat)
  | glVertexAttribIPointer (index size : Nat) (type : GLenum) (stride pointer : Nat)
  | stbi_load (filename : String)
  | stbi_image_free
  | LogInfo (message : String)
  | LogError (message : String)
  | Compile (vertexSource fragmentSource directory : String)
  | glActiveTexture (unit : Nat)
  | glGetUniformLocation (program : Nat) (name : String)
  | glUniform1i (location : Int) (v0 : Int)
  | glDrawElements (mode : GLenum) (count : Nat) (type : GLenum) (indices : Nat)
  | glUseProgram (program : Nat)
  | glUniformMatrix4fv (location : Int) (count : Nat) (transpose : GLenum) (value : mat4)
  | glUniform4f (location : Int) (v0 v1 v2 v3 : Rat)
  | glDrawArrays (mode : GLenum) (first count : Nat)
  | glDisable (cap : GLenum)
  | glEnable (cap : GLenum)
  | glPixelStorei (pname : GLenum) (param : Int)
  | glBufferSubData (target : GLenum) (offset size : Nat) (data : List (List Rat))
  | FT_Set_Pixel_Sizes (pixel_width pixel_height : Nat)
  | FT_Done_Face
  | FT_Done_FreeType
  | printf (output : String)
  | ProcessKeyInput (input : KeyInput)
  | PostQuitMessage (nExitCode : Int)
  | DefWindowProc (hwnd uMsg wParam lParam : Nat)
  deriving DecidableEq, Repr

/-- What `stbi_load` hands back when it returns a non-null pixel buffer. -/
structure Image where
  width : Int
  height : Int
  nrComponents : Int
  deriving DecidableEq, Repr

/-- The record of everything the program did to the outside world. -/
structure World where
  /-- calls made so far, oldest first -/
  trace : List Effect
  /-- how many GL object names have been generated so far -/
  glGenCount : Nat
  deriving DecidableEq, Repr

/-- A read outside an array or through a null pointer. -/
inductive Fault where
  | nullPointer
  | outOfBounds
  deriving DecidableEq, Repr

namespace World

/-- Append one call to the trace. -/
def emit (w : World) (e : Effect) : World :=
  { w with trace := w.trace ++ [e] }

/-- A world in which nothing has happened yet. -/
def initial : World := { trace := [], glGenCount := 0 }

end World

/-! ## `std::string` helpers -/

/-- The value `std::string::npos`. -/
def npos : Nat := 2 ^ 64 - 1

/-- Scan of `std::string::find_last_of(c)`: position of the last `c`, or `last`. -/
def find_last_of.go (c : Char) : List Char → Nat → Nat → Nat
  | [], _, last => last
  | x :: xs, i, last => find_last_of.go c xs (i + 1) (if x = c then i else last)

/-- The operation `s.find_last_of(c)`: position of the last occurrence of `c`, `npos` when there is none. -/
def find_last_of (s : String) (c : Char) : Nat :=
  find_last_of.go c s.data 0 npos

/-- The operation `s.substr(pos, count)` for `pos ≤ s.size()`. -/
def substr (s : String) (pos count : Nat) : String :=
  ⟨(s.data.drop pos).take count⟩

/-! ## `std::unordered_map<std::string, V>` -/

/-- Association list standing for `std::unordered_map<std::string, V>`. -/
abbrev unordered_map (V : Type) := List (String × V)

namespace unordered_map

variable {V : Type}

/-- The operation `m.find(key)`: `none` stands for `m.end()`, `some v` for an iterator whose `second` is `v`. -/
def find : unordered_map V → String → Option V
  | [], _ => none
  | (k, v) :: m, key => if k = key then some v else find m key

/-- The operation `m[key] = value`: overwrite the mapped value, or insert a new element. -/
def assign : unordered_map V → String → V → unordered_map V
  | [], key, value => [(key, value)]
  | (k, v) :: m, key, value =>
    if k = key then (k, value) :: m else (k, v) :: assign m key value

end unordered_map

/-- The type `std::shared_ptr<T>`: empty, or the address of a heap object. -/
abbrev shared_ptr := Option Nat

/-! ## The imported scene graph (Assimp) -/

/-- Assimp's `aiVector3D`. -/
structure aiVector3D where
  x : Rat
  y : Rat
  z : Rat
  deriving DecidableEq, Repr

/-- Assimp's `aiFace`: `mIndices` with `mNumIndices` as its length. -/
structure aiFace where
  mIndices : List Nat
  deriving DecidableEq, Repr

/-- The texture semantics of Assimp the code asks for, and the others. -/
inductive aiTextureType where
  | aiTextureType_NONE
  | aiTextureType_DIFFUSE
  | aiTextureType_SPECULAR
  | aiTextureType_AMBIENT
  | aiTextureType_EMISSIVE
  | aiTextureType_HEIGHT
  | aiTextureType_NORMALS
  | aiTextureType_SHININESS
  | aiTextureType_OPACITY
  | aiTextureType_DISPLACEMENT
  | aiTextureType_LIGHTMAP
  | aiTextureType_REFLECTION
  | aiTextureType_UNKNOWN
  deriving DecidableEq, Repr

/-- Assimp's `aiMaterial`, seen through `GetName`, `GetTextureCount` and `GetTexture`. -/
structure aiMaterial where
  /-- The call `GetName().C_Str()` -/
  name : String
  /-- the texture paths of each type: `GetTextureCount(type)` is the length,
  `GetTexture(type, i, &str)` stores entry `i` in `str` -/
  textures : aiTextureType → List String

/-- Assimp's `aiMesh`. The per-vertex arrays share the count `mNumVertices`. -/
structure aiMesh where
  mNumVertices : Nat
  mVertices : List aiVector3D
  /-- null when the file has no normals -/
  mNormals : Option (List aiVector3D)
  /-- the eight texture-coordinate channels, each null when absent -/
  mTextureCoords : Fin 8 → Option (List aiVector3D)
  /-- The array `mFaces` with `mNumFaces` as its length -/
  mFaces : List aiFace
  mMaterialIndex : Nat

/-- Assimp's `aiNode`: indices into the scene's mesh table, and child nodes. -/
inductive aiNode where
  | mk (mMeshes : List Nat) (mChildren : List aiNode)

/-- The mesh indices of a node. -/
def aiNode.mMeshes : aiNode → List Nat
  | aiNode.mk mMeshes _ => mMeshes

/-- The children of a node. -/
def aiNode.mChildren : aiNode → List aiNode
  | aiNode.mk _ mChildren => mChildren

/-- Assimp's `aiScene`. -/
structure aiScene where
  mFlags : Nat
  /-- null when the scene has no root -/
  mRootNode : Option aiNode
  mMeshes : List aiMesh
  mMaterials : List aiMaterial

/-- Value of `AI_SCENE_FLAGS_INCOMPLETE`. -/
def AI_SCENE_FLAGS_INCOMPLETE : Nat := 0x1

/-- Value of `aiProcess_Triangulate`. -/
def aiProcess_Triangulate : Nat := 0x8

/-- Value of `aiProcess_FlipUVs`. -/
def aiProcess_FlipUVs : Nat := 0x800000

/-- An `Assimp::Importer` after `ReadFile`: the scene pointer it returned and
what `GetErrorString()` answers. -/
structure Importer where
  scene : Option aiScene
  errorString : String

/-! ## Shared value types -/

/-- Sizes and offsets of the `Vertex` struct, whose declaration lives in a header. -/
structure VertexLayout where
  sizeofVertex : Nat
  offsetofPosition : Nat
  offsetofNormal : Nat
  offsetofTexCoords : Nat
  offsetofTangent : Nat
  offsetofBitangent : Nat
  offsetofBoneIds : Nat
  offsetofWeights : Nat
  sizeofUnsignedInt : Nat
  deriving DecidableEq, Repr

/-- The `Transform` of a model: position, rotation, scale. -/
structure Transform where
  position : vec3
  rotation : vec3
  scale : vec3
  deriving DecidableEq, Repr

/-! ## The environment -/

/-- The two error bits of a stream state (`std::ios_base::iostate`). -/
structure iostate where
  failbit : Bool
  badbit : Bool
  deriving DecidableEq, Repr

/-- The mask `std::ifstream::badbit`. -/
def ifstream_badbit : iostate := { failbit := false, badbit := true }

/-- A stream whose exception mask is `mask` throws `std::ios_base::failure`
when an operation leaves a bit of the mask set in its state. -/
def iostate.throws (mask state : iostate) : Bool :=
  (mask.failbit && state.failbit) || (mask.badbit && state.badbit)

/-- What `open`, `<< rdbuf()` and `close` on a `std::ifstream` for one path
come to: the error bits left in the stream state and the characters copied. -/
structure FileRead where
  state : iostate
  content : String
  deriving DecidableEq, Repr

/-- The fields of `face->glyph` that the font loader reads after a successful
`FT_Load_Char`. -/
structure FT_GlyphSlotRec where
  bitmap_width : Nat
  bitmap_rows : Nat
  bitmap_left : Int
  bitmap_top : Int
  advance_x : Int
  deriving DecidableEq, Repr

/-- Everything the code depends on and does not define. -/
structure Env where
  /-- The call `stbi_load(path, &w, &h, &n, 0)`: `none` is the null pointer -/
  stbi_load : String → Option Image
  /-- the name handed out by the n-th `glGen*` call -/
  glGenName : Nat → Nat
  /-- The call `importer.ReadFile(path, flags)` -/
  ReadFile : String → Nat → Importer
  /-- opening, reading and closing the file at a path through a `std::ifstream` -/
  ifstream : String → FileRead
  /-- The call `glGetUniformLocation(program, name)` -/
  glGetUniformLocation : Nat → String → Int
  /-- The value of `sizeof(Vertex)` and the `offsetof` values -/
  layout : VertexLayout
  /-- The field `mId` of a default-constructed resource-manager `Texture` -/
  defaultTextureId : Nat
  /-- The field `mName` of a default-constructed resource-manager `Shader` -/
  defaultShaderName : String
  /-- the `transform` of a default-constructed `Model` -/
  defaultTransform : Transform
  /-- The result of `DefWindowProc(hwnd, uMsg, wParam, lParam)` -/
  DefWindowProc : Nat → Nat → Nat → Nat → Int
  /-- The error code `FT_Init_FreeType(&ft)` returns; 0 is success -/
  FT_Init_FreeType : Nat
  /-- The error code `FT_New_Memory_Face(ft, font_data, font_size, 0, &face)`
  returns for the bytes and the size it is given; 0 is success -/
  FT_New_Memory_Face : List Nat → Nat → Nat
  /-- The call `FT_Load_Char(face, c, FT_LOAD_RENDER)` on the face made from the
  given bytes, at 48 pixels: `none` is a nonzero error code, `some glyph` is
  success with `face->glyph` as given -/
  FT_Load_Char : List Nat → Nat → Option FT_GlyphSlotRec
  /-- Opening a file through `std::ifstream(path, std::ios::binary)` and reading
  all of it: `none` when the stream is not good after opening -/
  readBinary : String → Option (List Nat)
  /-- The rounding of an exact result, inside the range of `float`, to the
  `float` that the arithmetic of the machine gives for it -/
  fl : Rat → Rat

namespace Env

/-- The conversion of an integer to `float`. -/
def ofInt (env : Env) (n : Int) : Rat := env.fl n

/-- The product of two `float`s. -/
def fmul (env : Env) (a b : Rat) : Rat := env.fl (a * b)

/-- The sum of two `float`s. -/
def fadd (env : Env) (a b : Rat) : Rat := env.fl (a + b)

/-- The difference of two `float`s. -/
def fsub (env : Env) (a b : Rat) : Rat := env.fl (a - b)

end Env

namespace World

/-- One `glGen*(1, &id)` call: the generated name, recorded through `mk`. -/
def gen (env : Env) (mk : Nat → Effect) (w : World) : Nat × World :=
  let id := env.glGenName w.glGenCount
  (id, { trace := w.trace ++ [mk id], glGenCount := w.glGenCount + 1 })

end World

/-- Checked read `a[i]` of a C array. -/
def readAt {α : Type} (a : List α) (i : Nat) : Except Fault α :=
  match a[i]? with
  | some v => Except.ok v
  | none => Except.error Fault.outOfBounds

/-- Checked read `p[i]` through a pointer that may be null. -/
def readAtPtr {α : Type} (p : Option (List α)) (i : Nat) : Except Fault α :=
  match p with
  | some a => readAt a i
  | none => Except.error Fault.nullPointer

/-! ## `ResourceManager.cpp` -/

namespace palmx.ResourceManager

/-- The `Texture` class of the resource manager (declared in a header): the
field the code writes is `mId`. -/
structure Texture where
  mId : Nat
  deriving DecidableEq, Repr

/-- The `Shader` class of the resource manager (declared in a header): the
field the code writes is `mName`; the call of `Compile` is recorded as an effect. -/
structure Shader where
  mName : String
  deriving DecidableEq, Repr

/-- The static members of `ResourceManager`, the objects their pointers refer
to, and the world. -/
structure State where
  world : World
  /-- heap of `Texture` objects, indexed by address -/
  textures : List Texture
  /-- heap of `Shader` objects, indexed by address -/
  shaders : List Shader
  _cachedTextures : unordered_map shared_ptr
  _cachedShaders : unordered_map shared_ptr
  deriving DecidableEq, Repr

namespace State

/-- Both caches empty, no objects, nothing done yet. -/
def initial : State :=
  { world := World.initial, textures := [], shaders := [],
    _cachedTextures := [], _cachedShaders := [] }

/-- Record one external call. -/
def emit (s : State) (e : Effect) : State :=
  { s with world := s.world.emit e }

end State

/-- The local `format` of `ResourceManager::LoadTexture`: it starts as `GL_RGB`
and the `if` chain on `nrComponents` overwrites it. -/
def LoadTexture.format (nrComponents : Int) : GLenum :=
  let format := GLenum.GL_RGB
  if nrComponents = 1 then GLenum.GL_RED
  else if nrComponents = 3 then GLenum.GL_RGB
  else if nrComponents = 4 then GLenum.GL_RGBA
  else format

/-- The function `ResourceManager::LoadTexture(name, textureSource)`. -/
def LoadTexture (env : Env) (name textureSource : String) (s : State) : shared_ptr × State :=
  match s._cachedTextures.find name with
  | some second => (second, s)
  | none =>
    -- std::shared_ptr<Texture> texture(new Texture);
    let texture := s.textures.length
    let s := { s with textures := s.textures ++ [Texture.mk env.defaultTextureId] }
    -- glGenTextures(1, &textureID);
    let textureID := (s.world.gen env Effect.glGenTextures).1
    let s := { s with world := (s.world.gen env Effect.glGenTextures).2 }
    let s := s.emit (Effect.stbi_load textureSource)
    let s :=
      match env.stbi_load textureSource with
      | some data =>
        let format := LoadTexture.format data.nrComponents
        let s := s.emit (Effect.glBindTexture GLenum.GL_TEXTURE_2D textureID)
        let s := s.emit (Effect.glTexImage2D GLenum.GL_TEXTURE_2D 0 format data.width data.height 0
          format GLenum.GL_UNSIGNED_BYTE)
        let s := s.emit (Effect.glGenerateMipmap GLenum.GL_TEXTURE_2D)
        let s := s.emit (Effect.glTexParameteri GLenum.GL_TEXTURE_2D GLenum.GL_TEXTURE_WRAP_S
          GLenum.GL_REPEAT)
        let s := s.emit (Effect.glTexParameteri GLenum.GL_TEXTURE_2D GLenum.GL_TEXTURE_WRAP_T
          GLenum.GL_REPEAT)
        let s := s.emit (Effect.glTexParameteri GLenum.GL_TEXTURE_2D GLenum.GL_TEXTURE_MIN_FILTER
          GLenum.GL_LINEAR_MIPMAP_LINEAR)
        let s := s.emit (Effect.glTexParameteri GLenum.GL_TEXTURE_2D GLenum.GL_TEXTURE_MAG_FILTER
          GLenum.GL_LINEAR)
        -- texture->mId = textureID;
        let s := { s with textures := s.textures.set texture (Texture.mk textureID) }
        s.emit Effect.stbi_image_free
      | none =>
        let s := s.emit (Effect.LogError ("Texture failed to load at path: " ++ textureSource))
        s.emit Effect.stbi_image_free
    -- _cachedTextures[name] = texture;
    (some texture, { s with _cachedTextures := s._cachedTextures.assign name (some texture) })

/-- The function `ResourceManager::GetTexture(name)`. -/
def GetTexture (name : String) (s : State) : shared_ptr × State :=
  match s._cachedTextures.find name with
  | some second => (second, s)
  | none => (none, s)

/-- The function `ResourceManager::LoadShader(name, vertexShaderSource, fragmentShaderSource)`. -/
def LoadShader (env : Env) (name vertexShaderSource fragmentShaderSource : String) (s : State) :
    shared_ptr × State :=
  match s._cachedShaders.find name with
  | some second => (second, s)
  | none =>
    -- std::shared_ptr<Shader> shader(new Shader);
    let shader := s.shaders.length
    let s := { s with shaders := s.shaders ++ [Shader.mk env.defaultShaderName] }
    -- vShaderFile.exceptions(std::ifstream::badbit);
    -- fShaderFile.exceptions(std::ifstream::badbit);
    let vShaderFile := env.ifstream vertexShaderSource
    let fShaderFile := env.ifstream fragmentShaderSource
    let codes : String × String × State :=
      if ifstream_badbit.throws vShaderFile.state || ifstream_badbit.throws fShaderFile.state then
        -- catch (std::ifstream::failure e)
        ("", "", s.emit (Effect.LogError "Shader file not successfully read"))
      else
        (vShaderFile.content, fShaderFile.content, s)
    let s := codes.2.2.emit (Effect.Compile codes.1 codes.2.1
      (substr vertexShaderSource 0 (find_last_of vertexShaderSource '/')))
    -- shader->mName = name;
    let s := { s with shaders := s.shaders.set shader (Shader.mk name) }
    -- _cachedShaders[name] = shader;
    (some shader, { s with _cachedShaders := s._cachedShaders.assign name (some shader) })

/-- The function `ResourceManager::GetShader(name)`. -/
def GetShader (name : String) (s : State) : shared_ptr × State :=
  match s._cachedShaders.find name with
  | some second => (second, s)
  | none => (none, s)

/-- One call of the public interface of the resource cache. -/
inductive Call where
  | LoadTexture (name textureSource : String)
  | LoadShader (name vertexShaderSource fragmentShaderSource : String)
  | GetTexture (name : String)
  | GetShader (name : String)
  deriving DecidableEq, Repr

/-- Perform one call, dropping the returned pointer. -/
def Call.run (env : Env) : Call → State → State
  | Call.LoadTexture name textureSource, s =>
    (ResourceManager.LoadTexture env name textureSource s).2
  | Call.LoadShader name v f, s => (ResourceManager.LoadShader env name v f s).2
  | Call.GetTexture name, s => (ResourceManager.GetTexture name s).2
  | Call.GetShader name, s => (ResourceManager.GetShader name s).2

/-- Perform a sequence of calls and pair each call with the external calls it
made (the part of the trace it appended). -/
def runLog (env : Env) : List Call → State → List (Call × List Effect)
  | [], _ => []
  | c :: cs, s =>
    (c, ((c.run env s).world.trace.drop s.world.trace.length)) :: runLog env cs (c.run env s)

/-- Does the call belong to the decode-and-upload path of a texture:
the decoder or any GL texture call. -/
def isDecodeOrUpload : Effect → Bool
  | Effect.stbi_load _ => true
  | Effect.glGenTextures _ => true
  | Effect.glBindTexture _ _ => true
  | Effect.glTexImage2D _ _ _ _ _ _ _ _ => true
  | Effect.glGenerateMipmap _ => true
  | Effect.glTexParameteri _ _ _ => true
  | _ => false

/-- Is the call the compilation of a shader. -/
def isCompile : Effect → Bool
  | Effect.Compile _ _ _ => true
  | _ => false

/-- The entries of a run log in which `LoadTexture` was called for `name` and
ran its decode-and-upload path. -/
def textureUploads (name : String) (log : List (Call × List Effect)) : List (Call × List Effect) :=
  log.filter fun entry =>
    match entry.1 with
    | Call.LoadTexture n _ => decide (n = name) && entry.2.any isDecodeOrUpload
    | _ => false

/-- The entries of a run log in which `LoadShader` was called for `name` and
ran its compile path. -/
def shaderCompiles (name : String) (log : List (Call × List Effect)) : List (Call × List Effect) :=
  log.filter fun entry =>
    match entry.1 with
    | Call.LoadShader n _ _ => decide (n = name) && entry.2.any isCompile
    | _ => false

end palmx.ResourceManager

/-! ## `palmx_graphics.cpp` -/

namespace World

/-- Append several calls, in order. -/
def emitAll (w : World) (es : List Effect) : World :=
  { w with trace := w.trace ++ es }

end World

/-- Was the import unusable: the condition
`!scene || scene->mFlags & AI_SCENE_FLAGS_INCOMPLETE || !scene->mRootNode`. -/
def importFailed (scene : Option aiScene) : Bool :=
  match scene with
  | none => true
  | some sc => (sc.mFlags &&& AI_SCENE_FLAGS_INCOMPLETE != 0) || sc.mRootNode.isNone

/-- The calls that describe the seven vertex attributes (the same in
`palmx::ProcessMesh` and in `Mesh::SetupMesh`). -/
def vertexAttribCalls (l : VertexLayout) : List Effect :=
  [ Effect.glEnableVertexAttribArray 0,
    Effect.glVertexAttribPointer 0 3 GLenum.GL_FLOAT GLenum.GL_FALSE l.sizeofVertex 0,
    Effect.glEnableVertexAttribArray 1,
    Effect.glVertexAttribPointer 1 3 GLenum.GL_FLOAT GLenum.GL_FALSE l.sizeofVertex l.offsetofNormal,
    Effect.glEnableVertexAttribArray 2,
    Effect.glVertexAttribPointer 2 2 GLenum.GL_FLOAT GLenum.GL_FALSE l.sizeofVertex l.offsetofTexCoords,
    Effect.glEnableVertexAttribArray 3,
    Effect.glVertexAttribPointer 3 3 GLenum.GL_FLOAT GLenum.GL_FALSE l.sizeofVertex l.offsetofTangent,
    Effect.glEnableVertexAttribArray 4,
    Effect.glVertexAttribPointer 4 3 GLenum.GL_FLOAT GLenum.GL_FALSE l.sizeofVertex l.offsetofBitangent,
    Effect.glEnableVertexAttribArray 5,
    Effect.glVertexAttribIPointer 5 4 GLenum.GL_INT l.sizeofVertex l.offsetofBoneIds,
    Effect.glEnableVertexAttribArray 6,
    Effect.glVertexAttribPointer 6 4 GLenum.GL_FLOAT GLenum.GL_FALSE l.sizeofVertex l.offsetofWeights,
    Effect.glBindVertexArray 0 ]

namespace palmx

/-- The struct `palmx::Texture`. -/
structure Texture where
  id : Nat
  deriving DecidableEq, Repr

/-- The fields of `palmx::Vertex` that `ProcessMesh` writes. Tangent, bitangent,
bone ids and weights are never written by it. -/
structure Vertex where
  position : vec3
  normal : vec3
  tex_coords : vec2
  deriving DecidableEq, Repr

/-- The struct `palmx::Mesh`. -/
structure Mesh where
  vertices : List Vertex
  indices : List Nat
  albedo_texture : Texture
  normal_texture : Texture
  vao : Nat
  vbo : Nat
  ebo : Nat
  deriving DecidableEq, Repr

/-- The struct `palmx::Model`. -/
structure Model where
  meshes : List Mesh
  transform : Transform
  deriving DecidableEq, Repr

/-- The local `format` of `palmx::LoadTexture`: it starts as `GL_RGB` and the
`if` chain on `num_components` overwrites it. -/
def LoadTexture.format (num_components : Int) : GLenum :=
  let format := GLenum.GL_RGB
  if num_components = 1 then GLenum.GL_RED
  else if num_components = 3 then GLenum.GL_RGB
  else if num_components = 4 then GLenum.GL_RGBA
  else format

/-- The function `palmx::LoadTexture(file_path)`. -/
def LoadTexture (env : Env) (file_path : String) (w : World) : Texture × World :=
  let texture_id := (w.gen env Effect.glGenTextures).1
  let w := (w.gen env Effect.glGenTextures).2
  let w := w.emit (Effect.stbi_load file_path)
  let w :=
    match env.stbi_load file_path with
    | some data =>
      let format := LoadTexture.format data.nrComponents
      w.emitAll
        [ Effect.glBindTexture GLenum.GL_TEXTURE_2D texture_id,
          Effect.glTexImage2D GLenum.GL_TEXTURE_2D 0 format data.width data.height 0 format
            GLenum.GL_UNSIGNED_BYTE,
          Effect.glGenerateMipmap GLenum.GL_TEXTURE_2D,
          Effect.glTexParameteri GLenum.GL_TEXTURE_2D GLenum.GL_TEXTURE_WRAP_S GLenum.GL_REPEAT,
          Effect.glTexParameteri GLenum.GL_TEXTURE_2D GLenum.GL_TEXTURE_WRAP_T GLenum.GL_REPEAT,
          Effect.glTexParameteri GLenum.GL_TEXTURE_2D GLenum.GL_TEXTURE_MIN_FILTER GLenum.GL_NEAREST,
          Effect.glTexParameteri GLenum.GL_TEXTURE_2D GLenum.GL_TEXTURE_MAG_FILTER GLenum.GL_NEAREST,
          Effect.stbi_image_free ]
    | none =>
      w.emitAll
        [ Effect.LogError ("Failed to load texture at path: " ++ file_path),
          Effect.stbi_image_free ]
  ({ id := texture_id }, w)

/-- Body of the vertex loop of `ProcessMesh` for index `i`. -/
def ProcessMesh.vertex (ai_mesh : aiMesh) (i : Nat) : Except Fault Vertex :=
  match readAt ai_mesh.mVertices i with
  | Except.error e => Except.error e
  | Except.ok p =>
    match readAtPtr ai_mesh.mNormals i with
    | Except.error e => Except.error e
    | Except.ok n =>
      match ai_mesh.mTextureCoords 0 with
      | some channel =>
        match readAt channel i with
        | Except.error e => Except.error e
        | Except.ok t =>
          Except.ok { position := ⟨p.x, p.y, p.z⟩, normal := ⟨n.x, n.y, n.z⟩,
                      tex_coords := ⟨t.x, t.y⟩ }
      | none =>
        Except.ok { position := ⟨p.x, p.y, p.z⟩, normal := ⟨n.x, n.y, n.z⟩,
                    tex_coords := ⟨0, 0⟩ }

/-- The vertex loop of `ProcessMesh`: `i` runs over the given values, each
vertex is pushed to the back of `vertices`. -/
def ProcessMesh.vertices (ai_mesh : aiMesh) : List Nat → List Vertex → Except Fault (List Vertex)
  | [], vertices => Except.ok vertices
  | i :: rest, vertices =>
    match ProcessMesh.vertex ai_mesh i with
    | Except.error e => Except.error e
    | Except.ok vertex => ProcessMesh.vertices ai_mesh rest (vertices ++ [vertex])

/-- The inner index loop of `ProcessMesh`: push every index of one face. -/
def ProcessMesh.faceIndices : List Nat → List Nat → List Nat
  | [], indices => indices
  | j :: rest, indices => ProcessMesh.faceIndices rest (indices ++ [j])

/-- The outer index loop of `ProcessMesh`, over the faces. -/
def ProcessMesh.indices : List aiFace → List Nat → List Nat
  | [], indices => indices
  | face :: rest, indices =>
    ProcessMesh.indices rest (ProcessMesh.faceIndices face.mIndices indices)

/-- The function `palmx::ProcessMesh(ai_mesh, ai_scene, directory)`. -/
def ProcessMesh (env : Env) (ai_mesh : aiMesh) (ai_scene : aiScene) (directory : String)
    (w : World) : Except Fault (Mesh × World) :=
  match ProcessMesh.vertices ai_mesh (List.range ai_mesh.mNumVertices) [] with
  | Except.error e => Except.error e
  | Except.ok vertices =>
    let indices := ProcessMesh.indices ai_mesh.mFaces []
    -- Load Materials
    match readAt ai_scene.mMaterials ai_mesh.mMaterialIndex with
    | Except.error e => Except.error e
    | Except.ok material =>
      let material_name := material.name
      let albedo := LoadTexture env (directory ++ "/" ++ material_name ++ "_texture_albedo.jpg") w
      let normal := LoadTexture env (directory ++ "/" ++ material_name ++ "_texture_normal.jpg")
        albedo.2
      -- Create buffers/arrays
      let vao := normal.2.gen env Effect.glGenVertexArrays
      let vbo := vao.2.gen env Effect.glGenBuffers
      let ebo := vbo.2.gen env Effect.glGenBuffers
      let w := ebo.2.emitAll
        ([ Effect.glBindVertexArray vao.1,
           Effect.glBindBuffer GLenum.GL_ARRAY_BUFFER vbo.1,
           Effect.glBufferData GLenum.GL_ARRAY_BUFFER
             (vertices.length * env.layout.sizeofVertex) GLenum.GL_STATIC_DRAW,
           Effect.glBindBuffer GLenum.GL_ELEMENT_ARRAY_BUFFER ebo.1,
           Effect.glBufferData GLenum.GL_ELEMENT_ARRAY_BUFFER
             (indices.length * env.layout.sizeofUnsignedInt) GLenum.GL_STATIC_DRAW ]
          ++ vertexAttribCalls env.layout)
      Except.ok
        ({ vertices := vertices, indices := indices, albedo_texture := albedo.1,
           normal_texture := normal.1, vao := vao.1, vbo := vbo.1, ebo := ebo.1 }, w)

/-- The first loop of `palmx::ProcessNode`: process the meshes a node refers
to, pushing each to the back of `meshes`. -/
def ProcessNode.meshes (env : Env) (ai_scene : aiScene) (directory : String) :
    List Nat → List Mesh → World → Except Fault (List Mesh × World)
  | [], meshes, w => Except.ok (meshes, w)
  | index :: rest, meshes, w =>
    match readAt ai_scene.mMeshes index with
    | Except.error e => Except.error e
    | Except.ok ai_mesh =>
      match ProcessMesh env ai_mesh ai_scene directory w with
      | Except.error e => Except.error e
      | Except.ok r => ProcessNode.meshes env ai_scene directory rest (meshes ++ [r.1]) r.2

mutual

/-- The function `palmx::ProcessNode(ai_node, ai_scene, directory)`. -/
def ProcessNode (env : Env) (ai_scene : aiScene) (directory : String) :
    aiNode → World → Except Fault (List Mesh × World)
  | aiNode.mk mMeshes mChildren, w =>
    match ProcessNode.meshes env ai_scene directory mMeshes [] w with
    | Except.error e => Except.error e
    | Except.ok r => ProcessNode.children env ai_scene directory mChildren r.1 r.2

/-- The second loop of `palmx::ProcessNode`: recurse into each child and
insert its meshes at the end of `meshes`. -/
def ProcessNode.children (env : Env) (ai_scene : aiScene) (directory : String) :
    List aiNode → List Mesh → World → Except Fault (List Mesh × World)
  | [], meshes, w => Except.ok (meshes, w)
  | child :: rest, meshes, w =>
    match ProcessNode env ai_scene directory child w with
    | Except.error e => Except.error e
    | Except.ok r => ProcessNode.children env ai_scene directory rest (meshes ++ r.1) r.2

end

/-- The function `palmx::LoadModel(file_path)`. -/
def LoadModel (env : Env) (file_path : String) (w : World) : Except Fault (Model × World) :=
  let importer := env.ReadFile file_path (aiProcess_Triangulate ||| aiProcess_FlipUVs)
  if importFailed importer.scene then
    let error := importer.errorString
    Except.ok ({ meshes := [], transform := env.defaultTransform },
      w.emit (Effect.LogError ("ASSIMP::" ++ error)))
  else
    match importer.scene with
    | none => Except.error Fault.nullPointer
    | some ai_scene =>
      match ai_scene.mRootNode with
      | none => Except.error Fault.nullPointer
      | some mRootNode =>
        match ProcessNode env ai_scene
            (substr file_path 0 (find_last_of file_path '/')) mRootNode w with
        | Except.error e => Except.error e
        | Except.ok r => Except.ok ({ meshes := r.1, transform := env.defaultTransform }, r.2)

/-- The struct `palmx::Shader`: the name of the GL program. -/
structure Shader where
  id : Nat
  deriving DecidableEq, Repr

/-- The struct `palmx::Color`. -/
structure Color where
  r : Rat
  g : Rat
  b : Rat
  a : Rat
  deriving DecidableEq, Repr

/-- The fields of `palmx::Primitive` that `DrawPrimitive` reads. -/
structure Primitive where
  transform : Transform
  color : Color
  vao : Nat
  vbo : Nat
  deriving DecidableEq, Repr

/-- The function `GetShaderUniformLocation(shader, uniform_name)`. -/
def GetShaderUniformLocation (env : Env) (shader : Shader) (uniform_name : String) (w : World) :
    Int × World :=
  let location := env.glGetUniformLocation shader.id uniform_name
  (location, w.emit (Effect.glGetUniformLocation shader.id uniform_name))

/-- The body of the loop of `DrawModel`, for one mesh of the model. The
texture unit `GL_TEXTURE0 + k` is recorded as `k`, the count of the draw call
as the `unsigned int` that the cast gives. -/
def DrawModel.mesh (env : Env) (model_shader : Shader) (transform : Transform) (mesh : Mesh)
    (w : World) : World :=
  -- Render the mesh
  let model_mat4 := glm.mat4_1
  let model_mat4 := glm.translate model_mat4 transform.position
  let model_mat4 := glm.scale model_mat4 transform.scale
  let location := GetShaderUniformLocation env model_shader "model" w
  let w := location.2.emit (Effect.glUniformMatrix4fv location.1 1 GLenum.GL_FALSE model_mat4)
  let w := w.emit (Effect.glActiveTexture 0)
  let location := GetShaderUniformLocation env model_shader "texture_albedo" w
  let w := location.2.emit (Effect.glUniform1i location.1 0)
  let w := w.emit (Effect.glBindTexture GLenum.GL_TEXTURE_2D mesh.albedo_texture.id)
  let w := w.emit (Effect.glActiveTexture 1)
  let location := GetShaderUniformLocation env model_shader "texture_normal" w
  let w := location.2.emit (Effect.glUniform1i location.1 1)
  let w := w.emit (Effect.glBindTexture GLenum.GL_TEXTURE_2D mesh.normal_texture.id)
  -- Draw mesh
  w.emitAll
    [ Effect.glBindVertexArray mesh.vao,
      Effect.glDrawElements GLenum.GL_TRIANGLES (mesh.indices.length % 2 ^ 32)
        GLenum.GL_UNSIGNED_INT 0,
      Effect.glBindVertexArray 0,
      Effect.glActiveTexture 0 ]

/-- The loop of `DrawModel` over `model.meshes`. -/
def DrawModel.loop (env : Env) (model_shader : Shader) (transform : Transform) :
    List Mesh → World → World
  | [], w => w
  | mesh :: rest, w =>
    DrawModel.loop env model_shader transform rest
      (DrawModel.mesh env model_shader transform mesh w)

/-- The function `palmx::DrawModel(model)`; `model_shader` is the global of
that name. The model is passed by reference and comes back as the first
component. -/
def DrawModel (env : Env) (model_shader : Shader) (model : Model) (w : World) : Model × World :=
  let w := w.emit (Effect.glUseProgram model_shader.id)
  (model, DrawModel.loop env model_shader model.transform model.meshes w)

/-- The function `palmx::DrawPrimitive(primitive)`; `primitive_shader` is the
global of that name. -/
def DrawPrimitive (env : Env) (primitive_shader : Shader) (primitive : Primitive) (w : World) :
    Primitive × World :=
  let w := w.emit (Effect.glDisable GLenum.GL_CULL_FACE)
  let w := w.emit (Effect.glUseProgram primitive_shader.id)
  let location := GetShaderUniformLocation env primitive_shader "color" w
  let w := location.2.emit (Effect.glUniform4f location.1 primitive.color.r primitive.color.g
    primitive.color.b primitive.color.a)
  let model := glm.mat4_1
  let model := glm.translate model primitive.transform.position
  -- Rotate around all three axes using Euler Angles
  let model := glm.rotate model (glm.radians primitive.transform.rotation.x) ⟨1, 0, 0⟩
  let model := glm.rotate model (glm.radians primitive.transform.rotation.y) ⟨0, 1, 0⟩
  let model := glm.rotate model (glm.radians primitive.transform.rotation.z) ⟨0, 0, 1⟩
  let model := glm.scale model primitive.transform.scale
  let location := GetShaderUniformLocation env primitive_shader "model" w
  let w := location.2.emit (Effect.glUniformMatrix4fv location.1 1 GLenum.GL_FALSE model)
  let w := w.emitAll
    [ Effect.glBindVertexArray primitive.vao,
      Effect.glDrawArrays GLenum.GL_TRIANGLES 0 36,
      Effect.glBindVertexArray 0,
      -- Enable it again
      Effect.glEnable GLenum.GL_CULL_FACE ]
  (primitive, w)

end palmx

/-! ## `Model.cpp` and `Mesh.cpp` -/

namespace PalmEngine

/-- The struct `PalmEngine::Texture` as `Model.cpp` fills it. -/
structure Texture where
  mID : Nat
  mType : String
  mPath : String
  deriving DecidableEq, Repr

/-- The fields of `PalmEngine::Vertex` that `ProcessMesh` writes. -/
structure Vertex where
  mPosition : vec3
  mNormal : vec3
  mTexCoords : vec2
  deriving DecidableEq, Repr

/-- The class `PalmEngine::Mesh` as `Model.cpp` constructs it: vertices,
indices, a texture list, and the three GL names made by `SetupMesh`. -/
structure Mesh where
  mVertices : List Vertex
  mIndices : List Nat
  mTextures : List Texture
  mVAO : Nat
  _VBO : Nat
  _EBO : Nat
  deriving DecidableEq, Repr

/-- The constructor `Mesh::Mesh(vertices, indices, ...)`: store the arguments,
then run `SetupMesh()`. -/
def Mesh.construct (env : Env) (vertices : List Vertex) (indices : List Nat) (textures : List Texture)
    (w : World) : Mesh × World :=
  -- SetupMesh()
  let vao := w.gen env Effect.glGenVertexArrays
  let vbo := vao.2.gen env Effect.glGenBuffers
  let ebo := vbo.2.gen env Effect.glGenBuffers
  let w := ebo.2.emitAll
    ([ Effect.glBindVertexArray vao.1,
       Effect.glBindBuffer GLenum.GL_ARRAY_BUFFER vbo.1,
       Effect.glBufferData GLenum.GL_ARRAY_BUFFER
         (vertices.length * env.layout.sizeofVertex) GLenum.GL_STATIC_DRAW,
       Effect.glBindBuffer GLenum.GL_ELEMENT_ARRAY_BUFFER ebo.1,
       Effect.glBufferData GLenum.GL_ELEMENT_ARRAY_BUFFER
         (indices.length * env.layout.sizeofUnsignedInt) GLenum.GL_STATIC_DRAW ]
      ++ vertexAttribCalls env.layout)
  ({ mVertices := vertices, mIndices := indices, mTextures := textures,
     mVAO := vao.1, _VBO := vbo.1, _EBO := ebo.1 }, w)

/-- The local `format` of `TextureFromFile`: it starts as `GL_RGB` and the `if`
chain on `nrComponents` overwrites it. -/
def TextureFromFile.format (nrComponents : Int) : GLenum :=
  let format := GLenum.GL_RGB
  if nrComponents = 1 then GLenum.GL_RED
  else if nrComponents = 3 then GLenum.GL_RGB
  else if nrComponents = 4 then GLenum.GL_RGBA
  else format

/-- The free function `TextureFromFile(path, directory)` of `Model.cpp`. -/
def TextureFromFile (env : Env) (path directory : String) (w : World) : Nat × World :=
  let filename := directory ++ "/" ++ path
  let w := w.emit (Effect.LogInfo filename)
  let textureID := (w.gen env Effect.glGenTextures).1
  let w := (w.gen env Effect.glGenTextures).2
  let w := w.emit (Effect.stbi_load filename)
  let w :=
    match env.stbi_load filename with
    | some data =>
      let format := TextureFromFile.format data.nrComponents
      w.emitAll
        [ Effect.glBindTexture GLenum.GL_TEXTURE_2D textureID,
          Effect.glTexImage2D GLenum.GL_TEXTURE_2D 0 format data.width data.height 0 format
            GLenum.GL_UNSIGNED_BYTE,
          Effect.glGenerateMipmap GLenum.GL_TEXTURE_2D,
          Effect.glTexParameteri GLenum.GL_TEXTURE_2D GLenum.GL_TEXTURE_WRAP_S GLenum.GL_REPEAT,
          Effect.glTexParameteri GLenum.GL_TEXTURE_2D GLenum.GL_TEXTURE_WRAP_T GLenum.GL_REPEAT,
          Effect.glTexParameteri GLenum.GL_TEXTURE_2D GLenum.GL_TEXTURE_MIN_FILTER
            GLenum.GL_LINEAR_MIPMAP_LINEAR,
          Effect.glTexParameteri GLenum.GL_TEXTURE_2D GLenum.GL_TEXTURE_MAG_FILTER GLenum.GL_LINEAR,
          Effect.stbi_image_free ]
    | none =>
      w.emitAll
        [ Effect.LogError ("Texture failed to load at path: " ++ path),
          Effect.stbi_image_free ]
  (textureID, w)

/-- The class `PalmEngine::Model`. -/
structure Model where
  _meshes : List Mesh
  _directory : String
  deriving DecidableEq, Repr

namespace Model

/-- The default constructor `Model::Model()`. -/
def construct : Model := { _meshes := [], _directory := "" }

/-- The loop of `Model::LoadMaterialTextures` over the texture paths of one type. -/
def LoadMaterialTextures.loop (env : Env) (self : Model) (typeName : String) :
    List String → List Texture → World → List Texture × World
  | [], textures, w => (textures, w)
  | str :: rest, textures, w =>
    let id := TextureFromFile env str self._directory w
    LoadMaterialTextures.loop env self typeName rest
      (textures ++ [{ mID := id.1, mType := typeName, mPath := str }]) id.2

/-- The function `Model::LoadMaterialTextures(mat, type, typeName)`. -/
def LoadMaterialTextures (env : Env) (self : Model) (mat : aiMaterial) (type : aiTextureType)
    (typeName : String) (w : World) : List Texture × World :=
  LoadMaterialTextures.loop env self typeName (mat.textures type) [] w

/-- Body of the vertex loop of `Model::ProcessMesh` for index `i`. -/
def ProcessMesh.vertex (mesh : aiMesh) (i : Nat) : Except Fault Vertex :=
  match readAt mesh.mVertices i with
  | Except.error e => Except.error e
  | Except.ok p =>
    match readAtPtr mesh.mNormals i with
    | Except.error e => Except.error e
    | Except.ok n =>
      match mesh.mTextureCoords 0 with
      | some channel =>
        match readAt channel i with
        | Except.error e => Except.error e
        | Except.ok t =>
          Except.ok { mPosition := ⟨p.x, p.y, p.z⟩, mNormal := ⟨n.x, n.y, n.z⟩,
                      mTexCoords := ⟨t.x, t.y⟩ }
      | none =>
        Except.ok { mPosition := ⟨p.x, p.y, p.z⟩, mNormal := ⟨n.x, n.y, n.z⟩,
                    mTexCoords := ⟨0, 0⟩ }

/-- The vertex loop of `Model::ProcessMesh`. -/
def ProcessMesh.vertices (mesh : aiMesh) : List Nat → List Vertex → Except Fault (List Vertex)
  | [], vertices => Except.ok vertices
  | i :: rest, vertices =>
    match ProcessMesh.vertex mesh i with
    | Except.error e => Except.error e
    | Except.ok vertex => ProcessMesh.vertices mesh rest (vertices ++ [vertex])

/-- The inner index loop of `Model::ProcessMesh`: push every index of one face. -/
def ProcessMesh.faceIndices : List Nat → List Nat → List Nat
  | [], indices => indices
  | j :: rest, indices => ProcessMesh.faceIndices rest (indices ++ [j])

/-- The outer index loop of `Model::ProcessMesh`, over the faces. -/
def ProcessMesh.indices : List aiFace → List Nat → List Nat
  | [], indices => indices
  | face :: rest, indices =>
    ProcessMesh.indices rest (ProcessMesh.faceIndices face.mIndices indices)

/-- The function `Model::ProcessMesh(mesh, scene)`. -/
def ProcessMesh (env : Env) (self : Model) (mesh : aiMesh) (scene : aiScene) (w : World) :
    Except Fault (Mesh × World) :=
  match ProcessMesh.vertices mesh (List.range mesh.mNumVertices) [] with
  | Except.error e => Except.error e
  | Except.ok vertices =>
    let indices := ProcessMesh.indices mesh.mFaces []
    -- Process material
    if 0 ≤ mesh.mMaterialIndex then
      match readAt scene.mMaterials mesh.mMaterialIndex with
      | Except.error e => Except.error e
      | Except.ok material =>
        let w := w.emit (Effect.LogInfo material.name)
        let diffuseMaps := LoadMaterialTextures env self material
          aiTextureType.aiTextureType_DIFFUSE "texture_diffuse" w
        let specularMaps := LoadMaterialTextures env self material
          aiTextureType.aiTextureType_SPECULAR "texture_specular" diffuseMaps.2
        Except.ok (Mesh.construct env vertices indices (diffuseMaps.1 ++ specularMaps.1) specularMaps.2)
    else
      Except.ok (Mesh.construct env vertices indices [] w)

/-- The first loop of `Model::ProcessNode`: process the meshes a node refers
to, pushing each to the back of `_meshes`. -/
def ProcessNode.meshes (env : Env) (scene : aiScene) :
    List Nat → Model → World → Except Fault (Model × World)
  | [], self, w => Except.ok (self, w)
  | index :: rest, self, w =>
    match readAt scene.mMeshes index with
    | Except.error e => Except.error e
    | Except.ok mesh =>
      match ProcessMesh env self mesh scene w with
      | Except.error e => Except.error e
      | Except.ok r =>
        ProcessNode.meshes env scene rest { self with _meshes := self._meshes ++ [r.1] } r.2

mutual

/-- The function `Model::ProcessNode(node, scene)`. -/
def ProcessNode (env : Env) (scene : aiScene) : aiNode → Model → World → Except Fault (Model × World)
  | aiNode.mk mMeshes mChildren, self, w =>
    match ProcessNode.meshes env scene mMeshes self w with
    | Except.error e => Except.error e
    | Except.ok r => ProcessNode.children env scene mChildren r.1 r.2

/-- The second loop of `Model::ProcessNode`: recurse into each child. -/
def ProcessNode.children (env : Env) (scene : aiScene) :
    List aiNode → Model → World → Except Fault (Model × World)
  | [], self, w => Except.ok (self, w)
  | child :: rest, self, w =>
    match ProcessNode env scene child self w with
    | Except.error e => Except.error e
    | Except.ok r => ProcessNode.children env scene rest r.1 r.2

end

/-- The function `Model::LoadModel(path)`. -/
def LoadModel (env : Env) (self : Model) (path : String) (w : World) :
    Except Fault (Model × World) :=
  let importer := env.ReadFile path (aiProcess_Triangulate ||| aiProcess_FlipUVs)
  if importFailed importer.scene then
    let error := importer.errorString
    Except.ok (self, w.emit (Effect.LogError ("ASSIMP::" ++ error)))
  else
    match importer.scene with
    | none => Except.error Fault.nullPointer
    | some scene =>
      match scene.mRootNode with
      | none => Except.error Fault.nullPointer
      | some mRootNode =>
        let self := { self with _directory := substr path 0 (find_last_of path '/') }
        ProcessNode env scene mRootNode self w

end Model

end PalmEngine

/-! ## `Mesh.cpp` -/

namespace PalmEngine.MeshCpp

/-- The struct `Material` of `Mesh.cpp`: an albedo and a normal texture. -/
structure Material where
  mAlbedoTexture : Texture
  mNormalTexture : Texture
  deriving DecidableEq, Repr

/-- The class `Shader` as `Mesh::Draw` uses it: the program handle `mID`. -/
structure Shader where
  mID : Nat
  deriving DecidableEq, Repr

/-- The class `PalmEngine::Mesh` as `Mesh.cpp` defines it, with a material. -/
structure Mesh where
  mVertices : List Vertex
  mIndices : List Nat
  mMaterial : Material
  mVAO : Nat
  _VBO : Nat
  _EBO : Nat
  deriving DecidableEq, Repr

/-- The function `Mesh::SetupMesh()`. -/
def Mesh.SetupMesh (env : Env) (self : Mesh) (w : World) : Mesh × World :=
  -- Create buffers/arrays
  let vao := w.gen env Effect.glGenVertexArrays
  let vbo := vao.2.gen env Effect.glGenBuffers
  let ebo := vbo.2.gen env Effect.glGenBuffers
  let w := ebo.2.emitAll
    ([ Effect.glBindVertexArray vao.1,
       Effect.glBindBuffer GLenum.GL_ARRAY_BUFFER vbo.1,
       Effect.glBufferData GLenum.GL_ARRAY_BUFFER
         (self.mVertices.length * env.layout.sizeofVertex) GLenum.GL_STATIC_DRAW,
       Effect.glBindBuffer GLenum.GL_ELEMENT_ARRAY_BUFFER ebo.1,
       Effect.glBufferData GLenum.GL_ELEMENT_ARRAY_BUFFER
         (self.mIndices.length * env.layout.sizeofUnsignedInt) GLenum.GL_STATIC_DRAW ]
      ++ vertexAttribCalls env.layout)
  ({ self with mVAO := vao.1, _VBO := vbo.1, _EBO := ebo.1 }, w)

/-- The constructor `Mesh::Mesh(vertices, indices, material)`: store the
arguments, then run `SetupMesh()` (which sets the three GL names). -/
def Mesh.construct (env : Env) (vertices : List Vertex) (indices : List Nat)
    (material : Material) (w : World) : Mesh × World :=
  Mesh.SetupMesh env
    { mVertices := vertices, mIndices := indices, mMaterial := material,
      mVAO := 0, _VBO := 0, _EBO := 0 } w

/-- The function `Mesh::Draw(_shader)`. The texture unit `GL_TEXTURE0 + k` is
recorded as `k`, the count of the draw call as the `unsigned int` that the
cast gives. -/
def Mesh.Draw (env : Env) (self : Mesh) (_shader : Shader) (w : World) : World :=
  w.emitAll
    [ Effect.glActiveTexture 0,
      Effect.glGetUniformLocation _shader.mID "texture_albedo",
      Effect.glUniform1i (env.glGetUniformLocation _shader.mID "texture_albedo") 0,
      Effect.glBindTexture GLenum.GL_TEXTURE_2D self.mMaterial.mAlbedoTexture.mID,
      Effect.glActiveTexture 1,
      Effect.glGetUniformLocation _shader.mID "texture_normal",
      Effect.glUniform1i (env.glGetUniformLocation _shader.mID "texture_normal") 1,
      Effect.glBindTexture GLenum.GL_TEXTURE_2D self.mMaterial.mNormalTexture.mID,
      -- Draw mesh
      Effect.glBindVertexArray self.mVAO,
      Effect.glDrawElements GLenum.GL_TRIANGLES (self.mIndices.length % 2 ^ 32)
        GLenum.GL_UNSIGNED_INT 0,
      Effect.glBindVertexArray 0,
      Effect.glActiveTexture 0 ]

/-- The members of `PalmEngine::Model` that `Model::Draw` reads, with the
`Mesh` of `Mesh.cpp` as the element type of `_meshes`. -/
structure Model where
  _meshes : List Mesh
  _directory : String
  deriving DecidableEq, Repr

/-- The loop of `Model::Draw`: `_meshes[i].Draw(_shader)` for `i` from 0 up to
`_meshes.size()`. -/
def Model.Draw.loop (env : Env) (_shader : Shader) : List Mesh → World → World
  | [], w => w
  | mesh :: rest, w => Model.Draw.loop env _shader rest (mesh.Draw env _shader w)

/-- The function `Model::Draw(_shader)` of `Model.cpp`, for a model of fewer
than 2^32 meshes (the counter `i` is an `unsigned int`). The object comes back
as the first component. -/
def Model.Draw (env : Env) (self : Model) (_shader : Shader) (w : World) : Model × World :=
  (self, Model.Draw.loop env _shader self._meshes w)

end PalmEngine.MeshCpp

/-! ## `std::map<char, V>` -/

/-- Association list standing for `std::map<char, V>`; a character of a `String`
stands for a `char`. -/
abbrev std_map (V : Type) := List (Char × V)

namespace std_map

variable {V : Type}

/-- The operation `m.find(key)`: `none` stands for `m.end()`. -/
def find : std_map V → Char → Option V
  | [], _ => none
  | (k, v) :: m, key => if k = key then some v else find m key

/-- The operation `m.insert(std::pair(key, value))`: a new element, unless the
key is already there. -/
def insert : std_map V → Char → V → std_map V
  | [], key, value => [(key, value)]
  | (k, v) :: m, key, value =>
    if k = key then (k, v) :: m else (k, v) :: insert m key value

/-- The operation `m[key]`: the mapped value, after inserting `zero` (the
value-initialised `V`) when the key is not there. -/
def subscript (m : std_map V) (key : Char) (zero : V) : V × std_map V :=
  match m.find key with
  | some v => (v, m)
  | none => (zero, m.insert key zero)

/-- The keys of the map. -/
def keys (m : std_map V) : List Char := m.map Prod.fst

end std_map

/-! ## `palmx_ui.cpp` -/

namespace palmx

/-- The type `glm::ivec2`. -/
structure ivec2 where
  x : Int
  y : Int
  deriving DecidableEq, Repr

/-- The struct `palmx::Character`: glyph texture, size, bearing, advance. -/
structure Character where
  texture : Texture
  size : ivec2
  bearing : ivec2
  advance : Nat
  deriving DecidableEq, Repr

/-- Modelled from the spec: the value-initialised `Character` that `operator[]`
of the map inserts. The declaration of `Character` (in `palmx.h`, with its
default member initialisers, if any) is missing; the specification has the
default entry as zero texture, zero size, zero bearing, zero advance, which is
also what value-initialisation gives for the plain aggregate that the
initialiser list in `LoadFontFromMemory` shows. -/
def Character.zero : Character :=
  { texture := ⟨0⟩, size := ⟨0, 0⟩, bearing := ⟨0, 0⟩, advance := 0 }

/-- The struct `palmx::Font`. -/
structure Font where
  characters : std_map Character
  deriving DecidableEq, Repr

/-- The globals of `palmx_ui.cpp` that the text functions use. -/
structure UserInterface where
  font : Font
  font_shader : Shader
  text_vao : Nat
  text_vbo : Nat
  deriving DecidableEq, Repr

/-- The body of the glyph loop of `LoadFontFromMemory`, for the character code `c`. -/
def LoadFontFromMemory.glyph (env : Env) (font_data : List Nat) (c : Nat)
    (characters : std_map Character) (w : World) : std_map Character × World :=
  -- Load character glyph
  match env.FT_Load_Char font_data c with
  | none => (characters, w.emit (Effect.LogError "Failed to load glyph"))
  | some glyph =>
    -- Generate texture
    let texture_id := (w.gen env Effect.glGenTextures).1
    let w := (w.gen env Effect.glGenTextures).2
    let w := w.emitAll
      [ Effect.glBindTexture GLenum.GL_TEXTURE_2D texture_id,
        Effect.glTexImage2D GLenum.GL_TEXTURE_2D 0 GLenum.GL_RED glyph.bitmap_width
          glyph.bitmap_rows 0 GLenum.GL_RED GLenum.GL_UNSIGNED_BYTE,
        Effect.glTexParameteri GLenum.GL_TEXTURE_2D GLenum.GL_TEXTURE_WRAP_S
          GLenum.GL_CLAMP_TO_EDGE,
        Effect.glTexParameteri GLenum.GL_TEXTURE_2D GLenum.GL_TEXTURE_WRAP_T
          GLenum.GL_CLAMP_TO_EDGE,
        Effect.glTexParameteri GLenum.GL_TEXTURE_2D GLenum.GL_TEXTURE_MIN_FILTER GLenum.GL_LINEAR,
        Effect.glTexParameteri GLenum.GL_TEXTURE_2D GLenum.GL_TEXTURE_MAG_FILTER GLenum.GL_LINEAR ]
    -- Store character for later use
    let character : Character :=
      { texture := ⟨texture_id⟩
        size := ⟨glyph.bitmap_width, glyph.bitmap_rows⟩
        bearing := ⟨glyph.bitmap_left, glyph.bitmap_top⟩
        advance := (glyph.advance_x % 2 ^ 32).toNat }
    (characters.insert (Char.ofNat c) character, w)

/-- The glyph loop of `LoadFontFromMemory`; `c` runs over the given codes. -/
def LoadFontFromMemory.glyphs (env : Env) (font_data : List Nat) :
    List Nat → std_map Character → World → std_map Character × World
  | [], characters, w => (characters, w)
  | c :: rest, characters, w =>
    let r := LoadFontFromMemory.glyph env font_data c characters w
    LoadFontFromMemory.glyphs env font_data rest r.1 r.2

/-- The function `palmx::LoadFontFromMemory(font_data, font_size)`; `none` is
the null pointer. -/
def LoadFontFromMemory (env : Env) (font_data : Option (List Nat)) (font_size : Nat)
    (w : World) : Font × World :=
  let characters : std_map Character := []
  match font_data with
  | none =>
    ({ characters := characters },
      w.emit (Effect.LogError "Failed to load font from memory: Invalid data"))
  | some data =>
    if font_size = 0 then
      ({ characters := characters },
        w.emit (Effect.LogError "Failed to load font from memory: Invalid data"))
    else if env.FT_Init_FreeType ≠ 0 then
      ({ characters := characters }, w.emit (Effect.LogError "Could not init FreeType Library"))
    else if env.FT_New_Memory_Face data font_size ≠ 0 then
      let w := w.emit (Effect.LogError "Failed to load font from memory")
      let w := w.emit Effect.FT_Done_FreeType
      ({ characters := characters }, w)
    else
      let w := w.emit (Effect.FT_Set_Pixel_Sizes 0 48)
      -- Disable byte-alignment restriction
      let w := w.emit (Effect.glPixelStorei GLenum.GL_UNPACK_ALIGNMENT 1)
      -- Load first 128 characters of ASCII set
      let loaded := LoadFontFromMemory.glyphs env data (List.range 128) characters w
      let w := loaded.2.emit (Effect.glBindTexture GLenum.GL_TEXTURE_2D 0)
      -- Destroy FreeType once finished
      let w := w.emit Effect.FT_Done_Face
      let w := w.emit Effect.FT_Done_FreeType
      ({ characters := loaded.1 }, w)

/-- The function `palmx::LoadFont(file_path)`. -/
def LoadFont (env : Env) (file_path : String) (w : World) : Font × World :=
  if file_path ≠ "" then
    -- Read font file into memory
    match env.readBinary file_path with
    | some font_data => LoadFontFromMemory env (some font_data) (font_data.length % 2 ^ 32) w
    | none =>
      ({ characters := [] }, w.emit (Effect.LogError ("Failed to load font file: " ++ file_path)))
  else
    ({ characters := [] }, w.emit (Effect.LogError "Failed to load font: Empty file path"))

/-- The function `palmx::SetFont(new_font)`. -/
def SetFont (new_font : Font) (ui : UserInterface) : UserInterface :=
  { ui with font := new_font }

/-- The body of the loop of `DrawText`, for the character `c`: the font, the
pen position and the world after it. The `int` and `unsigned int` operands are
converted to `float` and every product, sum and difference is rounded. -/
def DrawText.character (env : Env) (text_vbo : Nat) (scale : Rat) (c : Char) (font : Font)
    (position : vec2) (w : World) : Font × vec2 × World :=
  let looked := font.characters.subscript c Character.zero
  let ch := looked.1
  let font : Font := { characters := looked.2 }
  let xpos := env.fadd position.x (env.fmul (env.ofInt ch.bearing.x) scale)
  let ypos := env.fsub position.y (env.fmul (env.ofInt (ch.size.y - ch.bearing.y)) scale)
  let width := env.fmul (env.ofInt ch.size.x) scale
  let h := env.fmul (env.ofInt ch.size.y) scale
  -- Update VBO for each character
  let vertices : List (List Rat) :=
    [ [xpos, env.fadd ypos h, 0, 0],
      [xpos, ypos, 0, 1],
      [env.fadd xpos width, ypos, 1, 1],
      [xpos, env.fadd ypos h, 0, 0],
      [env.fadd xpos width, ypos, 1, 1],
      [env.fadd xpos width, env.fadd ypos h, 1, 0] ]
  let w := w.emitAll
    [ -- Render glyph texture over quad
      Effect.glBindTexture GLenum.GL_TEXTURE_2D ch.texture.id,
      -- Update content of VBO memory
      Effect.glBindBuffer GLenum.GL_ARRAY_BUFFER text_vbo,
      Effect.glBufferSubData GLenum.GL_ARRAY_BUFFER 0 (6 * 4 * 4) vertices,
      Effect.glBindBuffer GLenum.GL_ARRAY_BUFFER 0,
      -- Render Quad
      Effect.glDrawArrays GLenum.GL_TRIANGLES 0 6 ]
  -- Advance cursors for next glyph (note that advance is number of 1/64 pixels)
  let position : vec2 :=
    { position with
      x := env.fadd position.x (env.fmul (env.ofInt ((ch.advance >>> 6 : Nat) : Int)) scale) }
  (font, position, w)

/-- The loop of `DrawText` over the characters of the text. -/
def DrawText.loop (env : Env) (text_vbo : Nat) (scale : Rat) :
    List Char → Font → vec2 → World → Font × vec2 × World
  | [], font, position, w => (font, position, w)
  | c :: rest, font, position, w =>
    let r := DrawText.character env text_vbo scale c font position w
    DrawText.loop env text_vbo scale rest r.1 r.2.1 r.2.2

/-- The function `palmx::DrawText(text, position, scale, color)` on the globals
`ui`, which come back as the first component. -/
def DrawText (env : Env) (ui : UserInterface) (text : String) (position : vec2) (scale : Rat)
    (color : Color) (w : World) : UserInterface × World :=
  -- Activate corresponding render state
  let w := w.emit (Effect.glUseProgram ui.font_shader.id)
  let w := w.emit (Effect.glGetUniformLocation ui.font_shader.id "textColor")
  let w := w.emit (Effect.glUniform4f (env.glGetUniformLocation ui.font_shader.id "textColor")
    color.r color.g color.b color.a)
  let w := w.emit (Effect.glActiveTexture 0)
  let w := w.emit (Effect.glBindVertexArray ui.text_vao)
  -- Iterate through all characters
  let r := DrawText.loop env ui.text_vbo scale text.data ui.font position w
  let w := r.2.2.emit (Effect.glBindVertexArray 0)
  let w := w.emit (Effect.glBindTexture GLenum.GL_TEXTURE_2D 0)
  ({ ui with font := r.1 }, w)

end palmx

/-! ## `Input.cpp` -/

/-- The window message `WM_DESTROY`. -/
def WM_DESTROY : Nat := 0x0002

/-- The window message `WM_KEYDOWN`. -/
def WM_KEYDOWN : Nat := 0x0100

/-- The window message `WM_KEYUP`. -/
def WM_KEYUP : Nat := 0x0101

/-- The window message `WM_CHAR`. -/
def WM_CHAR : Nat := 0x0102

/-- The window message `WM_SYSKEYDOWN`. -/
def WM_SYSKEYDOWN : Nat := 0x0104

/-- The window message `WM_SYSKEYUP`. -/
def WM_SYSKEYUP : Nat := 0x0105

/-- The window message `WM_SYSCHAR`. -/
def WM_SYSCHAR : Nat := 0x0106

/-- The conversion of an `int` to `char` (8 bits, signed). -/
def toChar (n : Int) : Int := (n + 128) % 256 - 128

/-- The call `printf("0x%x", v)` on a stream that takes the output: what is
written is "0x" and the hexadecimal digits of `v`, what is returned is the
number of characters written. -/
def printf_0x_x (v : Nat) (w : World) : Int × World :=
  let output := "0x" ++ (Nat.toDigits 16 v).asString
  (output.length, w.emit (Effect.printf output))

/-- The function `ConvertKeyInputToHex(wchar)`; `wchar` is the value of the
16-bit `wchar_t`, the result is the `char` returned. -/
def ConvertKeyInputToHex (wchar : Nat) (w : World) : Int × World :=
  let written := printf_0x_x wchar w
  (toChar written.1, written.2)

/-- The function `WndProc(hwnd, uMsg, wParam, lParam)`. The `WPARAM` is
narrowed to `wchar_t` where it is handed to `ConvertKeyInputToHex`. -/
def WndProc (env : Env) (hwnd uMsg wParam lParam : Nat) (w : World) : Int × World :=
  if uMsg = WM_SYSKEYDOWN then
    -- Send an input event to the input manager
    let key := ConvertKeyInputToHex (wParam % 2 ^ 16) w
    let w := key.2.emit (Effect.ProcessKeyInput
      ⟨KeyInput.KeyInputType.INPUT_KEYBOARD_KEY_DOWN, key.1⟩)
    (env.DefWindowProc hwnd uMsg wParam lParam,
      w.emit (Effect.DefWindowProc hwnd uMsg wParam lParam))
  else if uMsg = WM_SYSKEYUP then
    let key := ConvertKeyInputToHex (wParam % 2 ^ 16) w
    let w := key.2.emit (Effect.ProcessKeyInput
      ⟨KeyInput.KeyInputType.INPUT_KEYBOARD_KEY_UP, key.1⟩)
    (env.DefWindowProc hwnd uMsg wParam lParam,
      w.emit (Effect.DefWindowProc hwnd uMsg wParam lParam))
  else if uMsg = WM_SYSCHAR then
    (env.DefWindowProc hwnd uMsg wParam lParam,
      w.emit (Effect.DefWindowProc hwnd uMsg wParam lParam))
  else if uMsg = WM_KEYDOWN then
    let key := ConvertKeyInputToHex (wParam % 2 ^ 16) w
    let w := key.2.emit (Effect.ProcessKeyInput
      ⟨KeyInput.KeyInputType.INPUT_KEYBOARD_KEY_DOWN, key.1⟩)
    (env.DefWindowProc hwnd uMsg wParam lParam,
      w.emit (Effect.DefWindowProc hwnd uMsg wParam lParam))
  else if uMsg = WM_KEYUP then
    let key := ConvertKeyInputToHex (wParam % 2 ^ 16) w
    let w := key.2.emit (Effect.ProcessKeyInput
      ⟨KeyInput.KeyInputType.INPUT_KEYBOARD_KEY_UP, key.1⟩)
    (env.DefWindowProc hwnd uMsg wParam lParam,
      w.emit (Effect.DefWindowProc hwnd uMsg wParam lParam))
  else if uMsg = WM_CHAR then
    (env.DefWindowProc hwnd uMsg wParam lParam,
      w.emit (Effect.DefWindowProc hwnd uMsg wParam lParam))
  else if uMsg = WM_DESTROY then
    let w := w.emit (Effect.PostQuitMessage 0)
    (env.DefWindowProc hwnd uMsg wParam lParam,
      w.emit (Effect.DefWindowProc hwnd uMsg wParam lParam))
  else
    (env.DefWindowProc hwnd uMsg wParam lParam,
      w.emit (Effect.DefWindowProc hwnd uMsg wParam lParam))

/-! ## The claims' own notions -/

mutual

/-- Pre-order depth-first listing of the mesh references of a tree: a node's
own references in their listed order, followed by the listings of its children
in their listed order. -/
def aiNode.preorder : aiNode → List Nat
  | aiNode.mk mMeshes mChildren => mMeshes ++ aiNode.preorderAll mChildren

/-- The pre-order listings of a list of nodes, one after the other. -/
def aiNode.preorderAll : List aiNode → List Nat
  | [] => []
  | child :: rest => child.preorder ++ aiNode.preorderAll rest

end

/-- The scene has the incomplete flag (bit 0 of `mFlags`) set. -/
def aiScene.incomplete (sc : aiScene) : Bool :=
  sc.mFlags.testBit 0

/-- The import failed, in the words of the specification: a null scene, or
the incomplete flag set, or no root node. -/
def Importer.Fails (self : Importer) : Prop :=
  self.scene = none ∨
    ∃ sc, self.scene = some sc ∧ (sc.incomplete = true ∨ sc.mRootNode = none)

/-- The GPU mesh `m` is what `palmx::ProcessMesh` makes, in some world, of the
scene mesh in table slot `i`. -/
def palmx.IsProcessed (env : Env) (sc : aiScene) (directory : String) (i : Nat)
    (m : palmx.Mesh) : Prop :=
  ∃ ai_mesh w1 w2, sc.mMeshes[i]? = some ai_mesh ∧
    palmx.ProcessMesh env ai_mesh sc directory w1 = Except.ok (m, w2)

/-- The GPU mesh `m` is what `Model::ProcessMesh` makes, in some world and for
a model with directory `directory`, of the scene mesh in table slot `i`. -/
def PalmEngine.Model.IsProcessed (env : Env) (sc : aiScene) (directory : String) (i : Nat)
    (m : PalmEngine.Mesh) : Prop :=
  ∃ self mesh w1 w2, self._directory = directory ∧ sc.mMeshes[i]? = some mesh ∧
    PalmEngine.Model.ProcessMesh env self mesh sc w1 = Except.ok (m, w2)

/-- The arrays `ProcessMesh` reads are there: the position array has
`mNumVertices` entries, the normal array is present and has `mNumVertices`
entries, the first texture-coordinate channel has `mNumVertices` entries when
it is present, and the material index is inside the material table of the scene. -/
def aiMesh.readable (m : aiMesh) (sc : aiScene) : Bool :=
  decide (m.mVertices.length = m.mNumVertices) &&
  (match m.mNormals with
    | some normals => decide (normals.length = m.mNumVertices)
    | none => false) &&
  (match m.mTextureCoords 0 with
    | some channel => decide (channel.length = m.mNumVertices)
    | none => true) &&
  decide (m.mMaterialIndex < sc.mMaterials.length)

/-- A valid mesh: its arrays are there and every index of every face refers to
one of its `mNumVertices` vertices. -/
def aiMesh.valid (m : aiMesh) (sc : aiScene) : Bool :=
  m.readable sc && m.mFaces.all fun face => face.mIndices.all fun j => decide (j < m.mNumVertices)

/-- All faces are triangles. -/
def aiMesh.triangulated (m : aiMesh) : Bool :=
  m.mFaces.all fun face => decide (face.mIndices.length = 3)

/-- The three per-vertex arrays `ProcessMesh` reads are there: `mNumVertices`
positions, `mNumVertices` normals and, when the first texture-coordinate
channel is present, `mNumVertices` entries in it. -/
def aiMesh.hasVertexArrays (m : aiMesh) : Bool :=
  decide (m.mVertices.length = m.mNumVertices) &&
  (match m.mNormals with
    | some normals => decide (normals.length = m.mNumVertices)
    | none => false) &&
  (match m.mTextureCoords 0 with
    | some channel => decide (channel.length = m.mNumVertices)
    | none => true)

/-- The vertex `v` is input slot `i` of the raw mesh: the position and the
normal of slot `i`, and as texture coordinates the first two components of
slot `i` of the first channel, or (0,0) when the mesh has no first channel. -/
def palmx.IsSlot (m : aiMesh) (i : Nat) (v : palmx.Vertex) : Prop :=
  (∃ p, m.mVertices[i]? = some p ∧ v.position = ⟨p.x, p.y, p.z⟩) ∧
  (∃ normals n, m.mNormals = some normals ∧ normals[i]? = some n ∧
    v.normal = ⟨n.x, n.y, n.z⟩) ∧
  (match m.mTextureCoords 0 with
    | some channel => ∃ t, channel[i]? = some t ∧ v.tex_coords = ⟨t.x, t.y⟩
    | none => v.tex_coords = ⟨0, 0⟩)

/-- The vertex `v` is input slot `i` of the raw mesh (`Model.cpp`). -/
def PalmEngine.Model.IsSlot (m : aiMesh) (i : Nat) (v : PalmEngine.Vertex) : Prop :=
  (∃ p, m.mVertices[i]? = some p ∧ v.mPosition = ⟨p.x, p.y, p.z⟩) ∧
  (∃ normals n, m.mNormals = some normals ∧ normals[i]? = some n ∧
    v.mNormal = ⟨n.x, n.y, n.z⟩) ∧
  (match m.mTextureCoords 0 with
    | some channel => ∃ t, channel[i]? = some t ∧ v.mTexCoords = ⟨t.x, t.y⟩
    | none => v.mTexCoords = ⟨0, 0⟩)

/-- Is the call a call of the image decoder. -/
def isStbiLoad : Effect → Bool
  | Effect.stbi_load _ => true
  | _ => false

/-- The texture paths `Model::ProcessMesh` asks the material for, for the scene
mesh in table slot `i`: the diffuse paths of its material, then the specular ones. -/
def aiScene.texturePaths (sc : aiScene) (i : Nat) : List String :=
  match sc.mMeshes[i]? with
  | some m =>
    match sc.mMaterials[m.mMaterialIndex]? with
    | some material =>
      material.textures aiTextureType.aiTextureType_DIFFUSE ++
        material.textures aiTextureType.aiTextureType_SPECULAR
    | none => []
  | none => []

/-- Is the call an upload of buffer data. -/
def isBufferData : Effect → Bool
  | Effect.glBufferData _ _ _ => true
  | _ => false

/-- One configured vertex attribute: its location, its number of components,
whether it is declared as integers, its component type, stride and offset. -/
structure VertexAttribute where
  location : Nat
  size : Nat
  integer : Bool
  type : GLenum
  stride : Nat
  offset : Nat
  deriving DecidableEq, Repr

/-- The vertex attribute a call configures, when it is `glVertexAttribPointer`
or `glVertexAttribIPointer`. -/
def configuredAttribute : Effect → Option VertexAttribute
  | Effect.glVertexAttribPointer index size type _ stride pointer =>
    some { location := index, size := size, integer := false, type := type,
           stride := stride, offset := pointer }
  | Effect.glVertexAttribIPointer index size type stride pointer =>
    some { location := index, size := size, integer := true, type := type,
           stride := stride, offset := pointer }
  | _ => none

/-- The location a call enables, when it is `glEnableVertexAttribArray`. -/
def enabledLocation : Effect → Option Nat
  | Effect.glEnableVertexAttribArray index => some index
  | _ => none

/-- The seven attributes of the specification, for a layout of `Vertex`:
position, normal, texcoord, tangent, bitangent, bone ids, bone weights. -/
def VertexLayout.attributes (l : VertexLayout) : List VertexAttribute :=
  [ { location := 0, size := 3, integer := false, type := GLenum.GL_FLOAT,
      stride := l.sizeofVertex, offset := l.offsetofPosition },
    { location := 1, size := 3, integer := false, type := GLenum.GL_FLOAT,
      stride := l.sizeofVertex, offset := l.offsetofNormal },
    { location := 2, size := 2, integer := false, type := GLenum.GL_FLOAT,
      stride := l.sizeofVertex, offset := l.offsetofTexCoords },
    { location := 3, size := 3, integer := false, type := GLenum.GL_FLOAT,
      stride := l.sizeofVertex, offset := l.offsetofTangent },
    { location := 4, size := 3, integer := false, type := GLenum.GL_FLOAT,
      stride := l.sizeofVertex, offset := l.offsetofBitangent },
    { location := 5, size := 4, integer := true, type := GLenum.GL_INT,
      stride := l.sizeofVertex, offset := l.offsetofBoneIds },
    { location := 6, size := 4, integer := false, type := GLenum.GL_FLOAT,
      stride := l.sizeofVertex, offset := l.offsetofWeights } ]

mutual

/-- The sum, over the nodes of a tree, of the nodes' mesh-reference counts
(`mNumMeshes`). -/
def aiNode.referenceCount : aiNode → Nat
  | aiNode.mk mMeshes mChildren => mMeshes.length + aiNode.referenceCountAll mChildren

/-- The sum of the mesh-reference counts over a list of trees. -/
def aiNode.referenceCountAll : List aiNode → Nat
  | [] => 0
  | child :: rest => child.referenceCount + aiNode.referenceCountAll rest

end

mutual

/-- How many times the nodes of a tree refer to slot `i` of the mesh table. -/
def aiNode.references (i : Nat) : aiNode → Nat
  | aiNode.mk mMeshes mChildren => mMeshes.count i + aiNode.referencesAll i mChildren

/-- How many times the nodes of a list of trees refer to slot `i`. -/
def aiNode.referencesAll (i : Nat) : List aiNode → Nat
  | [] => 0
  | child :: rest => child.references i + aiNode.referencesAll i rest

end

mutual

/-- Every mesh index of every node of the tree is below `n`. -/
def aiNode.indicesBelow (n : Nat) : aiNode → Bool
  | aiNode.mk mMeshes mChildren =>
    mMeshes.all (fun i => decide (i < n)) && aiNode.indicesBelowAll n mChildren

/-- Every mesh index of every node of every tree of the list is below `n`. -/
def aiNode.indicesBelowAll (n : Nat) : List aiNode → Bool
  | [] => true
  | child :: rest => child.indicesBelow n && aiNode.indicesBelowAll n rest

end

/-- Slot `i` lies inside the position array, inside the normal array, which is
present, and inside the first texture-coordinate channel when that is present. -/
def aiMesh.hasSlot (m : aiMesh) (i : Nat) : Bool :=
  decide (i < m.mVertices.length) &&
  (match m.mNormals with
    | some normals => decide (i < normals.length)
    | none => false) &&
  (match m.mTextureCoords 0 with
    | some channel => decide (i < channel.length)
    | none => true)

/-- Every slot below `mNumVertices` is inside the arrays that are read, and
the material index is inside the material table of the scene. -/
def aiMesh.processable (m : aiMesh) (sc : aiScene) : Bool :=
  (List.range m.mNumVertices).all m.hasSlot &&
    decide (m.mMaterialIndex < sc.mMaterials.length)

/-- The internal format and the pixel format of an image upload. -/
def uploadedFormat : Effect → Option (GLenum × GLenum)
  | Effect.glTexImage2D _ _ internalformat _ _ _ format _ => some (internalformat, format)
  | _ => none

/-- The index count of an indexed draw call. -/
def drawElementsCount : Effect → Option Nat
  | Effect.glDrawElements _ count _ _ => some count
  | _ => none

/-- The call itself when it binds a vertex array or is an indexed draw call. -/
def bindOrDraw : Effect → Option Effect
  | Effect.glBindVertexArray id => some (Effect.glBindVertexArray id)
  | Effect.glDrawElements mode count type indices =>
    some (Effect.glDrawElements mode count type indices)
  | _ => none

/-- The transformations of a matrix handed to the shader. -/
def uploadedMatrix : Effect → Option (List Transformation)
  | Effect.glUniformMatrix4fv _ _ _ value => some value.factors
  | _ => none

/-- The number of hexadecimal digits of `n`, one for 0. -/
def hexDigitCount (n : Nat) : Nat := Nat.log 16 n + 1

/-- The key input event a call dispatches. -/
def keyInput : Effect → Option KeyInput
  | Effect.ProcessKeyInput input => some input
  | _ => none

/-- The call logs an error. -/
def isLogError : Effect → Bool
  | Effect.LogError _ => true
  | _ => false

/-- The entry `LoadFontFromMemory` stores for a loaded glyph whose texture got
the name `texture_id`. -/
def palmx.Character.ofGlyph (texture_id : Nat) (glyph : FT_GlyphSlotRec) : palmx.Character :=
  { texture := ⟨texture_id⟩
    size := ⟨glyph.bitmap_width, glyph.bitmap_rows⟩
    bearing := ⟨glyph.bitmap_left, glyph.bitmap_top⟩
    advance := (glyph.advance_x % 2 ^ 32).toNat }

/-! ## Sample inputs -/

namespace Sample

/-- A decoder that knows three image files. -/
def stbi_load (path : String) : Option Image :=
  if path = "wall.png" then some { width := 2, height := 2, nrComponents := 3 }
  else if path = "models/crate_texture_albedo.jpg" then
    some { width := 4, height := 4, nrComponents := 4 }
  else if path = "fonts/grey_alpha.png" then
    some { width := 8, height := 8, nrComponents := 2 }
  else none

/-- A layout of `Vertex` with tightly packed 4-byte fields. -/
def layout : VertexLayout :=
  { sizeofVertex := 88, offsetofPosition := 0, offsetofNormal := 12, offsetofTexCoords := 24,
    offsetofTangent := 32,
    offsetofBitangent := 44, offsetofBoneIds := 56, offsetofWeights := 72, sizeofUnsignedInt := 4 }

/-- A triangle at height `z`, with normals, without texture coordinates. -/
def triangleAt (z : Rat) : aiMesh :=
  { mNumVertices := 3
    mVertices := [⟨0, 0, z⟩, ⟨1, 0, z⟩, ⟨0, 1, z⟩]
    mNormals := some [⟨0, 0, 1⟩, ⟨0, 0, 1⟩, ⟨0, 0, 1⟩]
    mTextureCoords := fun _ => none
    mFaces := [⟨[0, 1, 2]⟩]
    mMaterialIndex := 0 }

/-- A triangle without normals and without texture coordinates. -/
def noNormals : aiMesh :=
  { mNumVertices := 3
    mVertices := [⟨0, 0, 0⟩, ⟨1, 0, 0⟩, ⟨0, 1, 0⟩]
    mNormals := none
    mTextureCoords := fun _ => none
    mFaces := [⟨[0, 1, 2]⟩]
    mMaterialIndex := 0 }

/-- Four vertices with normals, one quadrilateral face and one triangle. -/
def quadAndTriangle : aiMesh :=
  { mNumVertices := 4
    mVertices := [⟨0, 0, 0⟩, ⟨1, 0, 0⟩, ⟨1, 1, 0⟩, ⟨0, 1, 0⟩]
    mNormals := some [⟨0, 0, 1⟩, ⟨0, 0, 1⟩, ⟨0, 0, 1⟩, ⟨0, 0, 1⟩]
    mTextureCoords := fun _ => none
    mFaces := [⟨[0, 1, 2, 3]⟩, ⟨[2, 3, 0]⟩]
    mMaterialIndex := 0 }

/-- Two vertices with normals and two texture-coordinate channels. -/
def textured : aiMesh :=
  { mNumVertices := 2
    mVertices := [⟨1, 2, 3⟩, ⟨4, 5, 6⟩]
    mNormals := some [⟨0, 0, 1⟩, ⟨0, 1, 0⟩]
    mTextureCoords := fun k =>
      if k = 0 then some [⟨1 / 2, 1 / 4, 9⟩, ⟨3 / 4, 1, 9⟩]
      else if k = 1 then some [⟨7, 7, 7⟩, ⟨8, 8, 8⟩]
      else none
    mFaces := [⟨[0, 1, 0]⟩]
    mMaterialIndex := 0 }

/-- Mesh A of the sample scene. -/
def meshA : aiMesh := triangleAt 1

/-- Mesh B of the sample scene. -/
def meshB : aiMesh := triangleAt 2

/-- Mesh C of the sample scene. -/
def meshC : aiMesh := triangleAt 3

/-- The only material of the sample scene. -/
def crate : aiMaterial :=
  { name := "crate"
    textures := fun t =>
      if t = aiTextureType.aiTextureType_DIFFUSE then ["crate.png"] else [] }

/-- A scene whose mesh table is B, C, A, whose root refers to A and B (table
slots 2 and 0) and whose only child refers to C (slot 1). -/
def abcScene : aiScene :=
  { mFlags := 0
    mRootNode := some (aiNode.mk [2, 0] [aiNode.mk [1] []])
    mMeshes := [meshB, meshC, meshA]
    mMaterials := [crate] }

/-- A material with one diffuse texture, "t.png". -/
def plain : aiMaterial :=
  { name := "plain"
    textures := fun t =>
      if t = aiTextureType.aiTextureType_DIFFUSE then ["t.png"] else [] }

/-- A scene of one triangle with the material `plain`. -/
def flatScene : aiScene :=
  { mFlags := 0
    mRootNode := some (aiNode.mk [0] [])
    mMeshes := [triangleAt 0]
    mMaterials := [plain] }

/-- An importer that knows two files, "models/abc.obj" and "model.obj". -/
def ReadFile (path : String) (_flags : Nat) : Importer :=
  if path = "models/abc.obj" then { scene := some abcScene, errorString := "" }
  else if path = "model.obj" then { scene := some flatScene, errorString := "" }
  else { scene := none, errorString := "Unable to open file" }

/-- A file system with two shader files and one unreadable device; any
other path cannot be opened, which sets `failbit` and copies nothing. -/
def ifstream (path : String) : FileRead :=
  if path = "shaders/basic.vert" then
    { state := { failbit := false, badbit := false }, content := "void main() { gl_Position = vec4(0); }" }
  else if path = "shaders/basic.frag" then
    { state := { failbit := false, badbit := false }, content := "void main() {}" }
  else if path = "shaders/broken.vert" then
    { state := { failbit := true, badbit := true }, content := "" }
  else { state := { failbit := true, badbit := false }, content := "" }

/-- The bytes of the sample font file. -/
def fontBytes : List Nat := [0, 1, 0, 0]

/-- A font engine that makes a face of the sample font bytes only. -/
def FT_New_Memory_Face (font_data : List Nat) (_font_size : Nat) : Nat :=
  if font_data = fontBytes then 0 else 2

/-- A face in which every glyph is 10 wide and 12 high, with bearing (1, 11)
and an advance of 10 pixels and 37/64, and in which the glyph of 'B' (code 66)
cannot be loaded. -/
def FT_Load_Char (_font_data : List Nat) (c : Nat) : Option FT_GlyphSlotRec :=
  if c = 66 then none
  else some { bitmap_width := 10, bitmap_rows := 12, bitmap_left := 1, bitmap_top := 11,
              advance_x := 677 }

/-- A file system with one font file. -/
def readBinary (path : String) : Option (List Nat) :=
  if path = "fonts/sample.ttf" then some fontBytes
  else if path = "fonts/empty.ttf" then some []
  else none

/-- A rounding that gives, for the product and the sum that occur when the pen
at 5033165/16777216 (the `float` nearest 0.3) advances by 10 pixels at the
scale 13421773/134217728 (the `float` nearest 0.1), what rounding to nearest
in binary32 gives, and leaves every other value as it is. -/
def fl (r : Rat) : Rat :=
  if r = 67108865 / 67108864 then 1
  else if r = 21810381 / 16777216 then 5452595 / 4194304
  else r

/-- The sample environment. -/
def env : Env :=
  { stbi_load := stbi_load
    glGenName := fun n => n + 1
    ReadFile := ReadFile
    ifstream := ifstream
    glGetUniformLocation := fun _ name => if name = "texture_albedo" then 0 else 1
    layout := layout
    defaultTextureId := 0
    defaultShaderName := ""
    defaultTransform := { position := ⟨0, 0, 0⟩, rotation := ⟨0, 0, 0⟩, scale := ⟨1, 1, 1⟩ }
    DefWindowProc := fun _ _ _ _ => 0
    FT_Init_FreeType := 0
    FT_New_Memory_Face := FT_New_Memory_Face
    FT_Load_Char := FT_Load_Char
    readBinary := readBinary
    fl := fl }

/-- The resource cache after `LoadTexture("wall", "wall.png")` on empty caches. -/
def wallLoaded : palmx.ResourceManager.State :=
  (palmx.ResourceManager.LoadTexture env "wall" "wall.png" palmx.ResourceManager.State.initial).2

/-- The model shader of the samples. -/
def shader : palmx.Shader := ⟨3⟩

/-- A loaded model of two meshes, with 3 and 6 indices, turned by 90 degrees
about the y axis. -/
def drawn : palmx.Model :=
  { meshes :=
      [ palmx.Mesh.mk [] [0, 1, 2] ⟨11⟩ ⟨12⟩ 7 8 9,
        palmx.Mesh.mk [] [0, 1, 2, 2, 3, 0] ⟨13⟩ ⟨14⟩ 17 18 19 ]
    transform := { position := ⟨1, 2, 3⟩, rotation := ⟨0, 90, 0⟩, scale := ⟨2, 2, 2⟩ } }

/-- The model `drawn`, not turned. -/
def drawnStraight : palmx.Model :=
  { drawn with transform := { drawn.transform with rotation := ⟨0, 0, 0⟩ } }

/-- A cube primitive with the transform of `drawn`. -/
def cube : palmx.Primitive :=
  { transform := drawn.transform, color := ⟨1, 0, 0, 1⟩, vao := 21, vbo := 22 }

/-- A model of `Model.cpp` with two meshes of `Mesh.cpp`, with 3 and 6 indices. -/
def drawnMeshes : PalmEngine.MeshCpp.Model :=
  { _meshes :=
      [ PalmEngine.MeshCpp.Mesh.mk [] [0, 1, 2] ⟨⟨11, "", ""⟩, ⟨12, "", ""⟩⟩ 7 8 9,
        PalmEngine.MeshCpp.Mesh.mk [] [0, 1, 2, 2, 3, 0] ⟨⟨13, "", ""⟩, ⟨14, "", ""⟩⟩ 17 18 19 ]
    _directory := "models" }

/-- The text globals with a font that has the character 'H' only, with an
advance of 10 pixels and 37/64. -/
def ui : palmx.UserInterface :=
  { font := ⟨[('H', palmx.Character.mk ⟨5⟩ ⟨10, 12⟩ ⟨1, 11⟩ 677)]⟩
    font_shader := ⟨4⟩
    text_vao := 30
    text_vbo := 31 }

end Sample

/-! # Theorems -/

/-! ## Auxiliary facts about `unordered_map` -/

namespace unordered_map

variable {V : Type}

theorem find_assign_self (m : unordered_map V) (key : String) (value : V) :
    (m.assign key value).find key = some value := by
  induction m with
  | nil => simp [assign, find]
  | cons kv m ih =>
    obtain ⟨k, v⟩ := kv
    by_cases hk : k = key
    · simp [assign, find, hk]
    · simp [assign, find, hk, ih]

theorem find_assign_of_ne (m : unordered_map V) (key other : String) (value : V)
    (hne : other ≠ key) : (m.assign key value).find other = m.find other := by
  induction m with
  | nil =>
    have : ¬ key = other := fun h => hne h.symm
    simp [assign, find, this]
  | cons kv m ih =>
    obtain ⟨k, v⟩ := kv
    by_cases hk : k = key
    · have : ¬ key = other := fun h => hne h.symm
      simp [assign, find, hk, this]
    · by_cases hko : k = other
      · subst hko
        simp [assign, find, hk]
      · simp [assign, find, hk, hko, ih]

theorem find_assign_isSome (m : unordered_map V) (key other : String) (value : V)
    (h : (m.find other).isSome) : ((m.assign key value).find other).isSome := by
  by_cases hne : other = key
  · subst hne
    simp [find_assign_self]
  · rw [find_assign_of_ne m key other value hne]
    exact h

end unordered_map

namespace palmx.ResourceManager

/-! ## Resource cache: basic facts -/

theorem LoadTexture_of_find_some (env : Env) (name textureSource : String) (s : State)
    (entry : shared_ptr) (h : s._cachedTextures.find name = some entry) :
    LoadTexture env name textureSource s = (entry, s) := by
  simp [LoadTexture, h]

theorem LoadShader_of_find_some (env : Env) (name v f : String) (s : State)
    (entry : shared_ptr) (h : s._cachedShaders.find name = some entry) :
    LoadShader env name v f s = (entry, s) := by
  simp [LoadShader, h]

theorem LoadTexture_cachedTextures_of_find_none (env : Env) (name textureSource : String)
    (s : State) (h : s._cachedTextures.find name = none) :
    (LoadTexture env name textureSource s).2._cachedTextures
        = s._cachedTextures.assign name (some s.textures.length) ∧
      (LoadTexture env name textureSource s).1 = some s.textures.length ∧
      (LoadTexture env name textureSource s).2._cachedShaders = s._cachedShaders := by
  simp only [LoadTexture, h]
  cases env.stbi_load textureSource <;> simp [State.emit]

theorem LoadShader_cachedShaders_of_find_none (env : Env) (name v f : String)
    (s : State) (h : s._cachedShaders.find name = none) :
    (LoadShader env name v f s).2._cachedShaders
        = s._cachedShaders.assign name (some s.shaders.length) ∧
      (LoadShader env name v f s).1 = some s.shaders.length ∧
      (LoadShader env name v f s).2._cachedTextures = s._cachedTextures := by
  simp only [LoadShader, h]
  split <;> simp [State.emit]

theorem GetTexture_eq (name : String) (s : State) :
    GetTexture name s = ((s._cachedTextures.find name).getD none, s) := by
  unfold GetTexture
  cases s._cachedTextures.find name <;> rfl

theorem GetShader_eq (name : String) (s : State) :
    GetShader name s = ((s._cachedShaders.find name).getD none, s) := by
  unfold GetShader
  cases s._cachedShaders.find name <;> rfl

theorem GetTexture_state (name : String) (s : State) : (GetTexture name s).2 = s := by
  unfold GetTexture
  cases s._cachedTextures.find name <;> rfl

theorem GetShader_state (name : String) (s : State) : (GetShader name s).2 = s := by
  unfold GetShader
  cases s._cachedShaders.find name <;> rfl

theorem Call.run_texture_cached (env : Env) (c : Call) (s : State) (name : String)
    (h : (s._cachedTextures.find name).isSome) :
    ((c.run env s)._cachedTextures.find name).isSome := by
  cases c with
  | LoadTexture n p =>
    simp only [Call.run]
    cases hf : s._cachedTextures.find n with
    | some e => rw [LoadTexture_of_find_some env n p s e hf]; exact h
    | none =>
      rw [(LoadTexture_cachedTextures_of_find_none env n p s hf).1]
      exact unordered_map.find_assign_isSome _ _ _ _ h
  | LoadShader n v f =>
    simp only [Call.run]
    cases hf : s._cachedShaders.find n with
    | some e => rw [LoadShader_of_find_some env n v f s e hf]; exact h
    | none =>
      rw [(LoadShader_cachedShaders_of_find_none env n v f s hf).2.2]
      exact h
  | GetTexture n => simp only [Call.run, GetTexture_state]; exact h
  | GetShader n => simp only [Call.run, GetShader_state]; exact h

theorem Call.run_shader_cached (env : Env) (c : Call) (s : State) (name : String)
    (h : (s._cachedShaders.find name).isSome) :
    ((c.run env s)._cachedShaders.find name).isSome := by
  cases c with
  | LoadTexture n p =>
    simp only [Call.run]
    cases hf : s._cachedTextures.find n with
    | some e => rw [LoadTexture_of_find_some env n p s e hf]; exact h
    | none =>
      rw [(LoadTexture_cachedTextures_of_find_none env n p s hf).2.2]
      exact h
  | LoadShader n v f =>
    simp only [Call.run]
    cases hf : s._cachedShaders.find n with
    | some e => rw [LoadShader_of_find_some env n v f s e hf]; exact h
    | none =>
      rw [(LoadShader_cachedShaders_of_find_none env n v f s hf).1]
      exact unordered_map.find_assign_isSome _ _ _ _ h
  | GetTexture n => simp only [Call.run, GetTexture_state]; exact h
  | GetShader n => simp only [Call.run, GetShader_state]; exact h

/-- From a state in which `name` is cached no later call uploads it; from any
state at most one call does. -/
theorem textureUploads_runLog (env : Env) (name : String) (calls : List Call) :
    ∀ s : State, (textureUploads name (runLog env calls s)).length ≤ 1 ∧
      ((s._cachedTextures.find name).isSome →
        (textureUploads name (runLog env calls s)).length = 0) := by
  induction calls with
  | nil => intro s; simp [runLog, textureUploads]
  | cons c cs ih =>
    intro s
    have hrest := ih (c.run env s)
    have hkeep := Call.run_texture_cached env c s name
    cases c with
    | LoadTexture n p =>
      by_cases hn : n = name
      · subst hn
        cases hf : s._cachedTextures.find n with
        | some e =>
          have hrun : (Call.LoadTexture n p).run env s = s := by
            simp [Call.run, LoadTexture_of_find_some env n p s e hf]
          rw [hrun] at hrest
          have h0 := hrest.2 (by simp [hf])
          simp only [runLog, textureUploads, hrun, List.drop_length] at h0 ⊢
          simp [List.filter_cons, h0]
        | none =>
          have hc : (((Call.LoadTexture n p).run env s)._cachedTextures.find n).isSome := by
            simp only [Call.run]
            rw [(LoadTexture_cachedTextures_of_find_none env n p s hf).1,
              unordered_map.find_assign_self]
            rfl
          have h0 := hrest.2 hc
          simp only [runLog, textureUploads] at h0 ⊢
          constructor
          · rw [List.filter_cons]
            split
            · simp [h0]
            · simp [h0]
          · intro h; simp at h
      · have hd : decide (n = name) = false := by simp [hn]
        simp only [runLog, textureUploads, List.filter_cons, hd, Bool.false_and,
          Bool.false_eq_true, if_false]
        exact ⟨hrest.1, fun h => hrest.2 (hkeep h)⟩
    | LoadShader n v f =>
      simp only [runLog, textureUploads, List.filter_cons]
      exact ⟨hrest.1, fun h => hrest.2 (hkeep h)⟩
    | GetTexture n =>
      simp only [runLog, textureUploads, List.filter_cons]
      exact ⟨hrest.1, fun h => hrest.2 (hkeep h)⟩
    | GetShader n =>
      simp only [runLog, textureUploads, List.filter_cons]
      exact ⟨hrest.1, fun h => hrest.2 (hkeep h)⟩

/-- From a state in which `name` is cached no later call compiles it; from any
state at most one call does. -/
theorem shaderCompiles_runLog (env : Env) (name : String) (calls : List Call) :
    ∀ s : State, (shaderCompiles name (runLog env calls s)).length ≤ 1 ∧
      ((s._cachedShaders.find name).isSome →
        (shaderCompiles name (runLog env calls s)).length = 0) := by
  induction calls with
  | nil => intro s; simp [runLog, shaderCompiles]
  | cons c cs ih =>
    intro s
    have hrest := ih (c.run env s)
    have hkeep := Call.run_shader_cached env c s name
    cases c with
    | LoadShader n v f =>
      by_cases hn : n = name
      · subst hn
        cases hf : s._cachedShaders.find n with
        | some e =>
          have hrun : (Call.LoadShader n v f).run env s = s := by
            simp [Call.run, LoadShader_of_find_some env n v f s e hf]
          rw [hrun] at hrest
          have h0 := hrest.2 (by simp [hf])
          simp only [runLog, shaderCompiles, hrun, List.drop_length] at h0 ⊢
          simp [List.filter_cons, h0]
        | none =>
          have hc : (((Call.LoadShader n v f).run env s)._cachedShaders.find n).isSome := by
            simp only [Call.run]
            rw [(LoadShader_cachedShaders_of_find_none env n v f s hf).1,
              unordered_map.find_assign_self]
            rfl
          have h0 := hrest.2 hc
          simp only [runLog, shaderCompiles] at h0 ⊢
          constructor
          · rw [List.filter_cons]
            split
            · simp [h0]
            · simp [h0]
          · intro h; simp at h
      · have hd : decide (n = name) = false := by simp [hn]
        simp only [runLog, shaderCompiles, List.filter_cons, hd, Bool.false_and,
          Bool.false_eq_true, if_false]
        exact ⟨hrest.1, fun h => hrest.2 (hkeep h)⟩
    | LoadTexture n p =>
      simp only [runLog, shaderCompiles, List.filter_cons]
      exact ⟨hrest.1, fun h => hrest.2 (hkeep h)⟩
    | GetTexture n =>
      simp only [runLog, shaderCompiles, List.filter_cons]
      exact ⟨hrest.1, fun h => hrest.2 (hkeep h)⟩
    | GetShader n =>
      simp only [runLog, shaderCompiles, List.filter_cons]
      exact ⟨hrest.1, fun h => hrest.2 (hkeep h)⟩

/-- A miss of `LoadTexture` only appends to the trace. -/
theorem LoadTexture_appends (env : Env) (name textureSource : String) (s : State) :
    ∃ t, (LoadTexture env name textureSource s).2.world.trace = s.world.trace ++ t := by
  unfold LoadTexture
  cases s._cachedTextures.find name with
  | some e => exact ⟨[], by simp⟩
  | none =>
    dsimp only
    cases env.stbi_load textureSource <;>
      simp only [State.emit, World.emit, World.gen, List.append_assoc] <;>
      exact ⟨_, rfl⟩

/-- A miss of `LoadShader` only appends to the trace. -/
theorem LoadShader_appends (env : Env) (name v f : String) (s : State) :
    ∃ t, (LoadShader env name v f s).2.world.trace = s.world.trace ++ t := by
  unfold LoadShader
  cases s._cachedShaders.find name with
  | some e => exact ⟨[], by simp⟩
  | none =>
    dsimp only
    split <;>
      simp only [State.emit, World.emit, List.append_assoc] <;>
      exact ⟨_, rfl⟩

/-- Every call of the cache only appends to the trace. -/
theorem Call.run_appends (env : Env) (c : Call) (s : State) :
    ∃ t, (c.run env s).world.trace = s.world.trace ++ t := by
  cases c with
  | LoadTexture n p => exact LoadTexture_appends env n p s
  | LoadShader n v f => exact LoadShader_appends env n v f s
  | GetTexture n => exact ⟨[], by simp [Call.run, GetTexture_state]⟩
  | GetShader n => exact ⟨[], by simp [Call.run, GetShader_state]⟩

/-! ## Resource cache: the claims -/

/-- C1. When `name` is already a key of the texture cache, `LoadTexture(name, path)`
returns exactly the entry stored under `name` and leaves the whole state as it
was: the cache, the objects, and the trace of decoder and GPU calls (so neither
was called); the result is the same for every path argument. -/
theorem C1_LoadTexture_hit (env : Env) (s : State) (name textureSource : String)
    (entry : shared_ptr) (h : s._cachedTextures.find name = some entry) :
    LoadTexture env name textureSource s = (entry, s) ∧
      (LoadTexture env name textureSource s).2.world.trace = s.world.trace ∧
      (LoadTexture env name textureSource s).2._cachedTextures = s._cachedTextures ∧
      ∀ other : String, LoadTexture env name other s = LoadTexture env name textureSource s := by
  have key : ∀ p : String, LoadTexture env name p s = (entry, s) :=
    fun p => LoadTexture_of_find_some env name p s entry h
  refine ⟨key textureSource, ?_, ?_, ?_⟩
  · rw [key textureSource]
  · rw [key textureSource]
  · intro other
    rw [key other, key textureSource]

/-- C2. In the log of any finite sequence of cache calls started from empty
caches, for every name at most one `LoadTexture` call for that name made a
decoder or GL texture call, and at most one `LoadShader` call for that name
called the compiler; the log entry of a call is exactly what the call appended
to the trace. -/
theorem C2_at_most_one_upload_per_name (env : Env) (calls : List Call) (name : String) :
    (textureUploads name (runLog env calls State.initial)).length ≤ 1 ∧
      (shaderCompiles name (runLog env calls State.initial)).length ≤ 1 ∧
      ∀ (c : Call) (s : State),
        (c.run env s).world.trace
          = s.world.trace ++ (c.run env s).world.trace.drop s.world.trace.length :=
  ⟨(textureUploads_runLog env name calls State.initial).1,
    (shaderCompiles_runLog env name calls State.initial).1,
    fun c s => by
      obtain ⟨t, ht⟩ := Call.run_appends env c s
      rw [ht, List.drop_left]⟩

/-- C3. `GetTexture(name)` and `GetShader(name)` return the entry stored under
`name` when there is one and the empty pointer otherwise, and leave the state
(both caches included) unchanged. -/
theorem C3_lookups_pure (s : State) (name : String) :
    GetTexture name s = ((s._cachedTextures.find name).getD none, s) ∧
      GetShader name s = ((s._cachedShaders.find name).getD none, s) :=
  ⟨GetTexture_eq name s, GetShader_eq name s⟩

/-- C4. When `name` is absent from the texture cache, after
`t = LoadTexture(name, path)` the pointer `t` is not empty, the cache maps
`name` to `t`, `GetTexture(name)` returns `t`, and a further
`LoadTexture(name, other)` returns `t` too; neither changes the state. -/
theorem C4_load_then_lookup (env : Env) (s : State) (name textureSource : String)
    (h : s._cachedTextures.find name = none) :
    (LoadTexture env name textureSource s).1 = some s.textures.length ∧
      (LoadTexture env name textureSource s).2._cachedTextures.find name
        = some (LoadTexture env name textureSource s).1 ∧
      GetTexture name (LoadTexture env name textureSource s).2
        = LoadTexture env name textureSource s ∧
      ∀ other : String, LoadTexture env name other (LoadTexture env name textureSource s).2
        = LoadTexture env name textureSource s := by
  obtain ⟨hc, hp, -⟩ := LoadTexture_cachedTextures_of_find_none env name textureSource s h
  have hfind : (LoadTexture env name textureSource s).2._cachedTextures.find name
      = some (LoadTexture env name textureSource s).1 := by
    rw [hc, hp, unordered_map.find_assign_self]
  refine ⟨hp, hfind, ?_, ?_⟩
  · rw [GetTexture_eq, hfind]
    rfl
  · intro other
    rw [LoadTexture_of_find_some env name other _ _ hfind]


/-- The log of a sample run: of two loads of "wall" and one lookup, only the
first load decodes and uploads. -/
theorem runLog_sample :
    ((runLog Sample.env
        [Call.LoadTexture "wall" "wall.png", Call.LoadTexture "wall" "other.png",
          Call.GetTexture "wall"] State.initial).map fun entry => entry.2.length)
      = [10, 0, 0] ∧
    (textureUploads "wall" (runLog Sample.env
        [Call.LoadTexture "wall" "wall.png", Call.LoadTexture "wall" "other.png",
          Call.GetTexture "wall"] State.initial)).length = 1 := by
  decide

/-- Witness of C1: with "wall" cached, loading it again from another path
returns the cached pointer and the same state. -/
theorem C1_LoadTexture_hit_witness :
    Sample.wallLoaded._cachedTextures.find "wall" = some (some 0) ∧
      LoadTexture Sample.env "wall" "other.png" Sample.wallLoaded = (some 0, Sample.wallLoaded) :=
  ⟨by decide, (C1_LoadTexture_hit Sample.env Sample.wallLoaded "wall" "other.png" (some 0)
    (by decide)).1⟩

/-- Witness of C4: loading "wall" on empty caches, then looking it up. -/
theorem C4_load_then_lookup_witness :
    State.initial._cachedTextures.find "wall" = none ∧
      GetTexture "wall" (LoadTexture Sample.env "wall" "wall.png" State.initial).2
        = LoadTexture Sample.env "wall" "wall.png" State.initial :=
  ⟨by decide, (C4_load_then_lookup Sample.env State.initial "wall" "wall.png" (by decide)).2.2.1⟩

end palmx.ResourceManager

/-! ## Node traversal -/

namespace palmx

/-- The mesh loop started on `acc` gives what it gives on the empty list, with `acc` in front. -/
theorem ProcessNode.meshes_acc (env : Env) (sc : aiScene) (dir : String) (refs : List Nat) :
    ∀ (acc : List Mesh) (w : World),
      ProcessNode.meshes env sc dir refs acc w =
        match ProcessNode.meshes env sc dir refs [] w with
        | Except.error e => Except.error e
        | Except.ok r => Except.ok (acc ++ r.1, r.2) := by
  induction refs with
  | nil => intro acc w; simp [ProcessNode.meshes]
  | cons i rest ih =>
    intro acc w
    simp only [ProcessNode.meshes]
    cases readAt sc.mMeshes i with
    | error e => rfl
    | ok m =>
      dsimp only
      cases ProcessMesh env m sc dir w with
      | error e => rfl
      | ok r =>
        dsimp only
        rw [ih (acc ++ [r.1]) r.2, ih ([] ++ [r.1]) r.2]
        cases ProcessNode.meshes env sc dir rest [] r.2 with
        | error e => rfl
        | ok q => simp

/-- The mesh loop over `a ++ b` is the loop over `a` followed by the loop over `b`. -/
theorem ProcessNode.meshes_append (env : Env) (sc : aiScene) (dir : String) (a b : List Nat) :
    ∀ (acc : List Mesh) (w : World),
      ProcessNode.meshes env sc dir (a ++ b) acc w =
        match ProcessNode.meshes env sc dir a acc w with
        | Except.error e => Except.error e
        | Except.ok r => ProcessNode.meshes env sc dir b r.1 r.2 := by
  induction a with
  | nil => intro acc w; simp [ProcessNode.meshes]
  | cons i rest ih =>
    intro acc w
    simp only [List.cons_append, ProcessNode.meshes]
    cases readAt sc.mMeshes i with
    | error e => rfl
    | ok m =>
      dsimp only
      cases ProcessMesh env m sc dir w with
      | error e => rfl
      | ok r => exact ih _ _

mutual

/-- Walking a tree is running the mesh loop over its pre-order listing. -/
theorem ProcessNode_eq_meshes_preorder (env : Env) (sc : aiScene) (dir : String) :
    ∀ (node : aiNode) (w : World),
      ProcessNode env sc dir node w = ProcessNode.meshes env sc dir node.preorder [] w
  | aiNode.mk ms cs, w => by
    rw [ProcessNode, aiNode.preorder, ProcessNode.meshes_append]
    cases ProcessNode.meshes env sc dir ms [] w with
    | error e => rfl
    | ok r => exact ProcessNode.children_eq_meshes_preorderAll env sc dir cs r.1 r.2

/-- Walking a list of children is running the mesh loop over their listings. -/
theorem ProcessNode.children_eq_meshes_preorderAll (env : Env) (sc : aiScene) (dir : String) :
    ∀ (cs : List aiNode) (acc : List Mesh) (w : World),
      ProcessNode.children env sc dir cs acc w
        = ProcessNode.meshes env sc dir (aiNode.preorderAll cs) acc w
  | [], acc, w => by simp [ProcessNode.children, aiNode.preorderAll, ProcessNode.meshes]
  | c :: cs, acc, w => by
    rw [ProcessNode.children, ProcessNode_eq_meshes_preorder env sc dir c w, aiNode.preorderAll,
      ProcessNode.meshes_append, ProcessNode.meshes_acc env sc dir c.preorder acc w]
    cases ProcessNode.meshes env sc dir c.preorder [] w with
    | error e => rfl
    | ok r => exact ProcessNode.children_eq_meshes_preorderAll env sc dir cs (acc ++ r.1) r.2

end

end palmx

namespace PalmEngine.Model

/-- The mesh loop over `a ++ b` is the loop over `a` followed by the loop over `b`. -/
theorem ProcessNode.meshes_append_model (env : Env) (sc : aiScene) (a b : List Nat) :
    ∀ (self : Model) (w : World),
      ProcessNode.meshes env sc (a ++ b) self w =
        match ProcessNode.meshes env sc a self w with
        | Except.error e => Except.error e
        | Except.ok r => ProcessNode.meshes env sc b r.1 r.2 := by
  induction a with
  | nil => intro self w; simp [ProcessNode.meshes]
  | cons i rest ih =>
    intro self w
    simp only [List.cons_append, ProcessNode.meshes]
    cases readAt sc.mMeshes i with
    | error e => rfl
    | ok m =>
      dsimp only
      cases ProcessMesh env self m sc w with
      | error e => rfl
      | ok r => exact ih _ _

mutual

/-- Walking a tree is running the mesh loop over its pre-order listing. -/
theorem ProcessNode_eq_meshes_preorder_model (env : Env) (sc : aiScene) :
    ∀ (node : aiNode) (self : Model) (w : World),
      ProcessNode env sc node self w = ProcessNode.meshes env sc node.preorder self w
  | aiNode.mk ms cs, self, w => by
    rw [ProcessNode, aiNode.preorder, ProcessNode.meshes_append_model]
    cases ProcessNode.meshes env sc ms self w with
    | error e => rfl
    | ok r => exact ProcessNode.children_eq_meshes_preorderAll_model env sc cs r.1 r.2

/-- Walking a list of children is running the mesh loop over their listings. -/
theorem ProcessNode.children_eq_meshes_preorderAll_model (env : Env) (sc : aiScene) :
    ∀ (cs : List aiNode) (self : Model) (w : World),
      ProcessNode.children env sc cs self w
        = ProcessNode.meshes env sc (aiNode.preorderAll cs) self w
  | [], self, w => by simp [ProcessNode.children, aiNode.preorderAll, ProcessNode.meshes]
  | c :: cs, self, w => by
    rw [ProcessNode.children, ProcessNode_eq_meshes_preorder_model env sc c self w,
      aiNode.preorderAll, ProcessNode.meshes_append_model]
    cases ProcessNode.meshes env sc c.preorder self w with
    | error e => rfl
    | ok r => exact ProcessNode.children_eq_meshes_preorderAll_model env sc cs r.1 r.2

end

end PalmEngine.Model

/-! ## Loading a model -/

/-- The test of the incomplete flag in the code is the test of bit 0. -/
theorem incomplete_flag_test (sc : aiScene) :
    (sc.mFlags &&& AI_SCENE_FLAGS_INCOMPLETE != 0) = sc.incomplete := by
  unfold aiScene.incomplete AI_SCENE_FLAGS_INCOMPLETE
  rw [Nat.and_one_is_mod, Nat.testBit_zero]
  rcases Nat.mod_two_eq_zero_or_one sc.mFlags with h | h <;> simp [h]

/-- The condition of the `if` in `LoadModel` is the failure of the import in
the words of the specification. -/
theorem importFailed_iff (importer : Importer) :
    (importFailed importer.scene = true) ↔ importer.Fails := by
  unfold Importer.Fails importFailed
  cases importer.scene with
  | none => simp
  | some sc =>
    simp only [incomplete_flag_test, Bool.or_eq_true, Option.isNone_iff_eq_none]
    constructor
    · intro h; exact Or.inr ⟨sc, rfl, h⟩
    · rintro (h | ⟨sc2, h2, h3⟩)
      · cases h
      · cases h2; exact h3

/-- The condition of the `if` in `LoadModel` is false exactly for a complete
scene with a root node. -/
theorem importFailed_eq_false_iff (importer : Importer) :
    (importFailed importer.scene = false) ↔
      ∃ sc root, importer.scene = some sc ∧ sc.incomplete = false ∧ sc.mRootNode = some root := by
  unfold importFailed
  cases importer.scene with
  | none => simp
  | some sc =>
    simp only [incomplete_flag_test, Bool.or_eq_false_iff]
    constructor
    · rintro ⟨h1, h2⟩
      cases hr : sc.mRootNode with
      | none => simp [hr] at h2
      | some root => exact ⟨sc, root, rfl, h1, hr⟩
    · rintro ⟨sc2, root, h, h1, h2⟩
      cases h
      simp [h1, h2]

namespace palmx

/-- The function `LoadModel` on a failed import. -/
theorem LoadModel_of_fails (env : Env) (file_path : String) (w : World)
    (h : (env.ReadFile file_path (aiProcess_Triangulate ||| aiProcess_FlipUVs)).Fails) :
    LoadModel env file_path w =
      Except.ok ({ meshes := [], transform := env.defaultTransform },
        w.emit (Effect.LogError ("ASSIMP::" ++
          (env.ReadFile file_path (aiProcess_Triangulate ||| aiProcess_FlipUVs)).errorString))) := by
  have hf := (importFailed_iff _).2 h
  simp [LoadModel, hf]

/-- The function `LoadModel` on a complete scene with a root node. -/
theorem LoadModel_of_scene (env : Env) (file_path : String) (w : World) (sc : aiScene)
    (root : aiNode)
    (hs : (env.ReadFile file_path (aiProcess_Triangulate ||| aiProcess_FlipUVs)).scene = some sc)
    (hc : sc.incomplete = false) (hr : sc.mRootNode = some root) :
    LoadModel env file_path w =
      match ProcessNode env sc (substr file_path 0 (find_last_of file_path '/')) root w with
      | Except.error e => Except.error e
      | Except.ok r => Except.ok ({ meshes := r.1, transform := env.defaultTransform }, r.2) := by
  have hf := (importFailed_eq_false_iff _).2 ⟨sc, root, hs, hc, hr⟩
  rw [hs] at hf
  simp [LoadModel, hf, hs, hr]

end palmx

namespace PalmEngine.Model

/-- The function `LoadModel` on a failed import. -/
theorem LoadModel_of_fails_model (env : Env) (self : Model) (path : String) (w : World)
    (h : (env.ReadFile path (aiProcess_Triangulate ||| aiProcess_FlipUVs)).Fails) :
    LoadModel env self path w =
      Except.ok (self, w.emit (Effect.LogError ("ASSIMP::" ++
          (env.ReadFile path (aiProcess_Triangulate ||| aiProcess_FlipUVs)).errorString))) := by
  have hf := (importFailed_iff _).2 h
  simp [LoadModel, hf]

/-- The function `LoadModel` on a complete scene with a root node. -/
theorem LoadModel_of_scene_model (env : Env) (self : Model) (path : String) (w : World)
    (sc : aiScene) (root : aiNode)
    (hs : (env.ReadFile path (aiProcess_Triangulate ||| aiProcess_FlipUVs)).scene = some sc)
    (hc : sc.incomplete = false) (hr : sc.mRootNode = some root) :
    LoadModel env self path w =
      ProcessNode env sc root
        { self with _directory := substr path 0 (find_last_of path '/') } w := by
  have hf := (importFailed_eq_false_iff _).2 ⟨sc, root, hs, hc, hr⟩
  rw [hs] at hf
  simp [LoadModel, hf, hs, hr]

end PalmEngine.Model

/-! ## The mesh sequence of a loaded model -/

theorem readAt_eq_ok {α : Type} (a : List α) (i : Nat) (v : α) :
    readAt a i = Except.ok v ↔ a[i]? = some v := by
  unfold readAt
  cases a[i]? with
  | none => simp
  | some x => simp

namespace palmx

/-- The meshes the loop appends are, one by one, the processed scene meshes of
the references it was given. -/
theorem ProcessNode.meshes_pointwise (env : Env) (sc : aiScene) (dir : String) (refs : List Nat) :
    ∀ (acc : List Mesh) (w : World) (r : List Mesh × World),
      ProcessNode.meshes env sc dir refs acc w = Except.ok r →
        ∃ ms, r.1 = acc ++ ms ∧ List.Forall₂ (IsProcessed env sc dir) refs ms := by
  induction refs with
  | nil =>
    intro acc w r h
    simp only [ProcessNode.meshes, Except.ok.injEq] at h
    exact ⟨[], by simp [← h], List.Forall₂.nil⟩
  | cons i rest ih =>
    intro acc w r h
    simp only [ProcessNode.meshes] at h
    cases hm : readAt sc.mMeshes i with
    | error e => simp [hm] at h
    | ok m =>
      rw [hm] at h
      dsimp only at h
      cases hp : ProcessMesh env m sc dir w with
      | error e => simp [hp] at h
      | ok q =>
        rw [hp] at h
        dsimp only at h
        obtain ⟨ms, hms, hall⟩ := ih _ _ _ h
        refine ⟨q.1 :: ms, by simp [hms], List.Forall₂.cons ?_ hall⟩
        exact ⟨m, w, q.2, (readAt_eq_ok _ _ _).1 hm, hp⟩

end palmx

namespace PalmEngine.Model

/-- The mesh loop never changes the directory of the model. -/
theorem ProcessNode.meshes_pointwise_model (env : Env) (sc : aiScene) (refs : List Nat) :
    ∀ (self : Model) (w : World) (r : Model × World),
      ProcessNode.meshes env sc refs self w = Except.ok r →
        r.1._directory = self._directory ∧
        ∃ ms, r.1._meshes = self._meshes ++ ms ∧
          List.Forall₂ (IsProcessed env sc self._directory) refs ms := by
  induction refs with
  | nil =>
    intro self w r h
    simp only [ProcessNode.meshes, Except.ok.injEq] at h
    exact ⟨by simp [← h], [], by simp [← h], List.Forall₂.nil⟩
  | cons i rest ih =>
    intro self w r h
    simp only [ProcessNode.meshes] at h
    cases hm : readAt sc.mMeshes i with
    | error e => simp [hm] at h
    | ok m =>
      rw [hm] at h
      dsimp only at h
      cases hp : ProcessMesh env self m sc w with
      | error e => simp [hp] at h
      | ok q =>
        rw [hp] at h
        dsimp only at h
        obtain ⟨hd, ms, hms, hall⟩ := ih _ _ _ h
        refine ⟨hd, q.1 :: ms, by simp [hms], List.Forall₂.cons ?_ hall⟩
        exact ⟨self, m, w, q.2, rfl, (readAt_eq_ok _ _ _).1 hm, hp⟩

end PalmEngine.Model

/-! ## What a walk appends to the trace -/

namespace palmx

/-- The function `LoadTexture` appends to the trace, starting with `glGenTextures`. -/
theorem LoadTexture_trace (env : Env) (file_path : String) (w : World) :
    ∃ id t, (LoadTexture env file_path w).2.trace = w.trace ++ Effect.glGenTextures id :: t := by
  unfold LoadTexture
  cases env.stbi_load file_path <;>
    simp only [World.gen, World.emit, World.emitAll, List.append_assoc] <;>
    exact ⟨_, _, rfl⟩

/-- A successful `ProcessMesh` appends to the trace, starting with `glGenTextures`. -/
theorem ProcessMesh_trace (env : Env) (ai_mesh : aiMesh) (sc : aiScene) (dir : String)
    (w : World) (r : Mesh × World) (h : ProcessMesh env ai_mesh sc dir w = Except.ok r) :
    ∃ id t, r.2.trace = w.trace ++ Effect.glGenTextures id :: t := by
  unfold ProcessMesh at h
  cases hv : ProcessMesh.vertices ai_mesh (List.range ai_mesh.mNumVertices) [] with
  | error e => simp [hv] at h
  | ok vs =>
    rw [hv] at h
    dsimp only at h
    cases hm : readAt sc.mMaterials ai_mesh.mMaterialIndex with
    | error e => simp [hm] at h
    | ok material =>
      rw [hm] at h
      simp only [Except.ok.injEq] at h
      obtain ⟨id, t, ht⟩ := LoadTexture_trace env (dir ++ "/" ++ material.name ++ "_texture_albedo.jpg") w
      obtain ⟨id2, t2, ht2⟩ := LoadTexture_trace env
        (dir ++ "/" ++ material.name ++ "_texture_normal.jpg")
        (LoadTexture env (dir ++ "/" ++ material.name ++ "_texture_albedo.jpg") w).2
      rw [← h]
      simp only [World.gen, World.emitAll, ht2, ht, List.append_assoc, List.cons_append]
      exact ⟨_, _, rfl⟩

/-- A successful mesh loop appends nothing, or appends starting with `glGenTextures`. -/
theorem ProcessNode.meshes_trace (env : Env) (sc : aiScene) (dir : String) (refs : List Nat) :
    ∀ (acc : List Mesh) (w : World) (r : List Mesh × World),
      ProcessNode.meshes env sc dir refs acc w = Except.ok r →
        r.2.trace = w.trace ∨ ∃ id t, r.2.trace = w.trace ++ Effect.glGenTextures id :: t := by
  induction refs with
  | nil =>
    intro acc w r h
    simp only [ProcessNode.meshes, Except.ok.injEq] at h
    exact Or.inl (by rw [← h])
  | cons i rest ih =>
    intro acc w r h
    simp only [ProcessNode.meshes] at h
    cases hm : readAt sc.mMeshes i with
    | error e => simp [hm] at h
    | ok m =>
      rw [hm] at h
      dsimp only at h
      cases hp : ProcessMesh env m sc dir w with
      | error e => simp [hp] at h
      | ok q =>
        rw [hp] at h
        dsimp only at h
        obtain ⟨id, t, ht⟩ := ProcessMesh_trace env m sc dir w q hp
        rcases ih _ _ _ h with h2 | ⟨id2, t2, h2⟩
        · exact Or.inr ⟨id, t, by rw [h2, ht]⟩
        · exact Or.inr ⟨id, t ++ Effect.glGenTextures id2 :: t2, by rw [h2, ht]; simp⟩

end palmx

namespace PalmEngine

/-- The function `TextureFromFile` only appends to the trace. -/
theorem TextureFromFile_trace (env : Env) (path directory : String) (w : World) :
    ∃ t, (TextureFromFile env path directory w).2.trace = w.trace ++ t := by
  unfold TextureFromFile
  dsimp only
  cases env.stbi_load (directory ++ "/" ++ path) <;>
    simp only [World.gen, World.emit, World.emitAll, List.append_assoc] <;>
    exact ⟨_, rfl⟩

/-- The constructor of `Mesh` only appends to the trace. -/
theorem Mesh.construct_trace (env : Env) (vertices : List Vertex) (indices : List Nat)
    (textures : List Texture) (w : World) :
    ∃ t, (Mesh.construct env vertices indices textures w).2.trace = w.trace ++ t := by
  unfold Mesh.construct
  simp only [World.gen, World.emit, World.emitAll, List.append_assoc]
  exact ⟨_, rfl⟩

namespace Model

/-- The texture loop only appends to the trace. -/
theorem LoadMaterialTextures.loop_trace (env : Env) (self : Model) (typeName : String)
    (paths : List String) :
    ∀ (textures : List Texture) (w : World),
      ∃ t, (LoadMaterialTextures.loop env self typeName paths textures w).2.trace
        = w.trace ++ t := by
  induction paths with
  | nil => intro textures w; exact ⟨[], by simp [LoadMaterialTextures.loop]⟩
  | cons p rest ih =>
    intro textures w
    simp only [LoadMaterialTextures.loop]
    obtain ⟨t1, h1⟩ := TextureFromFile_trace env p self._directory w
    obtain ⟨t2, h2⟩ := ih (textures ++ [Texture.mk (TextureFromFile env p self._directory w).1
      typeName p]) (TextureFromFile env p self._directory w).2
    exact ⟨t1 ++ t2, by rw [h2, h1, List.append_assoc]⟩

/-- The function `LoadMaterialTextures` only appends to the trace. -/
theorem LoadMaterialTextures_trace (env : Env) (self : Model) (mat : aiMaterial)
    (type : aiTextureType) (typeName : String) (w : World) :
    ∃ t, (LoadMaterialTextures env self mat type typeName w).2.trace = w.trace ++ t :=
  LoadMaterialTextures.loop_trace env self typeName (mat.textures type) [] w

/-- A successful `ProcessMesh` appends to the trace, starting with `LogInfo`. -/
theorem ProcessMesh_trace_model (env : Env) (self : Model) (mesh : aiMesh) (sc : aiScene)
    (w : World) (r : Mesh × World) (h : ProcessMesh env self mesh sc w = Except.ok r) :
    ∃ msg t, r.2.trace = w.trace ++ Effect.LogInfo msg :: t := by
  unfold ProcessMesh at h
  cases hv : ProcessMesh.vertices mesh (List.range mesh.mNumVertices) [] with
  | error e => simp [hv] at h
  | ok vs =>
    rw [hv] at h
    simp only [Nat.zero_le, if_true] at h
    cases hm : readAt sc.mMaterials mesh.mMaterialIndex with
    | error e => simp [hm] at h
    | ok material =>
      rw [hm] at h
      simp only [Except.ok.injEq] at h
      obtain ⟨t1, h1⟩ := LoadMaterialTextures_trace env self material
        aiTextureType.aiTextureType_DIFFUSE "texture_diffuse" (w.emit (Effect.LogInfo material.name))
      obtain ⟨t2, h2⟩ := LoadMaterialTextures_trace env self material
        aiTextureType.aiTextureType_SPECULAR "texture_specular"
        (LoadMaterialTextures env self material aiTextureType.aiTextureType_DIFFUSE
          "texture_diffuse" (w.emit (Effect.LogInfo material.name))).2
      obtain ⟨t3, h3⟩ := Mesh.construct_trace env vs (ProcessMesh.indices mesh.mFaces [])
        ((LoadMaterialTextures env self material aiTextureType.aiTextureType_DIFFUSE
            "texture_diffuse" (w.emit (Effect.LogInfo material.name))).1 ++
          (LoadMaterialTextures env self material aiTextureType.aiTextureType_SPECULAR
            "texture_specular"
            (LoadMaterialTextures env self material aiTextureType.aiTextureType_DIFFUSE
              "texture_diffuse" (w.emit (Effect.LogInfo material.name))).2).1)
        (LoadMaterialTextures env self material aiTextureType.aiTextureType_SPECULAR
            "texture_specular"
            (LoadMaterialTextures env self material aiTextureType.aiTextureType_DIFFUSE
              "texture_diffuse" (w.emit (Effect.LogInfo material.name))).2).2
      refine ⟨material.name, t1 ++ t2 ++ t3, ?_⟩
      rw [← h, h3, h2, h1]
      simp [World.emit, List.append_assoc]

/-- A successful mesh loop appends nothing, or appends starting with `LogInfo`. -/
theorem ProcessNode.meshes_trace_model (env : Env) (sc : aiScene) (refs : List Nat) :
    ∀ (self : Model) (w : World) (r : Model × World),
      ProcessNode.meshes env sc refs self w = Except.ok r →
        r.2.trace = w.trace ∨ ∃ msg t, r.2.trace = w.trace ++ Effect.LogInfo msg :: t := by
  induction refs with
  | nil =>
    intro self w r h
    simp only [ProcessNode.meshes, Except.ok.injEq] at h
    exact Or.inl (by rw [← h])
  | cons i rest ih =>
    intro self w r h
    simp only [ProcessNode.meshes] at h
    cases hm : readAt sc.mMeshes i with
    | error e => simp [hm] at h
    | ok m =>
      rw [hm] at h
      dsimp only at h
      cases hp : ProcessMesh env self m sc w with
      | error e => simp [hp] at h
      | ok q =>
        rw [hp] at h
        dsimp only at h
        obtain ⟨msg, t, ht⟩ := ProcessMesh_trace_model env self m sc w q hp
        rcases ih _ _ _ h with h2 | ⟨msg2, t2, h2⟩
        · exact Or.inr ⟨msg, t, by rw [h2, ht]⟩
        · exact Or.inr ⟨msg, t ++ Effect.LogInfo msg2 :: t2, by rw [h2, ht]; simp⟩

end Model

end PalmEngine

/-! ## The failure branch of `LoadModel` -/

/-- C6. `LoadModel` takes the failure branch (its result is the untouched or
empty model and the world with the one "ASSIMP::" error appended) if and only
if the importer returned a null scene, or the scene has the incomplete flag
set, or the scene has no root node; this is the condition of the `if` in the
code. In every other case the result is the walk of the tree from the root
node. Both loaders. -/
theorem C6_failure_branch_iff (env : Env) (path : String) (self : PalmEngine.Model) (w : World) :
    let importer := env.ReadFile path (aiProcess_Triangulate ||| aiProcess_FlipUVs)
    (importFailed importer.scene = true ↔ importer.Fails) ∧
    (palmx.LoadModel env path w =
        Except.ok ({ meshes := [], transform := env.defaultTransform },
          w.emit (Effect.LogError ("ASSIMP::" ++ importer.errorString))) ↔ importer.Fails) ∧
    (PalmEngine.Model.LoadModel env self path w =
        Except.ok (self, w.emit (Effect.LogError ("ASSIMP::" ++ importer.errorString)))
      ↔ importer.Fails) ∧
    (¬ importer.Fails → ∃ sc root, importer.scene = some sc ∧ sc.mRootNode = some root ∧
      palmx.LoadModel env path w =
        (match palmx.ProcessNode env sc (substr path 0 (find_last_of path '/')) root w with
          | Except.error e => Except.error e
          | Except.ok r =>
            Except.ok ({ meshes := r.1, transform := env.defaultTransform }, r.2)) ∧
      PalmEngine.Model.LoadModel env self path w =
        PalmEngine.Model.ProcessNode env sc root
          { self with _directory := substr path 0 (find_last_of path '/') } w) := by
  intro importer
  have hwalk : ¬ importer.Fails → ∃ sc root, importer.scene = some sc ∧ sc.incomplete = false ∧
      sc.mRootNode = some root := by
    intro hnf
    apply (importFailed_eq_false_iff importer).1
    cases hf : importFailed importer.scene with
    | false => rfl
    | true => exact absurd ((importFailed_iff importer).1 hf) hnf
  have hne : ∀ (t : List Effect) (e : Effect), ¬ (t ++ [e] = t) := by
    intro t e h
    have := congrArg List.length h
    simp at this
  refine ⟨importFailed_iff importer, ⟨?_, palmx.LoadModel_of_fails env path w⟩,
    ⟨?_, PalmEngine.Model.LoadModel_of_fails_model env self path w⟩, ?_⟩
  · intro h
    by_contra hnf
    obtain ⟨sc, root, hs, hc, hr⟩ := hwalk hnf
    rw [palmx.LoadModel_of_scene env path w sc root hs hc hr,
      palmx.ProcessNode_eq_meshes_preorder] at h
    cases hm : palmx.ProcessNode.meshes env sc (substr path 0 (find_last_of path '/'))
        root.preorder [] w with
    | error e => simp [hm] at h
    | ok r =>
      rw [hm] at h
      simp only [Except.ok.injEq, Prod.mk.injEq] at h
      have ht : r.2.trace = w.trace ++ [Effect.LogError ("ASSIMP::" ++ importer.errorString)] := by
        rw [h.2]; rfl
      rcases palmx.ProcessNode.meshes_trace env sc _ _ _ _ _ hm with h2 | ⟨id, t, h2⟩
      · rw [h2] at ht
        exact hne _ _ ht.symm
      · rw [h2] at ht
        have := List.append_cancel_left ht
        simp at this
  · intro h
    by_contra hnf
    obtain ⟨sc, root, hs, hc, hr⟩ := hwalk hnf
    rw [PalmEngine.Model.LoadModel_of_scene_model env self path w sc root hs hc hr,
      PalmEngine.Model.ProcessNode_eq_meshes_preorder_model] at h
    have ht : (self, w.emit (Effect.LogError ("ASSIMP::" ++ importer.errorString))).2.trace
        = w.trace ++ [Effect.LogError ("ASSIMP::" ++ importer.errorString)] := rfl
    rcases PalmEngine.Model.ProcessNode.meshes_trace_model env sc _ _ _ _ h with h2 | ⟨m, t, h2⟩
    · rw [h2] at ht
      exact hne _ _ ht.symm
    · rw [h2] at ht
      have := List.append_cancel_left ht
      simp at this
  · intro hnf
    obtain ⟨sc, root, hs, hc, hr⟩ := hwalk hnf
    exact ⟨sc, root, hs, hr, palmx.LoadModel_of_scene env path w sc root hs hc hr,
      PalmEngine.Model.LoadModel_of_scene_model env self path w sc root hs hc hr⟩

/-- Witness of C6: for a path the sample importer does not know, the scene is
null and `LoadModel` gives the failure result. -/
theorem C6_failure_branch_iff_witness :
    (Sample.env.ReadFile "missing.obj" (aiProcess_Triangulate ||| aiProcess_FlipUVs)).Fails ∧
    palmx.LoadModel Sample.env "missing.obj" World.initial =
      Except.ok ({ meshes := [], transform := Sample.env.defaultTransform },
        World.initial.emit (Effect.LogError ("ASSIMP::" ++ "Unable to open file"))) :=
  ⟨Or.inl rfl,
    (C6_failure_branch_iff Sample.env "missing.obj" PalmEngine.Model.construct World.initial).2.1.2
      (Or.inl rfl)⟩

/-- C7. Whenever the import fails (null scene, incomplete flag, or no root
node), `palmx::LoadModel` returns a model with zero meshes, and the only thing
it does to the world is to log one error, "ASSIMP::" followed by the diagnostic
string of the importer: no decoder call, no GPU call, no GL name generated. -/
theorem C7_failed_import_gives_empty_model (env : Env) (file_path : String) (w : World)
    (h : (env.ReadFile file_path (aiProcess_Triangulate ||| aiProcess_FlipUVs)).Fails) :
    ∃ model w1, palmx.LoadModel env file_path w = Except.ok (model, w1) ∧
      model.meshes = [] ∧
      w1.trace = w.trace ++ [Effect.LogError ("ASSIMP::" ++
        (env.ReadFile file_path (aiProcess_Triangulate ||| aiProcess_FlipUVs)).errorString)] ∧
      w1.glGenCount = w.glGenCount :=
  ⟨_, _, palmx.LoadModel_of_fails env file_path w h, rfl, rfl, rfl⟩

/-- Witness of C7: loading a path the sample importer does not know. -/
theorem C7_failed_import_gives_empty_model_witness :
    (Sample.env.ReadFile "missing.obj" (aiProcess_Triangulate ||| aiProcess_FlipUVs)).Fails ∧
    ∃ model w1, palmx.LoadModel Sample.env "missing.obj" World.initial = Except.ok (model, w1) ∧
      model.meshes = [] ∧
      w1.trace = World.initial.trace ++ [Effect.LogError ("ASSIMP::" ++
        (Sample.env.ReadFile "missing.obj"
          (aiProcess_Triangulate ||| aiProcess_FlipUVs)).errorString)] ∧
      w1.glGenCount = World.initial.glGenCount :=
  ⟨Or.inl rfl, C7_failed_import_gives_empty_model Sample.env "missing.obj" World.initial
    (Or.inl rfl)⟩

/-! ## Mesh building -/

theorem readAt_of_lt {α : Type} (a : List α) (i : Nat) (h : i < a.length) :
    readAt a i = Except.ok a[i] := by
  unfold readAt
  rw [List.getElem?_eq_getElem h]

theorem aiMesh.readable_iff (m : aiMesh) (sc : aiScene) :
    m.readable sc = true ↔
      m.mVertices.length = m.mNumVertices ∧
      (∃ normals, m.mNormals = some normals ∧ normals.length = m.mNumVertices) ∧
      (∀ channel, m.mTextureCoords 0 = some channel → channel.length = m.mNumVertices) ∧
      m.mMaterialIndex < sc.mMaterials.length := by
  unfold aiMesh.readable
  cases m.mNormals <;> cases m.mTextureCoords 0 <;> simp [and_assoc]

namespace palmx

theorem ProcessMesh.faceIndices_eq (l : List Nat) :
    ∀ acc : List Nat, ProcessMesh.faceIndices l acc = acc ++ l := by
  induction l with
  | nil => intro acc; simp [ProcessMesh.faceIndices]
  | cons j rest ih => intro acc; simp [ProcessMesh.faceIndices, ih]

theorem ProcessMesh.indices_eq (faces : List aiFace) :
    ∀ acc : List Nat,
      ProcessMesh.indices faces acc = acc ++ (faces.map fun face => face.mIndices).flatten := by
  induction faces with
  | nil => intro acc; simp [ProcessMesh.indices]
  | cons face rest ih =>
    intro acc
    simp [ProcessMesh.indices, ih, ProcessMesh.faceIndices_eq]

/-- When the arrays are there, the body of the vertex loop succeeds for every
index below `mNumVertices`. -/
theorem ProcessMesh.vertex_ok (m : aiMesh) (sc : aiScene) (h : m.readable sc = true) (i : Nat)
    (hi : i < m.mNumVertices) : ∃ v, ProcessMesh.vertex m i = Except.ok v := by
  obtain ⟨hp, ⟨normals, hn, hnl⟩, ht, -⟩ := (aiMesh.readable_iff m sc).1 h
  unfold ProcessMesh.vertex
  rw [readAt_of_lt m.mVertices i (by omega), hn]
  simp only [readAtPtr]
  rw [readAt_of_lt normals i (by omega)]
  cases hc : m.mTextureCoords 0 with
  | none => exact ⟨_, rfl⟩
  | some channel =>
    simp only
    rw [readAt_of_lt channel i (by have := ht channel hc; omega)]
    exact ⟨_, rfl⟩

/-- Without a first texture-coordinate channel, the body of the vertex loop
gives the texture coordinates (0,0). -/
theorem ProcessMesh.vertex_tex_coords (m : aiMesh) (i : Nat) (v : Vertex)
    (hc : m.mTextureCoords 0 = none) (h : ProcessMesh.vertex m i = Except.ok v) :
    v.tex_coords = ⟨0, 0⟩ := by
  unfold ProcessMesh.vertex at h
  rw [hc] at h
  cases hp : readAt m.mVertices i with
  | error e => simp [hp] at h
  | ok p =>
    rw [hp] at h
    cases hn : readAtPtr m.mNormals i with
    | error e => simp [hn] at h
    | ok n =>
      rw [hn] at h
      simp only [Except.ok.injEq] at h
      rw [← h]

/-- What the vertex loop returns: the vertices of the given indices, one by
one, behind `acc`. -/
theorem ProcessMesh.vertices_pointwise (m : aiMesh) (is : List Nat) :
    ∀ (acc out : List Vertex), ProcessMesh.vertices m is acc = Except.ok out →
      ∃ vs, out = acc ++ vs ∧
        List.Forall₂ (fun i v => ProcessMesh.vertex m i = Except.ok v) is vs := by
  induction is with
  | nil =>
    intro acc out h
    simp only [ProcessMesh.vertices, Except.ok.injEq] at h
    exact ⟨[], by simp [h], List.Forall₂.nil⟩
  | cons i rest ih =>
    intro acc out h
    simp only [ProcessMesh.vertices] at h
    cases hv : ProcessMesh.vertex m i with
    | error e => simp [hv] at h
    | ok v =>
      rw [hv] at h
      dsimp only at h
      obtain ⟨vs, hvs, hall⟩ := ih _ _ h
      exact ⟨v :: vs, by simp [hvs], List.Forall₂.cons hv hall⟩

/-- The vertex loop succeeds when its body succeeds for every index. -/
theorem ProcessMesh.vertices_ok (m : aiMesh) (is : List Nat)
    (h : ∀ i ∈ is, ∃ v, ProcessMesh.vertex m i = Except.ok v) :
    ∀ acc : List Vertex, ∃ out, ProcessMesh.vertices m is acc = Except.ok out := by
  induction is with
  | nil => intro acc; exact ⟨acc, rfl⟩
  | cons i rest ih =>
    intro acc
    obtain ⟨v, hv⟩ := h i (List.mem_cons_self _ _)
    simp only [ProcessMesh.vertices, hv]
    exact ih (fun j hj => h j (List.mem_cons_of_mem _ hj)) _

/-- The parts of a mesh that `ProcessMesh` returned. -/
theorem ProcessMesh_parts (env : Env) (m : aiMesh) (sc : aiScene) (dir : String) (w : World)
    (r : Mesh × World) (h : ProcessMesh env m sc dir w = Except.ok r) :
    ProcessMesh.vertices m (List.range m.mNumVertices) [] = Except.ok r.1.vertices ∧
      r.1.indices = ProcessMesh.indices m.mFaces [] := by
  unfold ProcessMesh at h
  cases hv : ProcessMesh.vertices m (List.range m.mNumVertices) [] with
  | error e => simp [hv] at h
  | ok vs =>
    rw [hv] at h
    dsimp only at h
    cases hm : readAt sc.mMaterials m.mMaterialIndex with
    | error e => simp [hm] at h
    | ok material =>
      rw [hm] at h
      simp only [Except.ok.injEq] at h
      rw [← h]
      exact ⟨rfl, rfl⟩

/-- The function `ProcessMesh` returns a mesh when the arrays are there. -/
theorem ProcessMesh_ok (env : Env) (m : aiMesh) (sc : aiScene) (dir : String) (w : World)
    (h : m.readable sc = true) : ∃ r, ProcessMesh env m sc dir w = Except.ok r := by
  obtain ⟨vs, hvs⟩ := ProcessMesh.vertices_ok m (List.range m.mNumVertices)
    (fun i hi => ProcessMesh.vertex_ok m sc h i (List.mem_range.1 hi)) []
  have hmat := ((aiMesh.readable_iff m sc).1 h).2.2.2
  unfold ProcessMesh
  rw [hvs, readAt_of_lt sc.mMaterials m.mMaterialIndex hmat]
  exact ⟨_, rfl⟩

end palmx

namespace PalmEngine.Model

theorem ProcessMesh.faceIndices_eq_model (l : List Nat) :
    ∀ acc : List Nat, ProcessMesh.faceIndices l acc = acc ++ l := by
  induction l with
  | nil => intro acc; simp [ProcessMesh.faceIndices]
  | cons j rest ih => intro acc; simp [ProcessMesh.faceIndices, ih]

theorem ProcessMesh.indices_eq_model (faces : List aiFace) :
    ∀ acc : List Nat,
      ProcessMesh.indices faces acc = acc ++ (faces.map fun face => face.mIndices).flatten := by
  induction faces with
  | nil => intro acc; simp [ProcessMesh.indices]
  | cons face rest ih =>
    intro acc
    simp [ProcessMesh.indices, ih, ProcessMesh.faceIndices_eq_model]

/-- When the arrays are there, the body of the vertex loop succeeds for every
index below `mNumVertices`. -/
theorem ProcessMesh.vertex_ok_model (m : aiMesh) (sc : aiScene) (h : m.readable sc = true) (i : Nat)
    (hi : i < m.mNumVertices) : ∃ v, ProcessMesh.vertex m i = Except.ok v := by
  obtain ⟨hp, ⟨normals, hn, hnl⟩, ht, -⟩ := (aiMesh.readable_iff m sc).1 h
  unfold ProcessMesh.vertex
  rw [readAt_of_lt m.mVertices i (by omega), hn]
  simp only [readAtPtr]
  rw [readAt_of_lt normals i (by omega)]
  cases hc : m.mTextureCoords 0 with
  | none => exact ⟨_, rfl⟩
  | some channel =>
    simp only
    rw [readAt_of_lt channel i (by have := ht channel hc; omega)]
    exact ⟨_, rfl⟩

/-- Without a first texture-coordinate channel, the body of the vertex loop
gives the texture coordinates (0,0). -/
theorem ProcessMesh.vertex_tex_coords_model (m : aiMesh) (i : Nat) (v : Vertex)
    (hc : m.mTextureCoords 0 = none) (h : ProcessMesh.vertex m i = Except.ok v) :
    v.mTexCoords = ⟨0, 0⟩ := by
  unfold ProcessMesh.vertex at h
  rw [hc] at h
  cases hp : readAt m.mVertices i with
  | error e => simp [hp] at h
  | ok p =>
    rw [hp] at h
    cases hn : readAtPtr m.mNormals i with
    | error e => simp [hn] at h
    | ok n =>
      rw [hn] at h
      simp only [Except.ok.injEq] at h
      rw [← h]

/-- What the vertex loop returns: the vertices of the given indices, one by
one, behind `acc`. -/
theorem ProcessMesh.vertices_pointwise_model (m : aiMesh) (is : List Nat) :
    ∀ (acc out : List Vertex), ProcessMesh.vertices m is acc = Except.ok out →
      ∃ vs, out = acc ++ vs ∧
        List.Forall₂ (fun i v => ProcessMesh.vertex m i = Except.ok v) is vs := by
  induction is with
  | nil =>
    intro acc out h
    simp only [ProcessMesh.vertices, Except.ok.injEq] at h
    exact ⟨[], by simp [h], List.Forall₂.nil⟩
  | cons i rest ih =>
    intro acc out h
    simp only [ProcessMesh.vertices] at h
    cases hv : ProcessMesh.vertex m i with
    | error e => simp [hv] at h
    | ok v =>
      rw [hv] at h
      dsimp only at h
      obtain ⟨vs, hvs, hall⟩ := ih _ _ h
      exact ⟨v :: vs, by simp [hvs], List.Forall₂.cons hv hall⟩

/-- The vertex loop succeeds when its body succeeds for every index. -/
theorem ProcessMesh.vertices_ok_model (m : aiMesh) (is : List Nat)
    (h : ∀ i ∈ is, ∃ v, ProcessMesh.vertex m i = Except.ok v) :
    ∀ acc : List Vertex, ∃ out, ProcessMesh.vertices m is acc = Except.ok out := by
  induction is with
  | nil => intro acc; exact ⟨acc, rfl⟩
  | cons i rest ih =>
    intro acc
    obtain ⟨v, hv⟩ := h i (List.mem_cons_self _ _)
    simp only [ProcessMesh.vertices, hv]
    exact ih (fun j hj => h j (List.mem_cons_of_mem _ hj)) _

/-- The parts of a mesh that `ProcessMesh` returned. -/
theorem ProcessMesh_parts_model (env : Env) (self : Model) (m : aiMesh) (sc : aiScene) (w : World)
    (r : Mesh × World) (h : ProcessMesh env self m sc w = Except.ok r) :
    ProcessMesh.vertices m (List.range m.mNumVertices) [] = Except.ok r.1.mVertices ∧
      r.1.mIndices = ProcessMesh.indices m.mFaces [] := by
  unfold ProcessMesh at h
  cases hv : ProcessMesh.vertices m (List.range m.mNumVertices) [] with
  | error e => simp [hv] at h
  | ok vs =>
    rw [hv] at h
    simp only [Nat.zero_le, if_true] at h
    cases hm : readAt sc.mMaterials m.mMaterialIndex with
    | error e => simp [hm] at h
    | ok material =>
      rw [hm] at h
      simp only [Except.ok.injEq] at h
      rw [← h]
      exact ⟨rfl, rfl⟩

/-- The function `ProcessMesh` returns a mesh when the arrays are there. -/
theorem ProcessMesh_ok_model (env : Env) (self : Model) (m : aiMesh) (sc : aiScene) (w : World)
    (h : m.readable sc = true) : ∃ r, ProcessMesh env self m sc w = Except.ok r := by
  obtain ⟨vs, hvs⟩ := ProcessMesh.vertices_ok_model m (List.range m.mNumVertices)
    (fun i hi => ProcessMesh.vertex_ok_model m sc h i (List.mem_range.1 hi)) []
  have hmat := ((aiMesh.readable_iff m sc).1 h).2.2.2
  unfold ProcessMesh
  rw [hvs, readAt_of_lt sc.mMaterials m.mMaterialIndex hmat]
  simp only [Nat.zero_le, if_true]
  exact ⟨_, rfl⟩

end PalmEngine.Model

theorem forall2_exists_left {α β : Type} {R : α → β → Prop} {l1 : List α} {l2 : List β}
    (h : List.Forall₂ R l1 l2) : ∀ b ∈ l2, ∃ a ∈ l1, R a b := by
  induction h with
  | nil => intro b hb; cases hb
  | cons hab _ ih =>
    intro b hb
    rcases List.mem_cons.1 hb with rfl | hb
    · exact ⟨_, List.mem_cons_self _ _, hab⟩
    · obtain ⟨a, ha, hr⟩ := ih b hb
      exact ⟨a, List.mem_cons_of_mem _ ha, hr⟩

theorem aiMesh.flatten_length_of_triangulated (m : aiMesh) (ht : m.triangulated = true) :
    ((m.mFaces.map fun face => face.mIndices).flatten).length = 3 * m.mFaces.length := by
  unfold aiMesh.triangulated at ht
  rw [List.all_eq_true] at ht
  have : ∀ faces : List aiFace, (∀ face ∈ faces, face.mIndices.length = 3) →
      ((faces.map fun face => face.mIndices).flatten).length = 3 * faces.length := by
    intro faces
    induction faces with
    | nil => intro _; rfl
    | cons f rest ih =>
      intro h
      have h1 := h f (List.mem_cons_self _ _)
      have h2 := ih (fun g hg => h g (List.mem_cons_of_mem _ hg))
      simp only [List.map_cons, List.flatten_cons, List.length_append, List.length_cons, h1, h2]
      omega
  exact this m.mFaces (fun face hf => by simpa using ht face hf)

theorem aiMesh.flatten_lt_of_valid (m : aiMesh) (sc : aiScene) (hv : m.valid sc = true) :
    ∀ j ∈ (m.mFaces.map fun face => face.mIndices).flatten, j < m.mNumVertices := by
  unfold aiMesh.valid at hv
  rw [Bool.and_eq_true, List.all_eq_true] at hv
  intro j hj
  rw [List.mem_flatten] at hj
  obtain ⟨l, hl, hjl⟩ := hj
  rw [List.mem_map] at hl
  obtain ⟨face, hface, rfl⟩ := hl
  have := hv.2 face hface
  rw [List.all_eq_true] at this
  simpa using this j hjl

theorem aiMesh.readable_of_valid (m : aiMesh) (sc : aiScene) (hv : m.valid sc = true) :
    m.readable sc = true := by
  unfold aiMesh.valid at hv
  rw [Bool.and_eq_true] at hv
  exact hv.1

namespace palmx

/-- A returned mesh has `mNumVertices` vertices. -/
theorem ProcessMesh_vertices_length (env : Env) (m : aiMesh) (sc : aiScene) (dir : String)
    (w : World) (r : Mesh × World) (h : ProcessMesh env m sc dir w = Except.ok r) :
    r.1.vertices.length = m.mNumVertices := by
  obtain ⟨vs, hvs, hall⟩ := ProcessMesh.vertices_pointwise m _ _ _
    (ProcessMesh_parts env m sc dir w r h).1
  rw [hvs, List.nil_append, ← hall.length_eq, List.length_range]

/-- Without a first channel, a returned mesh has texture coordinates (0,0) everywhere. -/
theorem ProcessMesh_tex_coords (env : Env) (m : aiMesh) (sc : aiScene) (dir : String)
    (w : World) (r : Mesh × World) (hc : m.mTextureCoords 0 = none)
    (h : ProcessMesh env m sc dir w = Except.ok r) :
    ∀ v ∈ r.1.vertices, v.tex_coords = ⟨0, 0⟩ := by
  obtain ⟨vs, hvs, hall⟩ := ProcessMesh.vertices_pointwise m _ _ _
    (ProcessMesh_parts env m sc dir w r h).1
  intro v hv
  rw [hvs, List.nil_append] at hv
  obtain ⟨i, -, hi⟩ := forall2_exists_left hall v hv
  exact ProcessMesh.vertex_tex_coords m i v hc hi

end palmx

namespace PalmEngine.Model

/-- A returned mesh has `mNumVertices` vertices. -/
theorem ProcessMesh_vertices_length_model (env : Env) (self : Model) (m : aiMesh) (sc : aiScene)
    (w : World) (r : Mesh × World) (h : ProcessMesh env self m sc w = Except.ok r) :
    r.1.mVertices.length = m.mNumVertices := by
  obtain ⟨vs, hvs, hall⟩ := ProcessMesh.vertices_pointwise_model m _ _ _
    (ProcessMesh_parts_model env self m sc w r h).1
  rw [hvs, List.nil_append, ← hall.length_eq, List.length_range]

/-- Without a first channel, a returned mesh has texture coordinates (0,0) everywhere. -/
theorem ProcessMesh_tex_coords_model (env : Env) (self : Model) (m : aiMesh) (sc : aiScene)
    (w : World) (r : Mesh × World) (hc : m.mTextureCoords 0 = none)
    (h : ProcessMesh env self m sc w = Except.ok r) :
    ∀ v ∈ r.1.mVertices, v.mTexCoords = ⟨0, 0⟩ := by
  obtain ⟨vs, hvs, hall⟩ := ProcessMesh.vertices_pointwise_model m _ _ _
    (ProcessMesh_parts_model env self m sc w r h).1
  intro v hv
  rw [hvs, List.nil_append] at hv
  obtain ⟨i, -, hi⟩ := forall2_exists_left hall v hv
  exact ProcessMesh.vertex_tex_coords_model m i v hc hi

end PalmEngine.Model

/-! ## The walk returns a model -/

namespace palmx

/-- The mesh loop returns when every reference is a slot of the mesh table
that holds a mesh whose arrays are there. -/
theorem ProcessNode.meshes_ok (env : Env) (sc : aiScene) (dir : String) (refs : List Nat)
    (h : ∀ i ∈ refs, ∃ m, sc.mMeshes[i]? = some m ∧ m.readable sc = true) :
    ∀ (acc : List Mesh) (w : World), ∃ r, ProcessNode.meshes env sc dir refs acc w = Except.ok r := by
  induction refs with
  | nil => intro acc w; exact ⟨_, rfl⟩
  | cons i rest ih =>
    intro acc w
    obtain ⟨m, hm, hr⟩ := h i (List.mem_cons_self _ _)
    obtain ⟨q, hq⟩ := ProcessMesh_ok env m sc dir w hr
    simp only [ProcessNode.meshes, (readAt_eq_ok _ _ _).2 hm, hq]
    exact ih (fun j hj => h j (List.mem_cons_of_mem _ hj)) _ _

end palmx

namespace PalmEngine.Model

/-- The mesh loop returns when every reference is a slot of the mesh table
that holds a mesh whose arrays are there. -/
theorem ProcessNode.meshes_ok_model (env : Env) (sc : aiScene) (refs : List Nat)
    (h : ∀ i ∈ refs, ∃ m, sc.mMeshes[i]? = some m ∧ m.readable sc = true) :
    ∀ (self : Model) (w : World), ∃ r, ProcessNode.meshes env sc refs self w = Except.ok r := by
  induction refs with
  | nil => intro self w; exact ⟨_, rfl⟩
  | cons i rest ih =>
    intro self w
    obtain ⟨m, hm, hr⟩ := h i (List.mem_cons_self _ _)
    obtain ⟨q, hq⟩ := ProcessMesh_ok_model env self m sc w hr
    simp only [ProcessNode.meshes, (readAt_eq_ok _ _ _).2 hm, hq]
    exact ih (fun j hj => h j (List.mem_cons_of_mem _ hj)) _ _

end PalmEngine.Model

/-! ## The claims on loading and mesh building -/

/-- C5. For a complete scene with a root node, the loaded model is the result of
processing the scene meshes in the order of the pre-order depth-first listing
of the tree (a node's own mesh references, then its children's listings, in
listed order): `LoadModel` equals the mesh loop run on that listing, in both
loaders, and when it returns, mesh number k of the model is the processed scene
mesh of reference number k of the listing; it does return when every
reference of the listing is a slot of the mesh table holding a mesh whose
arrays are there. A root with meshes [A, B] and one child with mesh [C] has the
listing [A, B, C]. -/
theorem C5_mesh_order_is_preorder (env : Env) (sc : aiScene) (root : aiNode) (path : String)
    (self : PalmEngine.Model) (w : World)
    (hs : (env.ReadFile path (aiProcess_Triangulate ||| aiProcess_FlipUVs)).scene = some sc)
    (hc : sc.incomplete = false) (hr : sc.mRootNode = some root) :
    (palmx.LoadModel env path w =
      match palmx.ProcessNode.meshes env sc (substr path 0 (find_last_of path '/'))
          root.preorder [] w with
      | Except.error e => Except.error e
      | Except.ok r => Except.ok ({ meshes := r.1, transform := env.defaultTransform }, r.2)) ∧
    (∀ model w1, palmx.LoadModel env path w = Except.ok (model, w1) →
      List.Forall₂ (palmx.IsProcessed env sc (substr path 0 (find_last_of path '/')))
        root.preorder model.meshes) ∧
    (PalmEngine.Model.LoadModel env self path w =
      PalmEngine.Model.ProcessNode.meshes env sc root.preorder
        { self with _directory := substr path 0 (find_last_of path '/') } w) ∧
    (∀ model w1, PalmEngine.Model.LoadModel env self path w = Except.ok (model, w1) →
      ∃ ms, model._meshes = self._meshes ++ ms ∧
        List.Forall₂ (PalmEngine.Model.IsProcessed env sc (substr path 0 (find_last_of path '/')))
          root.preorder ms) ∧
    ((∀ i ∈ root.preorder, ∃ m, sc.mMeshes[i]? = some m ∧ m.readable sc = true) →
      (∃ model w1, palmx.LoadModel env path w = Except.ok (model, w1) ∧
        model.meshes.length = root.preorder.length) ∧
      (∃ model w1, PalmEngine.Model.LoadModel env self path w = Except.ok (model, w1) ∧
        model._meshes.length = self._meshes.length + root.preorder.length)) ∧
    (∀ A B C : Nat, (aiNode.mk [A, B] [aiNode.mk [C] []]).preorder = [A, B, C]) := by
  have h1 := palmx.LoadModel_of_scene env path w sc root hs hc hr
  rw [palmx.ProcessNode_eq_meshes_preorder] at h1
  have h2 := PalmEngine.Model.LoadModel_of_scene_model env self path w sc root hs hc hr
  rw [PalmEngine.Model.ProcessNode_eq_meshes_preorder_model] at h2
  refine ⟨h1, ?_, h2, ?_, ?_, ?_⟩
  · intro model w1 hok
    rw [h1] at hok
    cases hm : palmx.ProcessNode.meshes env sc (substr path 0 (find_last_of path '/'))
        root.preorder [] w with
    | error e => simp [hm] at hok
    | ok r =>
      rw [hm] at hok
      simp only [Except.ok.injEq, Prod.mk.injEq] at hok
      obtain ⟨ms, hms, hall⟩ := palmx.ProcessNode.meshes_pointwise env sc _ _ _ _ _ hm
      rw [← hok.1]
      simpa [hms] using hall
  · intro model w1 hok
    rw [h2] at hok
    obtain ⟨-, ms, hms, hall⟩ :=
      PalmEngine.Model.ProcessNode.meshes_pointwise_model env sc _ _ _ _ hok
    exact ⟨ms, hms, hall⟩
  · intro hall
    constructor
    · obtain ⟨r, hm⟩ := palmx.ProcessNode.meshes_ok env sc
        (substr path 0 (find_last_of path '/')) root.preorder hall [] w
      obtain ⟨ms, hms, hfa⟩ := palmx.ProcessNode.meshes_pointwise env sc _ _ _ _ _ hm
      refine ⟨_, r.2, by rw [h1, hm], ?_⟩
      simp [hms, hfa.length_eq]
    · obtain ⟨r, hm⟩ := PalmEngine.Model.ProcessNode.meshes_ok_model env sc root.preorder hall
        { self with _directory := substr path 0 (find_last_of path '/') } w
      obtain ⟨-, ms, hms, hfa⟩ :=
        PalmEngine.Model.ProcessNode.meshes_pointwise_model env sc _ _ _ _ hm
      refine ⟨r.1, r.2, by rw [h2, hm], ?_⟩
      simp [hms, hfa.length_eq]
  · intro A B C
    rfl

/-- Witness of C5: the sample scene (mesh table B, C, A; root refers to A and
B, its child to C) loads, in both loaders, as the meshes A, B, C in this order. -/
theorem C5_mesh_order_is_preorder_witness :
    ((Sample.env.ReadFile "models/abc.obj" (aiProcess_Triangulate ||| aiProcess_FlipUVs)).scene
        = some Sample.abcScene ∧
      Sample.abcScene.incomplete = false ∧
      Sample.abcScene.mRootNode = some (aiNode.mk [2, 0] [aiNode.mk [1] []])) ∧
    (palmx.LoadModel Sample.env "models/abc.obj" World.initial =
      match palmx.ProcessNode.meshes Sample.env Sample.abcScene
          (substr "models/abc.obj" 0 (find_last_of "models/abc.obj" '/'))
          (aiNode.mk [2, 0] [aiNode.mk [1] []]).preorder [] World.initial with
      | Except.error e => Except.error e
      | Except.ok r =>
        Except.ok ({ meshes := r.1, transform := Sample.env.defaultTransform }, r.2)) ∧
    (match palmx.LoadModel Sample.env "models/abc.obj" World.initial with
      | Except.ok r => r.1.meshes.map (fun m => m.vertices.map (fun v => v.position.z))
      | Except.error _ => []) = [[1, 1, 1], [2, 2, 2], [3, 3, 3]] ∧
    (match PalmEngine.Model.LoadModel Sample.env PalmEngine.Model.construct "models/abc.obj"
        World.initial with
      | Except.ok r => r.1._meshes.map (fun m => m.mVertices.map (fun v => v.mPosition.z))
      | Except.error _ => []) = [[1, 1, 1], [2, 2, 2], [3, 3, 3]] :=
  ⟨⟨rfl, rfl, rfl⟩,
    (C5_mesh_order_is_preorder Sample.env Sample.abcScene (aiNode.mk [2, 0] [aiNode.mk [1] []])
      "models/abc.obj" PalmEngine.Model.construct World.initial rfl rfl rfl).1,
    by decide, by decide⟩


/-- C8. For a valid mesh with N vertices and M faces, all of them triangles,
`ProcessMesh` returns a mesh with N vertices whose index list has exactly 3*M
entries, every one of them below N. Both loaders. -/
theorem C8_triangle_index_list (env : Env) (m : aiMesh) (sc : aiScene) (dir : String)
    (self : PalmEngine.Model) (w : World) (hv : m.valid sc = true)
    (ht : m.triangulated = true) :
    (∃ r, palmx.ProcessMesh env m sc dir w = Except.ok r ∧
      r.1.vertices.length = m.mNumVertices ∧
      r.1.indices.length = 3 * m.mFaces.length ∧ ∀ j ∈ r.1.indices, j < m.mNumVertices) ∧
    (∃ r, PalmEngine.Model.ProcessMesh env self m sc w = Except.ok r ∧
      r.1.mVertices.length = m.mNumVertices ∧
      r.1.mIndices.length = 3 * m.mFaces.length ∧ ∀ j ∈ r.1.mIndices, j < m.mNumVertices) := by
  have hr := aiMesh.readable_of_valid m sc hv
  constructor
  · obtain ⟨r, h⟩ := palmx.ProcessMesh_ok env m sc dir w hr
    have hi := (palmx.ProcessMesh_parts env m sc dir w r h).2
    rw [palmx.ProcessMesh.indices_eq, List.nil_append] at hi
    refine ⟨r, h, palmx.ProcessMesh_vertices_length env m sc dir w r h, ?_, ?_⟩
    · rw [hi]; exact aiMesh.flatten_length_of_triangulated m ht
    · rw [hi]; exact aiMesh.flatten_lt_of_valid m sc hv
  · obtain ⟨r, h⟩ := PalmEngine.Model.ProcessMesh_ok_model env self m sc w hr
    have hi := (PalmEngine.Model.ProcessMesh_parts_model env self m sc w r h).2
    rw [PalmEngine.Model.ProcessMesh.indices_eq_model, List.nil_append] at hi
    refine ⟨r, h, PalmEngine.Model.ProcessMesh_vertices_length_model env self m sc w r h, ?_, ?_⟩
    · rw [hi]; exact aiMesh.flatten_length_of_triangulated m ht
    · rw [hi]; exact aiMesh.flatten_lt_of_valid m sc hv

/-- Witness of C8: mesh A of the sample scene, one triangle over three vertices. -/
theorem C8_triangle_index_list_witness :
    (Sample.meshA.valid Sample.abcScene = true ∧ Sample.meshA.triangulated = true) ∧
    ∃ r, palmx.ProcessMesh Sample.env Sample.meshA Sample.abcScene "models" World.initial
        = Except.ok r ∧
      r.1.vertices.length = 3 ∧ r.1.indices.length = 3 * 1 ∧ ∀ j ∈ r.1.indices, j < 3 :=
  ⟨⟨by decide, by decide⟩,
    (C8_triangle_index_list Sample.env Sample.meshA Sample.abcScene "models"
      PalmEngine.Model.construct World.initial (by decide) (by decide)).1⟩

/-- C9. Whenever `ProcessMesh` returns a mesh, its index list is the
concatenation of the faces' index lists in face order, each in its own order,
whatever the sizes of the faces, so its length is the sum of the faces' index
counts; and it does return a mesh whenever the arrays it reads are there.
Both loaders. -/
theorem C9_indices_are_flattened_faces (env : Env) (m : aiMesh) (sc : aiScene) (dir : String)
    (self : PalmEngine.Model) (w : World) :
    (∀ r, palmx.ProcessMesh env m sc dir w = Except.ok r →
      r.1.indices = (m.mFaces.map fun face => face.mIndices).flatten ∧
      r.1.indices.length = (m.mFaces.map fun face => face.mIndices.length).sum) ∧
    (∀ r, PalmEngine.Model.ProcessMesh env self m sc w = Except.ok r →
      r.1.mIndices = (m.mFaces.map fun face => face.mIndices).flatten ∧
      r.1.mIndices.length = (m.mFaces.map fun face => face.mIndices.length).sum) ∧
    (m.readable sc = true →
      (∃ r, palmx.ProcessMesh env m sc dir w = Except.ok r) ∧
      (∃ r, PalmEngine.Model.ProcessMesh env self m sc w = Except.ok r)) := by
  have hlen : ((m.mFaces.map fun face => face.mIndices).flatten).length
      = (m.mFaces.map fun face => face.mIndices.length).sum := by
    rw [List.length_flatten, List.map_map]
    rfl
  refine ⟨?_, ?_, ?_⟩
  · intro r h
    have hi := (palmx.ProcessMesh_parts env m sc dir w r h).2
    rw [palmx.ProcessMesh.indices_eq, List.nil_append] at hi
    exact ⟨hi, by rw [hi, hlen]⟩
  · intro r h
    have hi := (PalmEngine.Model.ProcessMesh_parts_model env self m sc w r h).2
    rw [PalmEngine.Model.ProcessMesh.indices_eq_model, List.nil_append] at hi
    exact ⟨hi, by rw [hi, hlen]⟩
  · intro hr
    exact ⟨palmx.ProcessMesh_ok env m sc dir w hr,
      PalmEngine.Model.ProcessMesh_ok_model env self m sc w hr⟩

/-- Witness of C9: a mesh with a quadrilateral and a triangle gives the seven
indices of the two faces, in order. -/
theorem C9_indices_are_flattened_faces_witness :
    Sample.quadAndTriangle.readable Sample.abcScene = true ∧
    (∃ r, palmx.ProcessMesh Sample.env Sample.quadAndTriangle Sample.abcScene "models"
      World.initial = Except.ok r) ∧
    (∀ r, palmx.ProcessMesh Sample.env Sample.quadAndTriangle Sample.abcScene "models"
      World.initial = Except.ok r → r.1.indices = [0, 1, 2, 3, 2, 3, 0]) :=
  ⟨by decide,
    ((C9_indices_are_flattened_faces Sample.env Sample.quadAndTriangle Sample.abcScene "models"
      PalmEngine.Model.construct World.initial).2.2 (by decide)).1,
    fun r h => ((C9_indices_are_flattened_faces Sample.env Sample.quadAndTriangle Sample.abcScene
      "models" PalmEngine.Model.construct World.initial).1 r h).1⟩

/-- C10, counterexample. A mesh without a first texture-coordinate channel and
without normals: `ProcessMesh` reads `mNormals[0]` through the null pointer and
returns no mesh, in both loaders. -/
theorem C10_counterexample_no_normals :
    Sample.noNormals.mTextureCoords 0 = none ∧
    palmx.ProcessMesh Sample.env Sample.noNormals Sample.abcScene "models" World.initial
      = Except.error Fault.nullPointer ∧
    PalmEngine.Model.ProcessMesh Sample.env PalmEngine.Model.construct Sample.noNormals
      Sample.abcScene World.initial = Except.error Fault.nullPointer :=
  ⟨rfl, rfl, rfl⟩

/-- C10, amended. For every raw mesh whose position and normal arrays have
`mNumVertices` entries, whose material index is inside the material table, and
which has no first texture-coordinate channel, `ProcessMesh` returns a mesh
with `mNumVertices` vertices and every vertex has texture coordinates (0,0).
Both loaders. -/
theorem C10_no_uv_channel_gives_zero_tex_coords (env : Env) (m : aiMesh) (sc : aiScene)
    (dir : String) (self : PalmEngine.Model) (w : World) (hr : m.readable sc = true)
    (hc : m.mTextureCoords 0 = none) :
    (∃ r, palmx.ProcessMesh env m sc dir w = Except.ok r ∧
      r.1.vertices.length = m.mNumVertices ∧ ∀ v ∈ r.1.vertices, v.tex_coords = ⟨0, 0⟩) ∧
    (∃ r, PalmEngine.Model.ProcessMesh env self m sc w = Except.ok r ∧
      r.1.mVertices.length = m.mNumVertices ∧ ∀ v ∈ r.1.mVertices, v.mTexCoords = ⟨0, 0⟩) := by
  constructor
  · obtain ⟨r, h⟩ := palmx.ProcessMesh_ok env m sc dir w hr
    exact ⟨r, h, palmx.ProcessMesh_vertices_length env m sc dir w r h,
      palmx.ProcessMesh_tex_coords env m sc dir w r hc h⟩
  · obtain ⟨r, h⟩ := PalmEngine.Model.ProcessMesh_ok_model env self m sc w hr
    exact ⟨r, h, PalmEngine.Model.ProcessMesh_vertices_length_model env self m sc w r h,
      PalmEngine.Model.ProcessMesh_tex_coords_model env self m sc w r hc h⟩

/-- Witness of the amended C10: mesh A of the sample scene has normals and no
texture coordinates. -/
theorem C10_no_uv_channel_gives_zero_tex_coords_witness :
    (Sample.meshA.readable Sample.abcScene = true ∧ Sample.meshA.mTextureCoords 0 = none) ∧
    ∃ r, palmx.ProcessMesh Sample.env Sample.meshA Sample.abcScene "models" World.initial
        = Except.ok r ∧
      r.1.vertices.length = 3 ∧ ∀ v ∈ r.1.vertices, v.tex_coords = ⟨0, 0⟩ :=
  ⟨⟨by decide, rfl⟩,
    (C10_no_uv_channel_gives_zero_tex_coords Sample.env Sample.meshA Sample.abcScene "models"
      PalmEngine.Model.construct World.initial (by decide) rfl).1⟩

/-! ## Resource cache: what a miss does -/

namespace palmx.ResourceManager

theorem set_last_of_append {α : Type} (l : List α) (d x : α) :
    (l ++ [d]).set l.length x = l ++ [x] := by
  induction l with
  | nil => rfl
  | cons a l ih => simp [List.set, ih]

/-- A miss of `LoadTexture` whose decode succeeds. -/
theorem LoadTexture_miss_decoded (env : Env) (name textureSource : String) (s : State)
    (data : Image) (h : s._cachedTextures.find name = none)
    (hd : env.stbi_load textureSource = some data) :
    LoadTexture env name textureSource s =
      (some s.textures.length,
        { world :=
            { trace := s.world.trace ++
                [ Effect.glGenTextures (env.glGenName s.world.glGenCount),
                  Effect.stbi_load textureSource,
                  Effect.glBindTexture GLenum.GL_TEXTURE_2D (env.glGenName s.world.glGenCount),
                  Effect.glTexImage2D GLenum.GL_TEXTURE_2D 0 (LoadTexture.format data.nrComponents)
                    data.width data.height 0 (LoadTexture.format data.nrComponents)
                    GLenum.GL_UNSIGNED_BYTE,
                  Effect.glGenerateMipmap GLenum.GL_TEXTURE_2D,
                  Effect.glTexParameteri GLenum.GL_TEXTURE_2D GLenum.GL_TEXTURE_WRAP_S
                    GLenum.GL_REPEAT,
                  Effect.glTexParameteri GLenum.GL_TEXTURE_2D GLenum.GL_TEXTURE_WRAP_T
                    GLenum.GL_REPEAT,
                  Effect.glTexParameteri GLenum.GL_TEXTURE_2D GLenum.GL_TEXTURE_MIN_FILTER
                    GLenum.GL_LINEAR_MIPMAP_LINEAR,
                  Effect.glTexParameteri GLenum.GL_TEXTURE_2D GLenum.GL_TEXTURE_MAG_FILTER
                    GLenum.GL_LINEAR,
                  Effect.stbi_image_free ]
              glGenCount := s.world.glGenCount + 1 }
          textures := s.textures ++ [Texture.mk (env.glGenName s.world.glGenCount)]
          shaders := s.shaders
          _cachedTextures := s._cachedTextures.assign name (some s.textures.length)
          _cachedShaders := s._cachedShaders }) := by
  simp only [LoadTexture, h, hd, State.emit, World.emit, World.gen, List.append_assoc,
    set_last_of_append]
  rfl

/-- A miss of `LoadTexture` whose decode fails. -/
theorem LoadTexture_miss_failed (env : Env) (name textureSource : String) (s : State)
    (h : s._cachedTextures.find name = none) (hd : env.stbi_load textureSource = none) :
    LoadTexture env name textureSource s =
      (some s.textures.length,
        { world :=
            { trace := s.world.trace ++
                [ Effect.glGenTextures (env.glGenName s.world.glGenCount),
                  Effect.stbi_load textureSource,
                  Effect.LogError ("Texture failed to load at path: " ++ textureSource),
                  Effect.stbi_image_free ]
              glGenCount := s.world.glGenCount + 1 }
          textures := s.textures ++ [Texture.mk env.defaultTextureId]
          shaders := s.shaders
          _cachedTextures := s._cachedTextures.assign name (some s.textures.length)
          _cachedShaders := s._cachedShaders }) := by
  simp only [LoadTexture, h, hd, State.emit, World.emit, World.gen, List.append_assoc]
  rfl

/-- A miss of `LoadShader`: the state it leaves, in terms of the sources it compiled. -/
theorem LoadShader_miss (env : Env) (name v f : String) (s : State)
    (h : s._cachedShaders.find name = none) :
    LoadShader env name v f s =
      (some s.shaders.length,
        { world :=
            { trace := s.world.trace ++
                (if ifstream_badbit.throws (env.ifstream v).state
                    || ifstream_badbit.throws (env.ifstream f).state then
                  [ Effect.LogError "Shader file not successfully read",
                    Effect.Compile "" "" (substr v 0 (find_last_of v '/')) ]
                else
                  [ Effect.Compile (env.ifstream v).content (env.ifstream f).content
                      (substr v 0 (find_last_of v '/')) ])
              glGenCount := s.world.glGenCount }
          textures := s.textures
          shaders := s.shaders ++ [Shader.mk name]
          _cachedTextures := s._cachedTextures
          _cachedShaders := s._cachedShaders.assign name (some s.shaders.length) }) := by
  simp only [LoadShader, h]
  split
  · simp only [State.emit, World.emit, List.append_assoc, set_last_of_append]
    rfl
  · simp only [State.emit, World.emit, List.append_assoc, set_last_of_append]

/-- The objects of the two heaps stay where they are, with their contents,
through every call. -/
theorem Call.run_objects (env : Env) (c : Call) (s : State) :
    (∀ (a : Nat) (t : Texture), s.textures[a]? = some t → (c.run env s).textures[a]? = some t) ∧
      (∀ (a : Nat) (t : Shader), s.shaders[a]? = some t → (c.run env s).shaders[a]? = some t) := by
  have happ : ∀ {α : Type} (l : List α) (x : α) (a : Nat) (t : α),
      l[a]? = some t → (l ++ [x])[a]? = some t := by
    intro α l x a t h
    have hlt : a < l.length := by
      by_contra hge
      rw [List.getElem?_eq_none (by omega)] at h
      cases h
    rw [List.getElem?_append_left hlt]
    exact h
  cases c with
  | LoadTexture n p =>
    simp only [Call.run]
    cases hf : s._cachedTextures.find n with
    | some e => rw [LoadTexture_of_find_some env n p s e hf]; exact ⟨fun _ _ h => h, fun _ _ h => h⟩
    | none =>
      cases hd : env.stbi_load p with
      | some data =>
        rw [LoadTexture_miss_decoded env n p s data hf hd]
        exact ⟨fun a t h => happ _ _ a t h, fun _ _ h => h⟩
      | none =>
        rw [LoadTexture_miss_failed env n p s hf hd]
        exact ⟨fun a t h => happ _ _ a t h, fun _ _ h => h⟩
  | LoadShader n v f =>
    simp only [Call.run]
    cases hf : s._cachedShaders.find n with
    | some e => rw [LoadShader_of_find_some env n v f s e hf]; exact ⟨fun _ _ h => h, fun _ _ h => h⟩
    | none =>
      rw [LoadShader_miss env n v f s hf]
      exact ⟨fun _ _ h => h, fun a t h => happ _ _ a t h⟩
  | GetTexture n =>
    simp only [Call.run, GetTexture_state]
    exact ⟨fun _ _ h => h, fun _ _ h => h⟩
  | GetShader n =>
    simp only [Call.run, GetShader_state]
    exact ⟨fun _ _ h => h, fun _ _ h => h⟩

/-- An entry of the texture cache is still there, unchanged, after every call. -/
theorem Call.run_texture_entry (env : Env) (c : Call) (s : State) (name : String)
    (e : shared_ptr) (h : s._cachedTextures.find name = some e) :
    (c.run env s)._cachedTextures.find name = some e := by
  cases c with
  | LoadTexture n p =>
    simp only [Call.run]
    cases hf : s._cachedTextures.find n with
    | some e2 => rw [LoadTexture_of_find_some env n p s e2 hf]; exact h
    | none =>
      have hne : name ≠ n := by
        intro heq
        rw [heq, hf] at h
        cases h
      rw [(LoadTexture_cachedTextures_of_find_none env n p s hf).1,
        unordered_map.find_assign_of_ne _ _ _ _ hne]
      exact h
  | LoadShader n v f =>
    simp only [Call.run]
    cases hf : s._cachedShaders.find n with
    | some e2 => rw [LoadShader_of_find_some env n v f s e2 hf]; exact h
    | none =>
      rw [(LoadShader_cachedShaders_of_find_none env n v f s hf).2.2]
      exact h
  | GetTexture n => simp only [Call.run, GetTexture_state]; exact h
  | GetShader n => simp only [Call.run, GetShader_state]; exact h

/-- An entry of the shader cache is still there, unchanged, after every call. -/
theorem Call.run_shader_entry (env : Env) (c : Call) (s : State) (name : String)
    (e : shared_ptr) (h : s._cachedShaders.find name = some e) :
    (c.run env s)._cachedShaders.find name = some e := by
  cases c with
  | LoadTexture n p =>
    simp only [Call.run]
    cases hf : s._cachedTextures.find n with
    | some e2 => rw [LoadTexture_of_find_some env n p s e2 hf]; exact h
    | none =>
      rw [(LoadTexture_cachedTextures_of_find_none env n p s hf).2.2]
      exact h
  | LoadShader n v f =>
    simp only [Call.run]
    cases hf : s._cachedShaders.find n with
    | some e2 => rw [LoadShader_of_find_some env n v f s e2 hf]; exact h
    | none =>
      have hne : name ≠ n := by
        intro heq
        rw [heq, hf] at h
        cases h
      rw [(LoadShader_cachedShaders_of_find_none env n v f s hf).1,
        unordered_map.find_assign_of_ne _ _ _ _ hne]
      exact h
  | GetTexture n => simp only [Call.run, GetTexture_state]; exact h
  | GetShader n => simp only [Call.run, GetShader_state]; exact h

/-- The function `LoadTexture` leaves the shader cache alone, `LoadShader` the texture cache. -/
theorem Load_other_cache (env : Env) (s : State) (n a b : String) :
    (LoadTexture env n a s).2._cachedShaders = s._cachedShaders ∧
      (LoadShader env n a b s).2._cachedTextures = s._cachedTextures := by
  constructor
  · cases hf : s._cachedTextures.find n with
    | some e => rw [LoadTexture_of_find_some env n a s e hf]
    | none => exact (LoadTexture_cachedTextures_of_find_none env n a s hf).2.2
  · cases hf : s._cachedShaders.find n with
    | some e => rw [LoadShader_of_find_some env n a b s e hf]
    | none => exact (LoadShader_cachedShaders_of_find_none env n a b s hf).2.2

/-! ## Resource cache: further claims -/

/-- C12. On a cache miss with a successful decode, `LoadTexture` makes exactly
these calls: it generates a texture name, decodes the file, binds the texture
and uploads the image once, with the format chosen by `LoadTexture.format` from the
decoded channel count both as internal format and as source format, then
mipmaps, repeat wrapping and the two filters; and the format of 1 channel is
`GL_RED`, of 3 channels `GL_RGB`, of 4 channels `GL_RGBA`. -/
theorem C12_upload_format_by_channel_count (env : Env) (s : State) (name textureSource : String)
    (data : Image) (h : s._cachedTextures.find name = none)
    (hd : env.stbi_load textureSource = some data) :
    (LoadTexture env name textureSource s).2.world.trace = s.world.trace ++
        [ Effect.glGenTextures (env.glGenName s.world.glGenCount),
          Effect.stbi_load textureSource,
          Effect.glBindTexture GLenum.GL_TEXTURE_2D (env.glGenName s.world.glGenCount),
          Effect.glTexImage2D GLenum.GL_TEXTURE_2D 0 (LoadTexture.format data.nrComponents)
            data.width data.height 0 (LoadTexture.format data.nrComponents) GLenum.GL_UNSIGNED_BYTE,
          Effect.glGenerateMipmap GLenum.GL_TEXTURE_2D,
          Effect.glTexParameteri GLenum.GL_TEXTURE_2D GLenum.GL_TEXTURE_WRAP_S GLenum.GL_REPEAT,
          Effect.glTexParameteri GLenum.GL_TEXTURE_2D GLenum.GL_TEXTURE_WRAP_T GLenum.GL_REPEAT,
          Effect.glTexParameteri GLenum.GL_TEXTURE_2D GLenum.GL_TEXTURE_MIN_FILTER
            GLenum.GL_LINEAR_MIPMAP_LINEAR,
          Effect.glTexParameteri GLenum.GL_TEXTURE_2D GLenum.GL_TEXTURE_MAG_FILTER
            GLenum.GL_LINEAR,
          Effect.stbi_image_free ] ∧
      (data.nrComponents = 1 → LoadTexture.format data.nrComponents = GLenum.GL_RED) ∧
      (data.nrComponents = 3 → LoadTexture.format data.nrComponents = GLenum.GL_RGB) ∧
      (data.nrComponents = 4 → LoadTexture.format data.nrComponents = GLenum.GL_RGBA) ∧
      (LoadTexture env name textureSource s).2.textures[s.textures.length]?
        = some (Texture.mk (env.glGenName s.world.glGenCount)) := by
  rw [LoadTexture_miss_decoded env name textureSource s data h hd]
  refine ⟨rfl, ?_, ?_, ?_, ?_⟩
  · intro h1; rw [h1]; rfl
  · intro h3; rw [h3]; rfl
  · intro h4; rw [h4]; rfl
  · simp

/-- Witness of C12: "wall.png" decodes to three channels and is uploaded as `GL_RGB`. -/
theorem C12_upload_format_by_channel_count_witness :
    (State.initial._cachedTextures.find "wall" = none ∧
      Sample.env.stbi_load "wall.png" = some { width := 2, height := 2, nrComponents := 3 }) ∧
    Effect.glTexImage2D GLenum.GL_TEXTURE_2D 0 GLenum.GL_RGB 2 2 0 GLenum.GL_RGB
        GLenum.GL_UNSIGNED_BYTE
      ∈ (LoadTexture Sample.env "wall" "wall.png" State.initial).2.world.trace :=
  ⟨⟨rfl, rfl⟩, by
    rw [(C12_upload_format_by_channel_count Sample.env State.initial "wall" "wall.png"
      { width := 2, height := 2, nrComponents := 3 } rfl rfl).1]
    decide⟩

/-- C13. When the decoder fails on a cache miss, `LoadTexture` still returns:
the calls it makes are one name generation, the decode, exactly one error that
names the path, and the release of the null buffer; the Texture it returns
keeps the value of a default-constructed Texture (its handle is not set to the
generated name); it is stored under `name`, and every later `LoadTexture` or
`GetTexture` for `name` returns that same pointer and changes nothing, so the
decode is not tried again. -/
theorem C13_failed_decode_is_cached (env : Env) (s : State) (name textureSource : String)
    (h : s._cachedTextures.find name = none) (hd : env.stbi_load textureSource = none) :
    (LoadTexture env name textureSource s).1 = some s.textures.length ∧
      (LoadTexture env name textureSource s).2.world.trace = s.world.trace ++
        [ Effect.glGenTextures (env.glGenName s.world.glGenCount),
          Effect.stbi_load textureSource,
          Effect.LogError ("Texture failed to load at path: " ++ textureSource),
          Effect.stbi_image_free ] ∧
      (LoadTexture env name textureSource s).2.textures[s.textures.length]?
        = some (Texture.mk env.defaultTextureId) ∧
      (LoadTexture env name textureSource s).2._cachedTextures.find name
        = some (some s.textures.length) ∧
      (∀ other : String,
        LoadTexture env name other (LoadTexture env name textureSource s).2
          = LoadTexture env name textureSource s) ∧
      GetTexture name (LoadTexture env name textureSource s).2
        = LoadTexture env name textureSource s := by
  have hfind : (LoadTexture env name textureSource s).2._cachedTextures.find name
      = some (some s.textures.length) := by
    rw [LoadTexture_miss_failed env name textureSource s h hd]
    exact unordered_map.find_assign_self _ _ _
  have h1 : (LoadTexture env name textureSource s).1 = some s.textures.length := by
    rw [LoadTexture_miss_failed env name textureSource s h hd]
  refine ⟨h1, ?_, ?_, hfind, ?_, ?_⟩
  · rw [LoadTexture_miss_failed env name textureSource s h hd]
  · rw [LoadTexture_miss_failed env name textureSource s h hd]
    simp
  · intro other
    rw [LoadTexture_of_find_some env name other _ _ hfind, ← h1]
  · rw [GetTexture_eq, hfind, ← h1]
    rfl

/-- Witness of C13: "lost.png" is not known to the sample decoder. -/
theorem C13_failed_decode_is_cached_witness :
    (State.initial._cachedTextures.find "lost" = none ∧
      Sample.env.stbi_load "lost.png" = none) ∧
    (LoadTexture Sample.env "lost" "lost.png" State.initial).2.world.trace =
      [ Effect.glGenTextures 1, Effect.stbi_load "lost.png",
        Effect.LogError "Texture failed to load at path: lost.png", Effect.stbi_image_free ] ∧
    GetTexture "lost" (LoadTexture Sample.env "lost" "lost.png" State.initial).2
      = LoadTexture Sample.env "lost" "lost.png" State.initial :=
  ⟨⟨rfl, rfl⟩,
    (C13_failed_decode_is_cached Sample.env State.initial "lost" "lost.png" rfl rfl).2.1,
    (C13_failed_decode_is_cached Sample.env State.initial "lost" "lost.png" rfl rfl).2.2.2.2.2⟩

/-- C14, the code at the failing input. The two shader files cannot be opened
(the stream state gets `failbit`, not `badbit`): `LoadShader` logs no error,
compiles the empty sources, and caches the shader under its name. -/
theorem C14_unopened_shader_files_log_nothing :
    ((Sample.env.ifstream "shaders/missing.vert").state = { failbit := true, badbit := false } ∧
      (Sample.env.ifstream "shaders/missing.frag").state = { failbit := true, badbit := false }) ∧
    (LoadShader Sample.env "basic" "shaders/missing.vert" "shaders/missing.frag"
        State.initial).2.world.trace = [Effect.Compile "" "" "shaders"] ∧
    (LoadShader Sample.env "basic" "shaders/missing.vert" "shaders/missing.frag"
        State.initial).2.shaders = [Shader.mk "basic"] ∧
    (LoadShader Sample.env "basic" "shaders/missing.vert" "shaders/missing.frag"
        State.initial).2._cachedShaders.find "basic" = some (some 0) := by
  decide

/-- C15. No call of the resource cache removes or replaces an entry: a name in
the texture cache (or the shader cache) before a call is in it after the call
and maps to the same pointer, and the objects the pointers refer to keep their
place and contents; `LoadTexture` never changes the shader cache and
`LoadShader` never changes the texture cache. -/
theorem C15_entries_are_never_removed (env : Env) (c : Call) (s : State) (name : String)
    (e : shared_ptr) :
    (s._cachedTextures.find name = some e → (c.run env s)._cachedTextures.find name = some e) ∧
      (s._cachedShaders.find name = some e → (c.run env s)._cachedShaders.find name = some e) ∧
      (∀ (a : Nat) (t : Texture), s.textures[a]? = some t → (c.run env s).textures[a]? = some t) ∧
      (∀ (a : Nat) (t : Shader), s.shaders[a]? = some t → (c.run env s).shaders[a]? = some t) ∧
      (∀ n a : String, (LoadTexture env n a s).2._cachedShaders = s._cachedShaders) ∧
      (∀ n a b : String, (LoadShader env n a b s).2._cachedTextures = s._cachedTextures) :=
  ⟨Call.run_texture_entry env c s name e, Call.run_shader_entry env c s name e,
    (Call.run_objects env c s).1, (Call.run_objects env c s).2,
    fun n a => (Load_other_cache env s n a a).1, fun n a b => (Load_other_cache env s n a b).2⟩

/-- Witness of C15: with "wall" cached, loading another texture keeps the entry. -/
theorem C15_entries_are_never_removed_witness :
    Sample.wallLoaded._cachedTextures.find "wall" = some (some 0) ∧
    ((Call.LoadTexture "lost" "lost.png").run Sample.env Sample.wallLoaded)._cachedTextures.find
      "wall" = some (some 0) :=
  ⟨by decide,
    (C15_entries_are_never_removed Sample.env (Call.LoadTexture "lost" "lost.png")
      Sample.wallLoaded "wall" (some 0)).1 (by decide)⟩

end palmx.ResourceManager

/-! ## Vertex extraction -/

theorem aiMesh.hasVertexArrays_iff (m : aiMesh) :
    m.hasVertexArrays = true ↔
      m.mVertices.length = m.mNumVertices ∧
      (∃ normals, m.mNormals = some normals ∧ normals.length = m.mNumVertices) ∧
      (∀ channel, m.mTextureCoords 0 = some channel → channel.length = m.mNumVertices) := by
  unfold aiMesh.hasVertexArrays
  cases m.mNormals <;> cases m.mTextureCoords 0 <;> simp [and_assoc]

theorem readAt_some_of_ok {α : Type} (a : List α) (i : Nat) (v : α)
    (h : readAt a i = Except.ok v) : a[i]? = some v :=
  (readAt_eq_ok a i v).1 h

/-- The vertex at position `i` of a list related pointwise to `List.range n`. -/
theorem forall2_range_getElem {β : Type} {R : Nat → β → Prop} {n : Nat} {vs : List β}
    (h : List.Forall₂ R (List.range n) vs) (i : Nat) (hi : i < n) :
    ∃ v, vs[i]? = some v ∧ R i v := by
  have hlen : vs.length = n := by rw [← h.length_eq, List.length_range]
  have hi2 : i < vs.length := by omega
  have hi1 : i < (List.range n).length := by rw [List.length_range]; exact hi
  refine ⟨vs[i], List.getElem?_eq_getElem hi2, ?_⟩
  have := h.get hi1 hi2
  simpa using this

namespace palmx

/-- When the three arrays are there, the body of the vertex loop succeeds for
every index below `mNumVertices`. -/
theorem ProcessMesh.vertex_ok_of_arrays (m : aiMesh) (h : m.hasVertexArrays = true) (i : Nat)
    (hi : i < m.mNumVertices) : ∃ v, ProcessMesh.vertex m i = Except.ok v := by
  obtain ⟨hp, ⟨normals, hn, hnl⟩, ht⟩ := (aiMesh.hasVertexArrays_iff m).1 h
  unfold ProcessMesh.vertex
  rw [readAt_of_lt m.mVertices i (by omega), hn]
  simp only [readAtPtr]
  rw [readAt_of_lt normals i (by omega)]
  cases hc : m.mTextureCoords 0 with
  | none => exact ⟨_, rfl⟩
  | some channel =>
    simp only
    rw [readAt_of_lt channel i (by have := ht channel hc; omega)]
    exact ⟨_, rfl⟩

/-- What the body of the vertex loop returns is the input slot. -/
theorem ProcessMesh.vertex_isSlot (m : aiMesh) (i : Nat) (v : Vertex)
    (h : ProcessMesh.vertex m i = Except.ok v) : IsSlot m i v := by
  unfold ProcessMesh.vertex at h
  unfold IsSlot
  cases hp : readAt m.mVertices i with
  | error e => simp [hp] at h
  | ok p =>
    rw [hp] at h
    dsimp only at h
    cases hns : m.mNormals with
    | none => simp [hns, readAtPtr] at h
    | some normals =>
      rw [hns] at h
      simp only [readAtPtr] at h
      cases hn : readAt normals i with
      | error e => simp [hn] at h
      | ok n =>
        rw [hn] at h
        dsimp only at h
        cases hc : m.mTextureCoords 0 with
        | none =>
          rw [hc] at h
          simp only [Except.ok.injEq] at h
          subst h
          exact ⟨⟨p, readAt_some_of_ok _ _ _ hp, rfl⟩,
            ⟨normals, n, rfl, readAt_some_of_ok _ _ _ hn, rfl⟩, rfl⟩
        | some channel =>
          rw [hc] at h
          dsimp only at h
          cases ht : readAt channel i with
          | error e => simp [ht] at h
          | ok t =>
            rw [ht] at h
            simp only [Except.ok.injEq] at h
            subst h
            exact ⟨⟨p, readAt_some_of_ok _ _ _ hp, rfl⟩,
              ⟨normals, n, rfl, readAt_some_of_ok _ _ _ hn, rfl⟩,
              ⟨t, readAt_some_of_ok _ _ _ ht, rfl⟩⟩

/-- When the three arrays are there, the vertex loop returns `mNumVertices`
vertices and vertex `i` is input slot `i`. -/
theorem ProcessMesh.vertices_slots (m : aiMesh) (h : m.hasVertexArrays = true) :
    ∃ vs, ProcessMesh.vertices m (List.range m.mNumVertices) [] = Except.ok vs ∧
      vs.length = m.mNumVertices ∧
      ∀ i, i < m.mNumVertices → ∃ v, vs[i]? = some v ∧ IsSlot m i v := by
  obtain ⟨out, hout⟩ := ProcessMesh.vertices_ok m (List.range m.mNumVertices)
    (fun i hi => ProcessMesh.vertex_ok_of_arrays m h i (List.mem_range.1 hi)) []
  obtain ⟨vs, hvs, hall⟩ := ProcessMesh.vertices_pointwise m _ _ _ hout
  rw [List.nil_append] at hvs
  subst hvs
  refine ⟨out, hout, by rw [← hall.length_eq, List.length_range], ?_⟩
  intro i hi
  obtain ⟨v, hv, hr⟩ := forall2_range_getElem hall i hi
  exact ⟨v, hv, ProcessMesh.vertex_isSlot m i v hr⟩

/-- With the three arrays and a material index inside the table, `ProcessMesh`
returns a mesh. -/
theorem ProcessMesh_ok_of_arrays (env : Env) (m : aiMesh) (sc : aiScene) (dir : String) (w : World)
    (h : m.hasVertexArrays = true) (hmat : m.mMaterialIndex < sc.mMaterials.length) :
    ∃ r, ProcessMesh env m sc dir w = Except.ok r := by
  apply ProcessMesh_ok env m sc dir w
  rw [aiMesh.readable_iff]
  obtain ⟨h1, h2, h3⟩ := (aiMesh.hasVertexArrays_iff m).1 h
  exact ⟨h1, h2, h3, hmat⟩

end palmx

namespace PalmEngine.Model

/-- When the three arrays are there, the body of the vertex loop succeeds for
every index below `mNumVertices`. -/
theorem ProcessMesh.vertex_ok_of_arrays_model (m : aiMesh) (h : m.hasVertexArrays = true) (i : Nat)
    (hi : i < m.mNumVertices) : ∃ v, ProcessMesh.vertex m i = Except.ok v := by
  obtain ⟨hp, ⟨normals, hn, hnl⟩, ht⟩ := (aiMesh.hasVertexArrays_iff m).1 h
  unfold ProcessMesh.vertex
  rw [readAt_of_lt m.mVertices i (by omega), hn]
  simp only [readAtPtr]
  rw [readAt_of_lt normals i (by omega)]
  cases hc : m.mTextureCoords 0 with
  | none => exact ⟨_, rfl⟩
  | some channel =>
    simp only
    rw [readAt_of_lt channel i (by have := ht channel hc; omega)]
    exact ⟨_, rfl⟩

/-- What the body of the vertex loop returns is the input slot. -/
theorem ProcessMesh.vertex_isSlot_model (m : aiMesh) (i : Nat) (v : Vertex)
    (h : ProcessMesh.vertex m i = Except.ok v) : IsSlot m i v := by
  unfold ProcessMesh.vertex at h
  unfold IsSlot
  cases hp : readAt m.mVertices i with
  | error e => simp [hp] at h
  | ok p =>
    rw [hp] at h
    dsimp only at h
    cases hns : m.mNormals with
    | none => simp [hns, readAtPtr] at h
    | some normals =>
      rw [hns] at h
      simp only [readAtPtr] at h
      cases hn : readAt normals i with
      | error e => simp [hn] at h
      | ok n =>
        rw [hn] at h
        dsimp only at h
        cases hc : m.mTextureCoords 0 with
        | none =>
          rw [hc] at h
          simp only [Except.ok.injEq] at h
          subst h
          exact ⟨⟨p, readAt_some_of_ok _ _ _ hp, rfl⟩,
            ⟨normals, n, rfl, readAt_some_of_ok _ _ _ hn, rfl⟩, rfl⟩
        | some channel =>
          rw [hc] at h
          dsimp only at h
          cases ht : readAt channel i with
          | error e => simp [ht] at h
          | ok t =>
            rw [ht] at h
            simp only [Except.ok.injEq] at h
            subst h
            exact ⟨⟨p, readAt_some_of_ok _ _ _ hp, rfl⟩,
              ⟨normals, n, rfl, readAt_some_of_ok _ _ _ hn, rfl⟩,
              ⟨t, readAt_some_of_ok _ _ _ ht, rfl⟩⟩

/-- When the three arrays are there, the vertex loop returns `mNumVertices`
vertices and vertex `i` is input slot `i`. -/
theorem ProcessMesh.vertices_slots_model (m : aiMesh) (h : m.hasVertexArrays = true) :
    ∃ vs, ProcessMesh.vertices m (List.range m.mNumVertices) [] = Except.ok vs ∧
      vs.length = m.mNumVertices ∧
      ∀ i, i < m.mNumVertices → ∃ v, vs[i]? = some v ∧ IsSlot m i v := by
  obtain ⟨out, hout⟩ := ProcessMesh.vertices_ok_model m (List.range m.mNumVertices)
    (fun i hi => ProcessMesh.vertex_ok_of_arrays_model m h i (List.mem_range.1 hi)) []
  obtain ⟨vs, hvs, hall⟩ := ProcessMesh.vertices_pointwise_model m _ _ _ hout
  rw [List.nil_append] at hvs
  subst hvs
  refine ⟨out, hout, by rw [← hall.length_eq, List.length_range], ?_⟩
  intro i hi
  obtain ⟨v, hv, hr⟩ := forall2_range_getElem hall i hi
  exact ⟨v, hv, ProcessMesh.vertex_isSlot_model m i v hr⟩

/-- With the three arrays and a material index inside the table, `ProcessMesh`
returns a mesh. -/
theorem ProcessMesh_ok_of_arrays_model (env : Env) (self : Model) (m : aiMesh) (sc : aiScene) (w : World)
    (h : m.hasVertexArrays = true) (hmat : m.mMaterialIndex < sc.mMaterials.length) :
    ∃ r, ProcessMesh env self m sc w = Except.ok r := by
  apply ProcessMesh_ok_model env self m sc w
  rw [aiMesh.readable_iff]
  obtain ⟨h1, h2, h3⟩ := (aiMesh.hasVertexArrays_iff m).1 h
  exact ⟨h1, h2, h3, hmat⟩

end PalmEngine.Model

/-- C11. For every raw mesh with N positions, N normals and, when the first
texture-coordinate channel is present, N entries in it, the vertex loop of
`ProcessMesh` reads no array out of bounds and returns exactly N vertices in
input order: vertex i has the position and the normal of input slot i and, as
texture coordinates, the first two components of slot i of the first channel
(nothing else of the channels is read); and `ProcessMesh` returns a mesh with
exactly these vertices when the material index is inside the material table.
Both loaders. -/
theorem C11_vertices_are_the_input_slots (env : Env) (m : aiMesh) (sc : aiScene) (dir : String)
    (self : PalmEngine.Model) (w : World) (h : m.hasVertexArrays = true) :
    (∃ vs, palmx.ProcessMesh.vertices m (List.range m.mNumVertices) [] = Except.ok vs ∧
      vs.length = m.mNumVertices ∧
      (∀ i, i < m.mNumVertices → ∃ v, vs[i]? = some v ∧ palmx.IsSlot m i v) ∧
      (∀ r, palmx.ProcessMesh env m sc dir w = Except.ok r → r.1.vertices = vs) ∧
      (m.mMaterialIndex < sc.mMaterials.length →
        ∃ r, palmx.ProcessMesh env m sc dir w = Except.ok r ∧ r.1.vertices = vs)) ∧
    (∃ vs, PalmEngine.Model.ProcessMesh.vertices m (List.range m.mNumVertices) [] = Except.ok vs ∧
      vs.length = m.mNumVertices ∧
      (∀ i, i < m.mNumVertices → ∃ v, vs[i]? = some v ∧ PalmEngine.Model.IsSlot m i v) ∧
      (∀ r, PalmEngine.Model.ProcessMesh env self m sc w = Except.ok r → r.1.mVertices = vs) ∧
      (m.mMaterialIndex < sc.mMaterials.length →
        ∃ r, PalmEngine.Model.ProcessMesh env self m sc w = Except.ok r ∧ r.1.mVertices = vs)) := by
  constructor
  · obtain ⟨vs, hvs, hlen, hslot⟩ := palmx.ProcessMesh.vertices_slots m h
    have hparts : ∀ r, palmx.ProcessMesh env m sc dir w = Except.ok r → r.1.vertices = vs := by
      intro r hr
      have := (palmx.ProcessMesh_parts env m sc dir w r hr).1
      rw [hvs] at this
      exact (Except.ok.inj this).symm
    refine ⟨vs, hvs, hlen, hslot, hparts, ?_⟩
    intro hmat
    obtain ⟨r, hr⟩ := palmx.ProcessMesh_ok_of_arrays env m sc dir w h hmat
    exact ⟨r, hr, hparts r hr⟩
  · obtain ⟨vs, hvs, hlen, hslot⟩ := PalmEngine.Model.ProcessMesh.vertices_slots_model m h
    have hparts : ∀ r, PalmEngine.Model.ProcessMesh env self m sc w = Except.ok r →
        r.1.mVertices = vs := by
      intro r hr
      have := (PalmEngine.Model.ProcessMesh_parts_model env self m sc w r hr).1
      rw [hvs] at this
      exact (Except.ok.inj this).symm
    refine ⟨vs, hvs, hlen, hslot, hparts, ?_⟩
    intro hmat
    obtain ⟨r, hr⟩ := PalmEngine.Model.ProcessMesh_ok_of_arrays_model env self m sc w h hmat
    exact ⟨r, hr, hparts r hr⟩

/-- Witness of C11: a mesh with two vertices and two texture-coordinate
channels; the vertices carry the first two components of the first channel. -/
theorem C11_vertices_are_the_input_slots_witness :
    Sample.textured.hasVertexArrays = true ∧
    (∃ vs, palmx.ProcessMesh.vertices Sample.textured (List.range 2) [] = Except.ok vs ∧
      vs.length = 2 ∧
      (∀ i, i < 2 → ∃ v, vs[i]? = some v ∧ palmx.IsSlot Sample.textured i v) ∧
      (∀ r, palmx.ProcessMesh Sample.env Sample.textured Sample.abcScene "models" World.initial
        = Except.ok r → r.1.vertices = vs) ∧
      (Sample.textured.mMaterialIndex < Sample.abcScene.mMaterials.length →
        ∃ r, palmx.ProcessMesh Sample.env Sample.textured Sample.abcScene "models" World.initial
          = Except.ok r ∧ r.1.vertices = vs)) ∧
    palmx.ProcessMesh.vertices Sample.textured (List.range 2) [] =
      Except.ok
        [ { position := ⟨1, 2, 3⟩, normal := ⟨0, 0, 1⟩, tex_coords := ⟨1 / 2, 1 / 4⟩ },
          { position := ⟨4, 5, 6⟩, normal := ⟨0, 1, 0⟩, tex_coords := ⟨3 / 4, 1⟩ } ] :=
  ⟨by decide,
    (C11_vertices_are_the_input_slots Sample.env Sample.textured Sample.abcScene "models"
      PalmEngine.Model.construct World.initial (by decide)).1,
    rfl⟩

/-! ## Texture files of a model -/

/-- Position of the last `c` in `a ++ c :: b` when `b` has no `c`. -/
theorem find_last_of.go_append (c : Char) (b : List Char) (hb : c ∉ b) :
    ∀ (a : List Char) (i last : Nat), find_last_of.go c (a ++ c :: b) i last = i + a.length := by
  have hnone : ∀ (l : List Char), c ∉ l → ∀ (i last : Nat), find_last_of.go c l i last = last := by
    intro l
    induction l with
    | nil => intro _ i last; rfl
    | cons x xs ih =>
      intro hx i last
      have hxc : ¬ x = c := fun h => hx (h ▸ List.mem_cons_self _ _)
      simp only [find_last_of.go, hxc, if_false]
      exact ih (fun h => hx (List.mem_cons_of_mem _ h)) _ _
  intro a
  induction a with
  | nil =>
    intro i last
    simp only [List.nil_append, find_last_of.go, if_true, List.length_nil, Nat.add_zero]
    exact hnone b hb _ _
  | cons x xs ih =>
    intro i last
    show find_last_of.go c (xs ++ c :: b) (i + 1) (if x = c then i else last)
      = i + (xs.length + 1)
    rw [ih]
    omega

/-- The directory of `d/file` is `d` when `file` has no slash. -/
theorem directory_of_path (d file : String) (hfile : '/' ∉ file.data) :
    substr (d ++ "/" ++ file) 0 (find_last_of (d ++ "/" ++ file) '/') = d := by
  have hdata : (d ++ "/" ++ file).data = d.data ++ '/' :: file.data := by
    simp [String.data_append]
  unfold substr find_last_of
  rw [hdata, find_last_of.go_append '/' file.data hfile]
  simp

namespace PalmEngine

/-- What `TextureFromFile` returns and does: the name of one `glGenTextures`
call, and one decode, of the file `directory/path`. -/
theorem TextureFromFile_spec (env : Env) (path directory : String) (w : World) :
    (TextureFromFile env path directory w).1 = env.glGenName w.glGenCount ∧
      (TextureFromFile env path directory w).2.glGenCount = w.glGenCount + 1 ∧
      (TextureFromFile env path directory w).2.trace.filter isStbiLoad
        = w.trace.filter isStbiLoad ++ [Effect.stbi_load (directory ++ "/" ++ path)] := by
  unfold TextureFromFile
  dsimp only
  cases env.stbi_load (directory ++ "/" ++ path) <;>
    simp [World.gen, World.emit, World.emitAll, List.filter_append, List.filter_cons, isStbiLoad]

/-- The constructor of `Mesh` calls no decoder. -/
theorem Mesh.construct_no_decode (env : Env) (vertices : List Vertex) (indices : List Nat)
    (textures : List Texture) (w : World) :
    (Mesh.construct env vertices indices textures w).2.trace.filter isStbiLoad
      = w.trace.filter isStbiLoad := by
  unfold Mesh.construct
  simp [World.gen, World.emit, World.emitAll, List.filter_append, List.filter_cons, isStbiLoad,
    vertexAttribCalls]

namespace Model

/-- What the texture loop returns and does: one Texture per path, in order,
each with the name of its own `glGenTextures` call, the given type name and
its path; and one decode per path, of `directory/path`. -/
theorem LoadMaterialTextures.loop_spec (env : Env) (self : Model) (typeName : String)
    (paths : List String) :
    ∀ (textures : List Texture) (w : World),
      (LoadMaterialTextures.loop env self typeName paths textures w).1
          = textures ++ (paths.enumFrom w.glGenCount).map
              (fun kp => Texture.mk (env.glGenName kp.1) typeName kp.2) ∧
        (LoadMaterialTextures.loop env self typeName paths textures w).2.glGenCount
          = w.glGenCount + paths.length ∧
        (LoadMaterialTextures.loop env self typeName paths textures w).2.trace.filter isStbiLoad
          = w.trace.filter isStbiLoad
            ++ paths.map (fun p => Effect.stbi_load (self._directory ++ "/" ++ p)) := by
  induction paths with
  | nil => intro textures w; simp [LoadMaterialTextures.loop]
  | cons p rest ih =>
    intro textures w
    obtain ⟨h1, h2, h3⟩ := TextureFromFile_spec env p self._directory w
    simp only [LoadMaterialTextures.loop]
    obtain ⟨i1, i2, i3⟩ := ih (textures ++ [Texture.mk (TextureFromFile env p self._directory w).1
      typeName p]) (TextureFromFile env p self._directory w).2
    refine ⟨?_, ?_, ?_⟩
    · rw [i1, h1, h2]
      simp
    · rw [i2, h2]
      simp only [List.length_cons]
      omega
    · rw [i3, h3]
      simp

end Model

end PalmEngine

namespace PalmEngine.Model

/-- The textures of a mesh `ProcessMesh` returned, and the decoder calls it made. -/
theorem ProcessMesh_textures (env : Env) (self : Model) (m : aiMesh) (sc : aiScene) (w : World)
    (r : Mesh × World) (h : ProcessMesh env self m sc w = Except.ok r) :
    ∃ material, sc.mMaterials[m.mMaterialIndex]? = some material ∧
      r.1.mTextures =
        (LoadMaterialTextures env self material aiTextureType.aiTextureType_DIFFUSE
          "texture_diffuse" (w.emit (Effect.LogInfo material.name))).1 ++
        (LoadMaterialTextures env self material aiTextureType.aiTextureType_SPECULAR
          "texture_specular"
          (LoadMaterialTextures env self material aiTextureType.aiTextureType_DIFFUSE
            "texture_diffuse" (w.emit (Effect.LogInfo material.name))).2).1 ∧
      r.2.trace.filter isStbiLoad = w.trace.filter isStbiLoad ++
        (material.textures aiTextureType.aiTextureType_DIFFUSE ++
          material.textures aiTextureType.aiTextureType_SPECULAR).map
          (fun p => Effect.stbi_load (self._directory ++ "/" ++ p)) := by
  unfold ProcessMesh at h
  cases hv : ProcessMesh.vertices m (List.range m.mNumVertices) [] with
  | error e => simp [hv] at h
  | ok vs =>
    rw [hv] at h
    simp only [Nat.zero_le, if_true] at h
    cases hm : readAt sc.mMaterials m.mMaterialIndex with
    | error e => simp [hm] at h
    | ok material =>
      rw [hm] at h
      simp only [Except.ok.injEq] at h
      refine ⟨material, readAt_some_of_ok _ _ _ hm, ?_, ?_⟩
      · rw [← h]; rfl
      · rw [← h, Mesh.construct_no_decode]
        unfold LoadMaterialTextures
        rw [(LoadMaterialTextures.loop_spec env self "texture_specular" _ _ _).2.2,
          (LoadMaterialTextures.loop_spec env self "texture_diffuse" _ _ _).2.2]
        simp [World.emit, List.filter_append, isStbiLoad]

/-- The decoder calls of a mesh loop that returned: for each reference, in
order, the texture paths of its mesh, each behind the directory of the model. -/
theorem ProcessNode.meshes_decodes (env : Env) (sc : aiScene) (refs : List Nat) :
    ∀ (self : Model) (w : World) (r : Model × World),
      ProcessNode.meshes env sc refs self w = Except.ok r →
        r.2.trace.filter isStbiLoad = w.trace.filter isStbiLoad ++
          (refs.flatMap sc.texturePaths).map
            (fun p => Effect.stbi_load (self._directory ++ "/" ++ p)) := by
  induction refs with
  | nil =>
    intro self w r h
    simp only [ProcessNode.meshes, Except.ok.injEq] at h
    simp [← h]
  | cons i rest ih =>
    intro self w r h
    simp only [ProcessNode.meshes] at h
    cases hm : readAt sc.mMeshes i with
    | error e => simp [hm] at h
    | ok m =>
      rw [hm] at h
      dsimp only at h
      cases hp : ProcessMesh env self m sc w with
      | error e => simp [hp] at h
      | ok q =>
        rw [hp] at h
        dsimp only at h
        obtain ⟨material, hmat, -, hq⟩ := ProcessMesh_textures env self m sc w q hp
        have hpaths : sc.texturePaths i =
            material.textures aiTextureType.aiTextureType_DIFFUSE ++
              material.textures aiTextureType.aiTextureType_SPECULAR := by
          unfold aiScene.texturePaths
          rw [readAt_some_of_ok _ _ _ hm]
          dsimp only
          rw [hmat]
        rw [ih _ _ _ h, hq, List.flatMap_cons, hpaths]
        simp

/-- The decoder calls of `LoadModel` on a complete scene with a root node, and
the directory of the loaded model. -/
theorem LoadModel_decodes (env : Env) (self : Model) (path : String) (w : World) (sc : aiScene)
    (root : aiNode)
    (hs : (env.ReadFile path (aiProcess_Triangulate ||| aiProcess_FlipUVs)).scene = some sc)
    (hc : sc.incomplete = false) (hr : sc.mRootNode = some root)
    (model : Model) (w1 : World) (h : LoadModel env self path w = Except.ok (model, w1)) :
    model._directory = substr path 0 (find_last_of path '/') ∧
      w1.trace.filter isStbiLoad = w.trace.filter isStbiLoad ++
        (root.preorder.flatMap sc.texturePaths).map
          (fun p => Effect.stbi_load (substr path 0 (find_last_of path '/') ++ "/" ++ p)) := by
  rw [LoadModel_of_scene_model env self path w sc root hs hc hr,
    ProcessNode_eq_meshes_preorder_model] at h
  exact ⟨(ProcessNode.meshes_pointwise_model env sc _ _ _ _ h).1,
    ProcessNode.meshes_decodes env sc _ _ _ _ h⟩

end PalmEngine.Model

namespace palmx

/-- What `palmx::LoadTexture` returns and does: the name of one
`glGenTextures` call, and one decode of the file. -/
theorem LoadTexture_spec (env : Env) (file_path : String) (w : World) :
    (LoadTexture env file_path w).1.id = env.glGenName w.glGenCount ∧
      (LoadTexture env file_path w).2.glGenCount = w.glGenCount + 1 ∧
      (LoadTexture env file_path w).2.trace.filter isStbiLoad
        = w.trace.filter isStbiLoad ++ [Effect.stbi_load file_path] := by
  unfold LoadTexture
  cases env.stbi_load file_path <;>
    simp [World.gen, World.emit, World.emitAll, List.filter_append, List.filter_cons, isStbiLoad]

/-- The two textures of a mesh `ProcessMesh` returned, and the decoder calls it made. -/
theorem ProcessMesh_textures_palmx (env : Env) (m : aiMesh) (sc : aiScene) (dir : String)
    (w : World) (r : Mesh × World) (h : ProcessMesh env m sc dir w = Except.ok r) :
    ∃ material, sc.mMaterials[m.mMaterialIndex]? = some material ∧
      r.1.albedo_texture.id = env.glGenName w.glGenCount ∧
      r.1.normal_texture.id = env.glGenName (w.glGenCount + 1) ∧
      r.2.trace.filter isStbiLoad = w.trace.filter isStbiLoad ++
        [ Effect.stbi_load (dir ++ "/" ++ material.name ++ "_texture_albedo.jpg"),
          Effect.stbi_load (dir ++ "/" ++ material.name ++ "_texture_normal.jpg") ] := by
  unfold ProcessMesh at h
  cases hv : ProcessMesh.vertices m (List.range m.mNumVertices) [] with
  | error e => simp [hv] at h
  | ok vs =>
    rw [hv] at h
    dsimp only at h
    cases hm : readAt sc.mMaterials m.mMaterialIndex with
    | error e => simp [hm] at h
    | ok material =>
      rw [hm] at h
      simp only [Except.ok.injEq] at h
      obtain ⟨a1, a2, a3⟩ := LoadTexture_spec env
        (dir ++ "/" ++ material.name ++ "_texture_albedo.jpg") w
      obtain ⟨n1, n2, n3⟩ := LoadTexture_spec env
        (dir ++ "/" ++ material.name ++ "_texture_normal.jpg")
        (LoadTexture env (dir ++ "/" ++ material.name ++ "_texture_albedo.jpg") w).2
      refine ⟨material, readAt_some_of_ok _ _ _ hm, ?_, ?_, ?_⟩
      · rw [← h]; exact a1
      · rw [← h]
        show (LoadTexture env (dir ++ "/" ++ material.name ++ "_texture_normal.jpg")
          (LoadTexture env (dir ++ "/" ++ material.name ++ "_texture_albedo.jpg") w).2).1.id = _
        rw [n1, a2]
      · rw [← h]
        simp only [World.gen, World.emitAll, List.filter_append, n3, a3]
        simp [List.filter_cons, isStbiLoad, vertexAttribCalls]

end palmx

/-! ## Texture loading of a model: the claims -/

/-- C16, counterexample. The three meshes of the sample scene share one
material with the diffuse texture "crate.png". Loading the model with
`Model.cpp` decodes "models/crate.png" three times and the three meshes get
three different texture handles; loading it with `palmx::LoadModel` decodes the
albedo file and the normal file of the material three times each. -/
theorem C16_counterexample_shared_file_loaded_thrice :
    (match PalmEngine.Model.LoadModel Sample.env PalmEngine.Model.construct "models/abc.obj"
        World.initial with
      | Except.ok r =>
        (r.2.trace.filter isStbiLoad,
          r.1._meshes.map (fun (m : PalmEngine.Mesh) =>
            m.mTextures.map (fun (t : PalmEngine.Texture) => (t.mPath, t.mID))))
      | Except.error _ => ([], []))
      = ([ Effect.stbi_load "models/crate.png", Effect.stbi_load "models/crate.png",
           Effect.stbi_load "models/crate.png" ],
         [[("crate.png", 1)], [("crate.png", 5)], [("crate.png", 9)]]) ∧
    (match palmx.LoadModel Sample.env "models/abc.obj" World.initial with
      | Except.ok r =>
        (r.2.trace.filter isStbiLoad,
          r.1.meshes.map (fun (m : palmx.Mesh) => (m.albedo_texture.id, m.normal_texture.id)))
      | Except.error _ => ([], []))
      = ([ Effect.stbi_load "models/crate_texture_albedo.jpg",
           Effect.stbi_load "models/crate_texture_normal.jpg",
           Effect.stbi_load "models/crate_texture_albedo.jpg",
           Effect.stbi_load "models/crate_texture_normal.jpg",
           Effect.stbi_load "models/crate_texture_albedo.jpg",
           Effect.stbi_load "models/crate_texture_normal.jpg" ],
         [(1, 2), (6, 7), (11, 12)]) := by
  decide

/-- C16, amended. Model loading does not go through the resource cache: every
texture reference is loaded by its own call of the texture loader, which
generates a new texture name and calls the decoder. In `Model.cpp` the
textures of one type get the names of successive `glGen` calls and the file
`directory/path` is decoded once per reference, so over a whole model the
decoder is called once for every texture reference of every mesh reference,
in pre-order; in `palmx::ProcessMesh` the albedo and the normal file of the
material are decoded at every mesh and get two new names. -/
theorem C16_every_reference_is_loaded_anew (env : Env) (self : PalmEngine.Model)
    (path : String) (sc : aiScene) (root : aiNode) (w : World)
    (hs : (env.ReadFile path (aiProcess_Triangulate ||| aiProcess_FlipUVs)).scene = some sc)
    (hc : sc.incomplete = false) (hr : sc.mRootNode = some root) :
    (∀ model w1, PalmEngine.Model.LoadModel env self path w = Except.ok (model, w1) →
      w1.trace.filter isStbiLoad = w.trace.filter isStbiLoad ++
        (root.preorder.flatMap sc.texturePaths).map
          (fun p => Effect.stbi_load (substr path 0 (find_last_of path '/') ++ "/" ++ p))) ∧
    (∀ (mat : aiMaterial) (type : aiTextureType) (typeName : String) (w0 : World),
      (PalmEngine.Model.LoadMaterialTextures env self mat type typeName w0).1.map
          (fun (t : PalmEngine.Texture) => t.mID)
        = (List.range' w0.glGenCount (mat.textures type).length).map env.glGenName ∧
      (PalmEngine.Model.LoadMaterialTextures env self mat type typeName w0).2.trace.filter
          isStbiLoad
        = w0.trace.filter isStbiLoad ++
          (mat.textures type).map (fun p => Effect.stbi_load (self._directory ++ "/" ++ p))) ∧
    (∀ (m : aiMesh) (dir : String) (w0 : World) (r : palmx.Mesh × World),
      palmx.ProcessMesh env m sc dir w0 = Except.ok r →
        ∃ material, sc.mMaterials[m.mMaterialIndex]? = some material ∧
          r.1.albedo_texture.id = env.glGenName w0.glGenCount ∧
          r.1.normal_texture.id = env.glGenName (w0.glGenCount + 1) ∧
          r.2.trace.filter isStbiLoad = w0.trace.filter isStbiLoad ++
            [ Effect.stbi_load (dir ++ "/" ++ material.name ++ "_texture_albedo.jpg"),
              Effect.stbi_load (dir ++ "/" ++ material.name ++ "_texture_normal.jpg") ]) := by
  refine ⟨?_, ?_, ?_⟩
  · intro model w1 h
    exact (PalmEngine.Model.LoadModel_decodes env self path w sc root hs hc hr model w1 h).2
  · intro mat type typeName w0
    obtain ⟨h1, -, h3⟩ := PalmEngine.Model.LoadMaterialTextures.loop_spec env self typeName
      (mat.textures type) [] w0
    refine ⟨?_, h3⟩
    unfold PalmEngine.Model.LoadMaterialTextures
    rw [h1, List.nil_append, List.map_map, ← List.enumFrom_map_fst, List.map_map]
    rfl
  · intro m dir w0 r h
    exact palmx.ProcessMesh_textures_palmx env m sc dir w0 r h

/-- Witness of the amended C16: the sample scene. -/
theorem C16_every_reference_is_loaded_anew_witness :
    ((Sample.env.ReadFile "models/abc.obj" (aiProcess_Triangulate ||| aiProcess_FlipUVs)).scene
        = some Sample.abcScene ∧
      Sample.abcScene.incomplete = false ∧
      Sample.abcScene.mRootNode = some (aiNode.mk [2, 0] [aiNode.mk [1] []])) ∧
    (∀ model w1, PalmEngine.Model.LoadModel Sample.env PalmEngine.Model.construct
        "models/abc.obj" World.initial = Except.ok (model, w1) →
      w1.trace.filter isStbiLoad = World.initial.trace.filter isStbiLoad ++
        ((aiNode.mk [2, 0] [aiNode.mk [1] []]).preorder.flatMap
            Sample.abcScene.texturePaths).map
          (fun p => Effect.stbi_load
            (substr "models/abc.obj" 0 (find_last_of "models/abc.obj" '/') ++ "/" ++ p))) ∧
    ((aiNode.mk [2, 0] [aiNode.mk [1] []]).preorder.flatMap Sample.abcScene.texturePaths)
      = ["crate.png", "crate.png", "crate.png"] :=
  ⟨⟨rfl, rfl, rfl⟩,
    (C16_every_reference_is_loaded_anew Sample.env PalmEngine.Model.construct "models/abc.obj"
      Sample.abcScene (aiNode.mk [2, 0] [aiNode.mk [1] []]) World.initial rfl rfl rfl).1,
    by decide⟩

/-- C17. For every material and texture type, `LoadMaterialTextures` returns one
Texture per texture path of that type in the material, in the material's
order, each tagged with the given type name and carrying its path string; a
material with no texture of that type gives the empty list and nothing is
done to the world, so no error is logged. The texture list of a mesh that
`ProcessMesh` returns is the diffuse list followed by the specular list of its
material. -/
theorem C17_material_texture_lists (env : Env) (self : PalmEngine.Model) (mat : aiMaterial)
    (type : aiTextureType) (typeName : String) (w : World) :
    (PalmEngine.Model.LoadMaterialTextures env self mat type typeName w).1.map
        (fun (t : PalmEngine.Texture) => (t.mType, t.mPath))
      = (mat.textures type).map (fun p => (typeName, p)) ∧
    (PalmEngine.Model.LoadMaterialTextures env self mat type typeName w).1.length
      = (mat.textures type).length ∧
    (mat.textures type = [] →
      PalmEngine.Model.LoadMaterialTextures env self mat type typeName w = ([], w)) ∧
    (∀ (m : aiMesh) (sc : aiScene) (r : PalmEngine.Mesh × World),
      PalmEngine.Model.ProcessMesh env self m sc w = Except.ok r →
        ∃ material, sc.mMaterials[m.mMaterialIndex]? = some material ∧
          r.1.mTextures =
            (PalmEngine.Model.LoadMaterialTextures env self material
              aiTextureType.aiTextureType_DIFFUSE "texture_diffuse"
              (w.emit (Effect.LogInfo material.name))).1 ++
            (PalmEngine.Model.LoadMaterialTextures env self material
              aiTextureType.aiTextureType_SPECULAR "texture_specular"
              (PalmEngine.Model.LoadMaterialTextures env self material
                aiTextureType.aiTextureType_DIFFUSE "texture_diffuse"
                (w.emit (Effect.LogInfo material.name))).2).1) := by
  have h1 := (PalmEngine.Model.LoadMaterialTextures.loop_spec env self typeName
    (mat.textures type) [] w).1
  have hmap : (PalmEngine.Model.LoadMaterialTextures env self mat type typeName w).1.map
      (fun (t : PalmEngine.Texture) => (t.mType, t.mPath))
      = (mat.textures type).map (fun p => (typeName, p)) := by
    unfold PalmEngine.Model.LoadMaterialTextures
    rw [h1, List.nil_append, List.map_map]
    have : (mat.textures type).map (fun p => (typeName, p))
        = ((mat.textures type).enumFrom w.glGenCount).map (fun kp => (typeName, kp.2)) := by
      conv_lhs => rw [← List.enumFrom_map_snd w.glGenCount (mat.textures type)]
      rw [List.map_map]
      rfl
    rw [this]
    rfl
  refine ⟨hmap, ?_, ?_, ?_⟩
  · have := congrArg List.length hmap
    simpa using this
  · intro hempty
    unfold PalmEngine.Model.LoadMaterialTextures
    rw [hempty]
    rfl
  · intro m sc r h
    obtain ⟨material, hmat, ht, -⟩ := PalmEngine.Model.ProcessMesh_textures env self m sc w r h
    exact ⟨material, hmat, ht⟩

/-- Witness of C17: the material of the sample scene has one diffuse texture
and no specular texture. -/
theorem C17_material_texture_lists_witness :
    Sample.crate.textures aiTextureType.aiTextureType_SPECULAR = [] ∧
    PalmEngine.Model.LoadMaterialTextures Sample.env PalmEngine.Model.construct Sample.crate
      aiTextureType.aiTextureType_SPECULAR "texture_specular" World.initial
      = ([], World.initial) ∧
    (PalmEngine.Model.LoadMaterialTextures Sample.env PalmEngine.Model.construct Sample.crate
      aiTextureType.aiTextureType_DIFFUSE "texture_diffuse" World.initial).1
      = [{ mID := 1, mType := "texture_diffuse", mPath := "crate.png" }] :=
  ⟨rfl,
    (C17_material_texture_lists Sample.env PalmEngine.Model.construct Sample.crate
      aiTextureType.aiTextureType_SPECULAR "texture_specular" World.initial).2.2.1 rfl,
    by decide⟩

/-- C18. For a model file path `d/file` (where `file` has no slash) the
directory of the model is `d`, the part of the path before its last slash, in
both loaders; `TextureFromFile` decodes the file `directory/path`, and nothing
else; and every file decoded while `Model.cpp` loads the model is `d`, then a
slash, then a diffuse or specular texture path stored in a material of the
scene. -/
theorem C18_texture_file_location (env : Env) (self : PalmEngine.Model) (d file : String)
    (sc : aiScene) (root : aiNode) (w : World) (hfile : '/' ∉ file.data)
    (hs : (env.ReadFile (d ++ "/" ++ file)
      (aiProcess_Triangulate ||| aiProcess_FlipUVs)).scene = some sc)
    (hc : sc.incomplete = false) (hr : sc.mRootNode = some root) :
    substr (d ++ "/" ++ file) 0 (find_last_of (d ++ "/" ++ file) '/') = d ∧
    (∀ (p dir : String) (w0 : World),
      (PalmEngine.TextureFromFile env p dir w0).2.trace.filter isStbiLoad
        = w0.trace.filter isStbiLoad ++ [Effect.stbi_load (dir ++ "/" ++ p)]) ∧
    (∀ model w1, PalmEngine.Model.LoadModel env self (d ++ "/" ++ file) w = Except.ok (model, w1) →
      model._directory = d ∧
      ∃ t, w1.trace = w.trace ++ t ∧
        ∀ f, Effect.stbi_load f ∈ t →
          ∃ material ∈ sc.mMaterials, ∃ p,
            (p ∈ material.textures aiTextureType.aiTextureType_DIFFUSE ∨
              p ∈ material.textures aiTextureType.aiTextureType_SPECULAR) ∧
            f = d ++ "/" ++ p) ∧
    (palmx.LoadModel env (d ++ "/" ++ file) w =
      match palmx.ProcessNode env sc d root w with
      | Except.error e => Except.error e
      | Except.ok r => Except.ok ({ meshes := r.1, transform := env.defaultTransform }, r.2)) := by
  have hdir := directory_of_path d file hfile
  refine ⟨hdir, fun p dir w0 => (PalmEngine.TextureFromFile_spec env p dir w0).2.2, ?_, ?_⟩
  · intro model w1 h
    obtain ⟨h1, h2⟩ := PalmEngine.Model.LoadModel_decodes env self _ w sc root hs hc hr model w1 h
    rw [hdir] at h1 h2
    refine ⟨h1, ?_⟩
    have hwalk := h
    rw [PalmEngine.Model.LoadModel_of_scene_model env self _ w sc root hs hc hr,
      PalmEngine.Model.ProcessNode_eq_meshes_preorder_model] at hwalk
    obtain ⟨t, ht⟩ : ∃ t, w1.trace = w.trace ++ t := by
      rcases PalmEngine.Model.ProcessNode.meshes_trace_model env sc _ _ _ _ hwalk with h0 | ⟨msg, t, h0⟩
      · exact ⟨[], by simpa using h0⟩
      · exact ⟨_, h0⟩
    refine ⟨t, ht, ?_⟩
    intro f hf
    have hmem : Effect.stbi_load f ∈ t.filter isStbiLoad :=
      List.mem_filter.2 ⟨hf, rfl⟩
    rw [ht, List.filter_append] at h2
    rw [List.append_cancel_left h2, List.mem_map] at hmem
    obtain ⟨p, hp, hpf⟩ := hmem
    rw [List.mem_flatMap] at hp
    obtain ⟨i, -, hpi⟩ := hp
    unfold aiScene.texturePaths at hpi
    cases hm : sc.mMeshes[i]? with
    | none => simp [hm] at hpi
    | some m =>
      rw [hm] at hpi
      dsimp only at hpi
      cases hmat : sc.mMaterials[m.mMaterialIndex]? with
      | none => simp [hmat] at hpi
      | some material =>
        rw [hmat] at hpi
        dsimp only at hpi
        refine ⟨material, List.getElem?_mem hmat, p, List.mem_append.1 hpi, ?_⟩
        exact (Effect.stbi_load.inj hpf).symm
  · rw [palmx.LoadModel_of_scene env _ w sc root hs hc hr, hdir]

/-- Witness of C18: the sample model "models/abc.obj" has the directory
"models" and its texture "crate.png" is decoded from "models/crate.png". -/
theorem C18_texture_file_location_witness :
    ('/' ∉ "abc.obj".data ∧
      (Sample.env.ReadFile ("models" ++ "/" ++ "abc.obj")
        (aiProcess_Triangulate ||| aiProcess_FlipUVs)).scene = some Sample.abcScene ∧
      Sample.abcScene.incomplete = false ∧
      Sample.abcScene.mRootNode = some (aiNode.mk [2, 0] [aiNode.mk [1] []])) ∧
    substr ("models" ++ "/" ++ "abc.obj") 0 (find_last_of ("models" ++ "/" ++ "abc.obj") '/')
      = "models" ∧
    (PalmEngine.TextureFromFile Sample.env "crate.png" "models" World.initial).2.trace.filter
      isStbiLoad = [Effect.stbi_load "models/crate.png"] :=
  ⟨⟨by decide, rfl, rfl, rfl⟩,
    (C18_texture_file_location Sample.env PalmEngine.Model.construct "models" "abc.obj"
      Sample.abcScene (aiNode.mk [2, 0] [aiNode.mk [1] []]) World.initial (by decide) rfl rfl
      rfl).1,
    by decide⟩

/-! ## Mesh setup -/

/-- The attribute calls of a layout configure the seven attributes of the
specification, when position is the first member of `Vertex`. -/
theorem vertexAttribCalls_attributes (l : VertexLayout) (hpos : l.offsetofPosition = 0) :
    (vertexAttribCalls l).filterMap configuredAttribute = l.attributes ∧
      (vertexAttribCalls l).filterMap enabledLocation = [0, 1, 2, 3, 4, 5, 6] := by
  simp [vertexAttribCalls, VertexLayout.attributes, configuredAttribute, enabledLocation,
    hpos, List.filterMap_cons]

/-- The attribute calls upload nothing. -/
theorem vertexAttribCalls_no_upload (l : VertexLayout) :
    (vertexAttribCalls l).filter isBufferData = [] := by
  simp [vertexAttribCalls, isBufferData, List.filter_cons]

namespace palmx

/-- The texture loader of `palmx_graphics.cpp` configures no attribute and
uploads no buffer. -/
theorem LoadTexture_no_setup (env : Env) (file_path : String) (w : World) :
    (LoadTexture env file_path w).2.trace.filterMap configuredAttribute
        = w.trace.filterMap configuredAttribute ∧
      (LoadTexture env file_path w).2.trace.filterMap enabledLocation
        = w.trace.filterMap enabledLocation ∧
      (LoadTexture env file_path w).2.trace.filter isBufferData
        = w.trace.filter isBufferData := by
  unfold LoadTexture
  cases env.stbi_load file_path <;>
    simp [World.gen, World.emit, World.emitAll, List.filterMap_append, List.filter_append,
      List.filterMap_cons, List.filter_cons, configuredAttribute, enabledLocation, isBufferData]

/-- The attributes a returned `ProcessMesh` configured. -/
theorem ProcessMesh_attributes (env : Env) (m : aiMesh) (sc : aiScene) (dir : String) (w : World)
    (r : Mesh × World) (hpos : env.layout.offsetofPosition = 0)
    (h : ProcessMesh env m sc dir w = Except.ok r) :
    r.2.trace.filterMap configuredAttribute
        = w.trace.filterMap configuredAttribute ++ env.layout.attributes ∧
      r.2.trace.filterMap enabledLocation
        = w.trace.filterMap enabledLocation ++ [0, 1, 2, 3, 4, 5, 6] := by
  obtain ⟨ha, he⟩ := vertexAttribCalls_attributes env.layout hpos
  unfold ProcessMesh at h
  cases hv : ProcessMesh.vertices m (List.range m.mNumVertices) [] with
  | error e => simp [hv] at h
  | ok vs =>
    rw [hv] at h
    dsimp only at h
    cases hm : readAt sc.mMaterials m.mMaterialIndex with
    | error e => simp [hm] at h
    | ok material =>
      rw [hm] at h
      simp only [Except.ok.injEq] at h
      obtain ⟨a1, a2, a3⟩ := LoadTexture_no_setup env
        (dir ++ "/" ++ material.name ++ "_texture_albedo.jpg") w
      obtain ⟨n1, n2, n3⟩ := LoadTexture_no_setup env
        (dir ++ "/" ++ material.name ++ "_texture_normal.jpg")
        (LoadTexture env (dir ++ "/" ++ material.name ++ "_texture_albedo.jpg") w).2
      rw [← h]
      refine ⟨?_, ?_⟩
      · simp only [World.gen, World.emitAll, List.filterMap_append, n1, a1, ha]
        simp [List.filterMap_cons, configuredAttribute]
      · simp only [World.gen, World.emitAll, List.filterMap_append, n2, a2, he]
        simp [List.filterMap_cons, enabledLocation]

/-- The buffers a returned `ProcessMesh` uploaded. -/
theorem ProcessMesh_uploads (env : Env) (m : aiMesh) (sc : aiScene) (dir : String) (w : World)
    (r : Mesh × World) (h : ProcessMesh env m sc dir w = Except.ok r) :
    r.2.trace.filter isBufferData = w.trace.filter isBufferData ++
      [ Effect.glBufferData GLenum.GL_ARRAY_BUFFER
          (r.1.vertices.length * env.layout.sizeofVertex) GLenum.GL_STATIC_DRAW,
        Effect.glBufferData GLenum.GL_ELEMENT_ARRAY_BUFFER
          (r.1.indices.length * env.layout.sizeofUnsignedInt) GLenum.GL_STATIC_DRAW ] := by
  have hb := vertexAttribCalls_no_upload env.layout
  unfold ProcessMesh at h
  cases hv : ProcessMesh.vertices m (List.range m.mNumVertices) [] with
  | error e => simp [hv] at h
  | ok vs =>
    rw [hv] at h
    dsimp only at h
    cases hm : readAt sc.mMaterials m.mMaterialIndex with
    | error e => simp [hm] at h
    | ok material =>
      rw [hm] at h
      simp only [Except.ok.injEq] at h
      obtain ⟨a1, a2, a3⟩ := LoadTexture_no_setup env
        (dir ++ "/" ++ material.name ++ "_texture_albedo.jpg") w
      obtain ⟨n1, n2, n3⟩ := LoadTexture_no_setup env
        (dir ++ "/" ++ material.name ++ "_texture_normal.jpg")
        (LoadTexture env (dir ++ "/" ++ material.name ++ "_texture_albedo.jpg") w).2
      rw [← h]
      simp only [World.gen, World.emitAll, List.filter_append, n3, a3, hb]
      simp [List.filter_cons, isBufferData]

end palmx

namespace PalmEngine

/-- The attributes `Mesh::SetupMesh` configures. -/
theorem MeshCpp.Mesh.SetupMesh_attributes (env : Env) (self : MeshCpp.Mesh) (w : World)
    (hpos : env.layout.offsetofPosition = 0) :
    (MeshCpp.Mesh.SetupMesh env self w).2.trace.filterMap configuredAttribute
        = w.trace.filterMap configuredAttribute ++ env.layout.attributes ∧
      (MeshCpp.Mesh.SetupMesh env self w).2.trace.filterMap enabledLocation
        = w.trace.filterMap enabledLocation ++ [0, 1, 2, 3, 4, 5, 6] := by
  obtain ⟨ha, he⟩ := vertexAttribCalls_attributes env.layout hpos
  unfold MeshCpp.Mesh.SetupMesh
  refine ⟨?_, ?_⟩
  · simp only [World.gen, World.emitAll, List.filterMap_append, ha]
    simp [List.filterMap_cons, configuredAttribute]
  · simp only [World.gen, World.emitAll, List.filterMap_append, he]
    simp [List.filterMap_cons, enabledLocation]

/-- The buffers `Mesh::SetupMesh` uploads. -/
theorem MeshCpp.Mesh.SetupMesh_uploads (env : Env) (self : MeshCpp.Mesh) (w : World) :
    (MeshCpp.Mesh.SetupMesh env self w).2.trace.filter isBufferData
      = w.trace.filter isBufferData ++
        [ Effect.glBufferData GLenum.GL_ARRAY_BUFFER
            (self.mVertices.length * env.layout.sizeofVertex) GLenum.GL_STATIC_DRAW,
          Effect.glBufferData GLenum.GL_ELEMENT_ARRAY_BUFFER
            (self.mIndices.length * env.layout.sizeofUnsignedInt) GLenum.GL_STATIC_DRAW ] := by
  have hb := vertexAttribCalls_no_upload env.layout
  unfold MeshCpp.Mesh.SetupMesh
  simp only [World.gen, World.emitAll, List.filter_append, hb]
  simp [List.filter_cons, isBufferData]

/-- The attributes the `Mesh` constructor called by `Model.cpp` configures. -/
theorem Mesh.construct_attributes (env : Env) (vertices : List Vertex) (indices : List Nat)
    (textures : List Texture) (w : World) (hpos : env.layout.offsetofPosition = 0) :
    (Mesh.construct env vertices indices textures w).2.trace.filterMap configuredAttribute
        = w.trace.filterMap configuredAttribute ++ env.layout.attributes ∧
      (Mesh.construct env vertices indices textures w).2.trace.filterMap enabledLocation
        = w.trace.filterMap enabledLocation ++ [0, 1, 2, 3, 4, 5, 6] := by
  obtain ⟨ha, he⟩ := vertexAttribCalls_attributes env.layout hpos
  unfold Mesh.construct
  refine ⟨?_, ?_⟩
  · simp only [World.gen, World.emitAll, List.filterMap_append, ha]
    simp [List.filterMap_cons, configuredAttribute]
  · simp only [World.gen, World.emitAll, List.filterMap_append, he]
    simp [List.filterMap_cons, enabledLocation]

/-- The buffers the `Mesh` constructor called by `Model.cpp` uploads. -/
theorem Mesh.construct_uploads (env : Env) (vertices : List Vertex) (indices : List Nat)
    (textures : List Texture) (w : World) :
    (Mesh.construct env vertices indices textures w).2.trace.filter isBufferData
      = w.trace.filter isBufferData ++
        [ Effect.glBufferData GLenum.GL_ARRAY_BUFFER
            (vertices.length * env.layout.sizeofVertex) GLenum.GL_STATIC_DRAW,
          Effect.glBufferData GLenum.GL_ELEMENT_ARRAY_BUFFER
            (indices.length * env.layout.sizeofUnsignedInt) GLenum.GL_STATIC_DRAW ] := by
  have hb := vertexAttribCalls_no_upload env.layout
  unfold Mesh.construct
  simp only [World.gen, World.emitAll, List.filter_append, hb]
  simp [List.filter_cons, isBufferData]

/-- Drawing a mesh uploads no buffer. -/
theorem MeshCpp.Mesh.Draw_no_upload (env : Env) (self : MeshCpp.Mesh) (shader : MeshCpp.Shader)
    (w : World) :
    (MeshCpp.Mesh.Draw env self shader w).trace.filter isBufferData
      = w.trace.filter isBufferData := by
  unfold MeshCpp.Mesh.Draw
  simp [World.emitAll, List.filter_append, List.filter_cons, isBufferData]

end PalmEngine

/-! ## Mesh setup: the claims -/

/-- C19. Mesh setup configures exactly seven vertex attributes, in this order:
locations 0 to 6 for position, normal, texcoord, tangent, bitangent, bone ids
and bone weights, with 3, 3, 2, 3, 3, 4 and 4 components, each with stride
`sizeof(Vertex)` and the offset of its field of `Vertex` (for position the
code passes 0, the offset of the first member); bone ids are declared as
integers, the other six as floats; and it enables exactly the locations 0 to
6. This holds for `Mesh::SetupMesh`, for the constructor `Model.cpp` calls
and for `palmx::ProcessMesh`. -/
theorem C19_seven_vertex_attributes (env : Env) (hpos : env.layout.offsetofPosition = 0)
    (w : World) :
    (∀ self : PalmEngine.MeshCpp.Mesh,
      (PalmEngine.MeshCpp.Mesh.SetupMesh env self w).2.trace.filterMap configuredAttribute
          = w.trace.filterMap configuredAttribute ++ env.layout.attributes ∧
        (PalmEngine.MeshCpp.Mesh.SetupMesh env self w).2.trace.filterMap enabledLocation
          = w.trace.filterMap enabledLocation ++ [0, 1, 2, 3, 4, 5, 6]) ∧
    (∀ (vertices : List PalmEngine.Vertex) (indices : List Nat)
        (textures : List PalmEngine.Texture),
      (PalmEngine.Mesh.construct env vertices indices textures w).2.trace.filterMap
          configuredAttribute
          = w.trace.filterMap configuredAttribute ++ env.layout.attributes ∧
        (PalmEngine.Mesh.construct env vertices indices textures w).2.trace.filterMap
          enabledLocation
          = w.trace.filterMap enabledLocation ++ [0, 1, 2, 3, 4, 5, 6]) ∧
    (∀ (m : aiMesh) (sc : aiScene) (dir : String) (r : palmx.Mesh × World),
      palmx.ProcessMesh env m sc dir w = Except.ok r →
        r.2.trace.filterMap configuredAttribute
          = w.trace.filterMap configuredAttribute ++ env.layout.attributes ∧
        r.2.trace.filterMap enabledLocation
          = w.trace.filterMap enabledLocation ++ [0, 1, 2, 3, 4, 5, 6]) ∧
    env.layout.attributes.length = 7 ∧
    env.layout.attributes.map (fun a => (a.location, a.size))
      = [(0, 3), (1, 3), (2, 2), (3, 3), (4, 3), (5, 4), (6, 4)] ∧
    env.layout.attributes.map (fun a => a.integer)
      = [false, false, false, false, false, true, false] ∧
    (∀ a ∈ env.layout.attributes, a.stride = env.layout.sizeofVertex) :=
  ⟨fun self => PalmEngine.MeshCpp.Mesh.SetupMesh_attributes env self w hpos,
    fun vertices indices textures =>
      PalmEngine.Mesh.construct_attributes env vertices indices textures w hpos,
    fun m sc dir r h => palmx.ProcessMesh_attributes env m sc dir w r hpos h,
    rfl, rfl, rfl, by simp [VertexLayout.attributes]⟩

/-- Witness of C19: the sample layout has position at offset 0. -/
theorem C19_seven_vertex_attributes_witness :
    Sample.env.layout.offsetofPosition = 0 ∧
    (PalmEngine.MeshCpp.Mesh.SetupMesh Sample.env
        { mVertices := [], mIndices := [], mMaterial := ⟨⟨1, "", ""⟩, ⟨2, "", ""⟩⟩,
          mVAO := 0, _VBO := 0, _EBO := 0 } World.initial).2.trace.filterMap
        configuredAttribute
      = World.initial.trace.filterMap configuredAttribute ++ Sample.env.layout.attributes ∧
    Sample.env.layout.attributes.map (fun a => a.offset) = [0, 12, 24, 32, 44, 56, 72] :=
  ⟨rfl,
    ((C19_seven_vertex_attributes Sample.env rfl World.initial).1
      { mVertices := [], mIndices := [], mMaterial := ⟨⟨1, "", ""⟩, ⟨2, "", ""⟩⟩,
        mVAO := 0, _VBO := 0, _EBO := 0 }).1,
    rfl⟩

/-- C20. Constructing a mesh from N vertices and K indices uploads exactly two
buffers: the vertex buffer with N * `sizeof(Vertex)` bytes and the index
buffer with K * `sizeof(unsigned int)` bytes, both with `GL_STATIC_DRAW`; the
mesh keeps the N vertices and K indices; and `Draw` uploads no buffer. This
holds for the constructor of `Mesh.cpp`, for the constructor `Model.cpp`
calls and for `palmx::ProcessMesh`. -/
theorem C20_buffers_uploaded_once (env : Env) (w : World) :
    (∀ (vertices : List PalmEngine.Vertex) (indices : List Nat)
        (material : PalmEngine.MeshCpp.Material),
      (PalmEngine.MeshCpp.Mesh.construct env vertices indices material w).2.trace.filter
          isBufferData
        = w.trace.filter isBufferData ++
          [ Effect.glBufferData GLenum.GL_ARRAY_BUFFER
              (vertices.length * env.layout.sizeofVertex) GLenum.GL_STATIC_DRAW,
            Effect.glBufferData GLenum.GL_ELEMENT_ARRAY_BUFFER
              (indices.length * env.layout.sizeofUnsignedInt) GLenum.GL_STATIC_DRAW ] ∧
        (PalmEngine.MeshCpp.Mesh.construct env vertices indices material w).1.mVertices
          = vertices ∧
        (PalmEngine.MeshCpp.Mesh.construct env vertices indices material w).1.mIndices
          = indices) ∧
    (∀ (vertices : List PalmEngine.Vertex) (indices : List Nat)
        (textures : List PalmEngine.Texture),
      (PalmEngine.Mesh.construct env vertices indices textures w).2.trace.filter isBufferData
        = w.trace.filter isBufferData ++
          [ Effect.glBufferData GLenum.GL_ARRAY_BUFFER
              (vertices.length * env.layout.sizeofVertex) GLenum.GL_STATIC_DRAW,
            Effect.glBufferData GLenum.GL_ELEMENT_ARRAY_BUFFER
              (indices.length * env.layout.sizeofUnsignedInt) GLenum.GL_STATIC_DRAW ]) ∧
    (∀ (m : aiMesh) (sc : aiScene) (dir : String) (r : palmx.Mesh × World),
      palmx.ProcessMesh env m sc dir w = Except.ok r →
        r.2.trace.filter isBufferData = w.trace.filter isBufferData ++
          [ Effect.glBufferData GLenum.GL_ARRAY_BUFFER
              (r.1.vertices.length * env.layout.sizeofVertex) GLenum.GL_STATIC_DRAW,
            Effect.glBufferData GLenum.GL_ELEMENT_ARRAY_BUFFER
              (r.1.indices.length * env.layout.sizeofUnsignedInt) GLenum.GL_STATIC_DRAW ]) ∧
    (∀ (self : PalmEngine.MeshCpp.Mesh) (shader : PalmEngine.MeshCpp.Shader),
      (PalmEngine.MeshCpp.Mesh.Draw env self shader w).trace.filter isBufferData
        = w.trace.filter isBufferData) :=
  ⟨fun _ _ _ => ⟨PalmEngine.MeshCpp.Mesh.SetupMesh_uploads env _ w, rfl, rfl⟩,
    fun vertices indices textures =>
      PalmEngine.Mesh.construct_uploads env vertices indices textures w,
    fun m sc dir r h => palmx.ProcessMesh_uploads env m sc dir w r h,
    fun self shader => PalmEngine.MeshCpp.Mesh.Draw_no_upload env self shader w⟩

/-- Witness of C20: mesh A of the sample scene, three vertices of 88 bytes and
three indices of 4 bytes. -/
theorem C20_buffers_uploaded_once_witness :
    (∃ r, palmx.ProcessMesh Sample.env Sample.meshA Sample.abcScene "models" World.initial
      = Except.ok r) ∧
    (∀ r, palmx.ProcessMesh Sample.env Sample.meshA Sample.abcScene "models" World.initial
        = Except.ok r →
      r.2.trace.filter isBufferData = World.initial.trace.filter isBufferData ++
        [ Effect.glBufferData GLenum.GL_ARRAY_BUFFER
            (r.1.vertices.length * Sample.env.layout.sizeofVertex) GLenum.GL_STATIC_DRAW,
          Effect.glBufferData GLenum.GL_ELEMENT_ARRAY_BUFFER
            (r.1.indices.length * Sample.env.layout.sizeofUnsignedInt)
            GLenum.GL_STATIC_DRAW ]) ∧
    (match palmx.ProcessMesh Sample.env Sample.meshA Sample.abcScene "models" World.initial with
      | Except.ok r => r.2.trace.filter isBufferData
      | Except.error _ => [])
      = [ Effect.glBufferData GLenum.GL_ARRAY_BUFFER 264 GLenum.GL_STATIC_DRAW,
          Effect.glBufferData GLenum.GL_ELEMENT_ARRAY_BUFFER 12 GLenum.GL_STATIC_DRAW ] :=
  ⟨⟨_, rfl⟩,
    fun r h => (C20_buffers_uploaded_once Sample.env World.initial).2.2.1 Sample.meshA
      Sample.abcScene "models" r h,
    by decide⟩

/-! ## Shader files that fail to read -/

namespace palmx.ResourceManager

/-- On a miss, when neither stream has `badbit` set, `LoadShader` logs nothing,
whatever `failbit` says: it compiles what was read. -/
theorem LoadShader_miss_without_badbit (env : Env) (name v f : String) (s : State)
    (h : s._cachedShaders.find name = none) (hv : (env.ifstream v).state.badbit = false)
    (hf : (env.ifstream f).state.badbit = false) :
    (LoadShader env name v f s).2.world.trace = s.world.trace ++
      [Effect.Compile (env.ifstream v).content (env.ifstream f).content
        (substr v 0 (find_last_of v '/'))] := by
  rw [LoadShader_miss env name v f s h]
  simp [iostate.throws, ifstream_badbit, hv, hf]

/-- On a miss, when a stream has `badbit` set, `LoadShader` logs one error and
compiles the empty sources. -/
theorem LoadShader_miss_with_badbit (env : Env) (name v f : String) (s : State)
    (h : s._cachedShaders.find name = none)
    (hb : (env.ifstream v).state.badbit = true ∨ (env.ifstream f).state.badbit = true) :
    (LoadShader env name v f s).2.world.trace = s.world.trace ++
      [Effect.LogError "Shader file not successfully read",
        Effect.Compile "" "" (substr v 0 (find_last_of v '/'))] := by
  rw [LoadShader_miss env name v f s h]
  rcases hb with hb | hb <;> simp [iostate.throws, ifstream_badbit, hb]

end palmx.ResourceManager

/-! ## Formats, failed loads and flat paths -/

namespace PalmEngine

/-- The image upload of `TextureFromFile` when the decode succeeds. -/
theorem TextureFromFile_upload (env : Env) (path directory : String) (w : World) (data : Image)
    (hd : env.stbi_load (directory ++ "/" ++ path) = some data) :
    (TextureFromFile env path directory w).2.trace.filterMap uploadedFormat
      = w.trace.filterMap uploadedFormat ++
        [(TextureFromFile.format data.nrComponents, TextureFromFile.format data.nrComponents)] := by
  unfold TextureFromFile
  dsimp only
  rw [hd]
  simp [World.gen, World.emit, World.emitAll, List.filterMap_append, List.filterMap_cons,
    uploadedFormat]

end PalmEngine

namespace palmx

/-- The image upload of `palmx::LoadTexture` when the decode succeeds. -/
theorem LoadTexture_upload (env : Env) (file_path : String) (w : World) (data : Image)
    (hd : env.stbi_load file_path = some data) :
    (LoadTexture env file_path w).2.trace.filterMap uploadedFormat
      = w.trace.filterMap uploadedFormat ++
        [(LoadTexture.format data.nrComponents, LoadTexture.format data.nrComponents)] := by
  unfold LoadTexture
  dsimp only
  rw [hd]
  simp [World.gen, World.emit, World.emitAll, List.filterMap_append, List.filterMap_cons,
    uploadedFormat]

namespace ResourceManager

/-- The image upload of `ResourceManager::LoadTexture` on a miss whose decode succeeds. -/
theorem LoadTexture_upload_miss (env : Env) (name textureSource : String) (s : State)
    (data : Image) (h : s._cachedTextures.find name = none)
    (hd : env.stbi_load textureSource = some data) :
    (LoadTexture env name textureSource s).2.world.trace.filterMap uploadedFormat
      = s.world.trace.filterMap uploadedFormat ++
        [(LoadTexture.format data.nrComponents, LoadTexture.format data.nrComponents)] := by
  rw [LoadTexture_miss_decoded env name textureSource s data h hd]
  simp [List.filterMap_append, List.filterMap_cons, uploadedFormat]

end ResourceManager

end palmx

/-- C26. The three texture loaders choose the same format for every decoded
channel count `n`: the `format` chains of `ResourceManager::LoadTexture`,
`TextureFromFile` and `palmx::LoadTexture` agree, a count other than 1, 3 and 4
gives `GL_RGB` in each, and the format of the chain is the internal format and
the pixel format of the one image upload each loader makes for an image
decoded with `n` channels. -/
theorem C26_loaders_choose_the_same_format (n : Int) :
    palmx.ResourceManager.LoadTexture.format n = PalmEngine.TextureFromFile.format n ∧
    PalmEngine.TextureFromFile.format n = palmx.LoadTexture.format n ∧
    (n ≠ 1 → n ≠ 3 → n ≠ 4 →
      palmx.ResourceManager.LoadTexture.format n = GLenum.GL_RGB ∧
      PalmEngine.TextureFromFile.format n = GLenum.GL_RGB ∧
      palmx.LoadTexture.format n = GLenum.GL_RGB) ∧
    (∀ (env : Env) (data : Image), data.nrComponents = n →
      (∀ (name textureSource : String) (s : palmx.ResourceManager.State),
        s._cachedTextures.find name = none → env.stbi_load textureSource = some data →
        (palmx.ResourceManager.LoadTexture env name textureSource s).2.world.trace.filterMap
            uploadedFormat
          = s.world.trace.filterMap uploadedFormat ++
            [(palmx.ResourceManager.LoadTexture.format n,
              palmx.ResourceManager.LoadTexture.format n)]) ∧
      (∀ (path directory : String) (w : World),
        env.stbi_load (directory ++ "/" ++ path) = some data →
        (PalmEngine.TextureFromFile env path directory w).2.trace.filterMap uploadedFormat
          = w.trace.filterMap uploadedFormat ++
            [(PalmEngine.TextureFromFile.format n, PalmEngine.TextureFromFile.format n)]) ∧
      (∀ (file_path : String) (w : World), env.stbi_load file_path = some data →
        (palmx.LoadTexture env file_path w).2.trace.filterMap uploadedFormat
          = w.trace.filterMap uploadedFormat ++
            [(palmx.LoadTexture.format n, palmx.LoadTexture.format n)])) := by
  refine ⟨?_, ?_, ?_, ?_⟩
  · unfold palmx.ResourceManager.LoadTexture.format PalmEngine.TextureFromFile.format
    rfl
  · unfold PalmEngine.TextureFromFile.format palmx.LoadTexture.format
    rfl
  · intro h1 h3 h4
    simp [palmx.ResourceManager.LoadTexture.format, PalmEngine.TextureFromFile.format,
      palmx.LoadTexture.format, h1, h3, h4]
  · intro env data hn
    subst hn
    exact ⟨fun name src s h hd => palmx.ResourceManager.LoadTexture_upload_miss env name src s data h hd,
      fun path directory w hd => PalmEngine.TextureFromFile_upload env path directory w data hd,
      fun file_path w hd => palmx.LoadTexture_upload env file_path w data hd⟩

/-- Witness of C26: two channels give `GL_RGB` in the three loaders, and the
two-channel image "fonts/grey_alpha.png" is uploaded as `GL_RGB` by
`palmx::LoadTexture`. -/
theorem C26_loaders_choose_the_same_format_witness :
    ((2 : Int) ≠ 1 ∧ (2 : Int) ≠ 3 ∧ (2 : Int) ≠ 4) ∧
    (palmx.ResourceManager.LoadTexture.format 2 = GLenum.GL_RGB ∧
      PalmEngine.TextureFromFile.format 2 = GLenum.GL_RGB ∧
      palmx.LoadTexture.format 2 = GLenum.GL_RGB) ∧
    (palmx.LoadTexture Sample.env "fonts/grey_alpha.png" World.initial).2.trace.filterMap
      uploadedFormat = [(GLenum.GL_RGB, GLenum.GL_RGB)] ∧
    (PalmEngine.TextureFromFile Sample.env "grey_alpha.png" "fonts"
      World.initial).2.trace.filterMap uploadedFormat = [(GLenum.GL_RGB, GLenum.GL_RGB)] ∧
    (palmx.ResourceManager.LoadTexture Sample.env "grey" "fonts/grey_alpha.png"
      palmx.ResourceManager.State.initial).2.world.trace.filterMap uploadedFormat
        = [(GLenum.GL_RGB, GLenum.GL_RGB)] :=
  ⟨⟨by decide, by decide, by decide⟩,
    (C26_loaders_choose_the_same_format 2).2.2.1 (by decide) (by decide) (by decide),
    by decide, by decide, by decide⟩

/-- C27. A failed `Model::LoadModel` leaves the model as it was: when the import
fails (null scene, incomplete flag, or no root node) the call returns, the
model after it is the model before it, so its mesh list and its directory are
unchanged, and the only thing done is one error logged. -/
theorem C27_failed_load_keeps_the_model (env : Env) (self : PalmEngine.Model) (path : String)
    (w : World)
    (h : (env.ReadFile path (aiProcess_Triangulate ||| aiProcess_FlipUVs)).Fails) :
    ∃ model w1, PalmEngine.Model.LoadModel env self path w = Except.ok (model, w1) ∧
      model._meshes = self._meshes ∧ model._directory = self._directory ∧ model = self ∧
      w1.trace = w.trace ++ [Effect.LogError ("ASSIMP::" ++
        (env.ReadFile path (aiProcess_Triangulate ||| aiProcess_FlipUVs)).errorString)] ∧
      w1.glGenCount = w.glGenCount :=
  ⟨self, _, PalmEngine.Model.LoadModel_of_fails_model env self path w h, rfl, rfl, rfl, rfl, rfl⟩

/-- Witness of C27: loading the unknown file "missing/ghost.obj" into a model
whose directory is "old" leaves the directory "old" and the mesh list empty. -/
theorem C27_failed_load_keeps_the_model_witness :
    (Sample.env.ReadFile "missing/ghost.obj"
      (aiProcess_Triangulate ||| aiProcess_FlipUVs)).Fails ∧
    ∃ model w1, PalmEngine.Model.LoadModel Sample.env { _meshes := [], _directory := "old" }
        "missing/ghost.obj" World.initial = Except.ok (model, w1) ∧
      model._meshes = [] ∧ model._directory = "old" ∧
      model = { _meshes := [], _directory := "old" } ∧
      w1.trace = World.initial.trace ++ [Effect.LogError ("ASSIMP::" ++
        (Sample.env.ReadFile "missing/ghost.obj"
          (aiProcess_Triangulate ||| aiProcess_FlipUVs)).errorString)] ∧
      w1.glGenCount = World.initial.glGenCount :=
  ⟨Or.inl rfl,
    C27_failed_load_keeps_the_model Sample.env { _meshes := [], _directory := "old" }
      "missing/ghost.obj" World.initial (Or.inl rfl)⟩

/-- The scan returns `last` when the character does not occur. -/
theorem find_last_of.go_of_not_mem (c : Char) (l : List Char) (h : c ∉ l) :
    ∀ (i last : Nat), find_last_of.go c l i last = last := by
  induction l with
  | nil => intro i last; rfl
  | cons x xs ih =>
    intro i last
    have hxc : ¬ x = c := fun hx => h (hx ▸ List.mem_cons_self _ _)
    simp only [find_last_of.go, hxc, if_false]
    exact ih (fun hm => h (List.mem_cons_of_mem _ hm)) _ _

/-- The directory of a path without a slash is the path itself. -/
theorem directory_of_flat_path (path : String) (hno : '/' ∉ path.data)
    (hlen : path.length < 2 ^ 64) :
    find_last_of path '/' = npos ∧ substr path 0 (find_last_of path '/') = path := by
  have h1 : find_last_of path '/' = npos := find_last_of.go_of_not_mem '/' path.data hno 0 npos
  refine ⟨h1, ?_⟩
  rw [h1]
  unfold substr
  have hle : path.data.length ≤ npos := by
    have : path.data.length = path.length := rfl
    unfold npos
    omega
  simp [List.take_of_length_le hle]

/-- C25. When the model file path contains no slash, `find_last_of` gives
`npos` and the directory `substr(0, npos)` is the whole path: `Model::LoadModel`
stores the path as the directory of the model and every material texture `p` is
decoded from the file `path/p`; `palmx::LoadModel` walks the scene with the
path as directory; `TextureFromFile` with that directory decodes `path/t`. So
the texture "t.png" of the model "model.obj" is looked up at "model.obj/t.png". -/
theorem C25_directory_of_a_path_without_slash (env : Env) (self : PalmEngine.Model)
    (path : String) (sc : aiScene) (root : aiNode) (w : World)
    (hno : '/' ∉ path.data) (hlen : path.length < 2 ^ 64)
    (hs : (env.ReadFile path (aiProcess_Triangulate ||| aiProcess_FlipUVs)).scene = some sc)
    (hc : sc.incomplete = false) (hr : sc.mRootNode = some root) :
    find_last_of path '/' = npos ∧
    substr path 0 (find_last_of path '/') = path ∧
    (∀ model w1, PalmEngine.Model.LoadModel env self path w = Except.ok (model, w1) →
      model._directory = path ∧
      w1.trace.filter isStbiLoad = w.trace.filter isStbiLoad ++
        (root.preorder.flatMap sc.texturePaths).map
          (fun p => Effect.stbi_load (path ++ "/" ++ p))) ∧
    (palmx.LoadModel env path w =
      match palmx.ProcessNode env sc path root w with
      | Except.error e => Except.error e
      | Except.ok r => Except.ok ({ meshes := r.1, transform := env.defaultTransform }, r.2)) ∧
    (∀ (t : String) (w0 : World),
      (PalmEngine.TextureFromFile env t path w0).2.trace.filter isStbiLoad
        = w0.trace.filter isStbiLoad ++ [Effect.stbi_load (path ++ "/" ++ t)]) := by
  obtain ⟨h1, h2⟩ := directory_of_flat_path path hno hlen
  refine ⟨h1, h2, ?_, ?_, fun t w0 => (PalmEngine.TextureFromFile_spec env t path w0).2.2⟩
  · intro model w1 h
    have hd := PalmEngine.Model.LoadModel_decodes env self path w sc root hs hc hr model w1 h
    rw [h2] at hd
    exact hd
  · rw [palmx.LoadModel_of_scene env path w sc root hs hc hr, h2]

/-- Witness of C25: the model "model.obj", whose material has the texture
"t.png", gets the directory "model.obj" and decodes "model.obj/t.png". -/
theorem C25_directory_of_a_path_without_slash_witness :
    ('/' ∉ "model.obj".data ∧ "model.obj".length < 2 ^ 64 ∧
      (Sample.env.ReadFile "model.obj" (aiProcess_Triangulate ||| aiProcess_FlipUVs)).scene
        = some Sample.flatScene ∧
      Sample.flatScene.incomplete = false ∧
      Sample.flatScene.mRootNode = some (aiNode.mk [0] [])) ∧
    substr "model.obj" 0 (find_last_of "model.obj" '/') = "model.obj" ∧
    (match PalmEngine.Model.LoadModel Sample.env PalmEngine.Model.construct "model.obj"
        World.initial with
      | Except.ok r => (r.1._directory, r.2.trace.filter isStbiLoad)
      | Except.error _ => ("", [])) = ("model.obj", [Effect.stbi_load "model.obj/t.png"]) ∧
    (PalmEngine.TextureFromFile Sample.env "t.png" "model.obj" World.initial).2.trace.filter
      isStbiLoad = [Effect.stbi_load "model.obj/t.png"] :=
  ⟨⟨by decide, by decide, rfl, rfl, rfl⟩,
    (C25_directory_of_a_path_without_slash Sample.env PalmEngine.Model.construct "model.obj"
      Sample.flatScene (aiNode.mk [0] []) World.initial (by decide) (by decide) rfl rfl rfl).2.1,
    by decide, by decide⟩

/-! ## When the walks return -/

/-- A checked read returns exactly inside the array. -/
theorem readAt_returns_iff {α : Type} (a : List α) (i : Nat) :
    (∃ v, readAt a i = Except.ok v) ↔ i < a.length := by
  constructor
  · rintro ⟨v, hv⟩
    have h := (readAt_eq_ok a i v).1 hv
    exact (List.getElem?_eq_some.1 h).1
  · intro h
    exact ⟨_, readAt_of_lt a i h⟩

namespace palmx

/-- The body of the vertex loop returns exactly for a slot that is there. -/
theorem ProcessMesh.vertex_returns_iff (m : aiMesh) (i : Nat) :
    (∃ v, ProcessMesh.vertex m i = Except.ok v) ↔ m.hasSlot i = true := by
  unfold ProcessMesh.vertex aiMesh.hasSlot readAtPtr
  by_cases hp : i < m.mVertices.length
  · rw [readAt_of_lt _ _ hp]
    dsimp only
    cases hn : m.mNormals with
    | none => simp
    | some normals =>
      dsimp only
      by_cases hnl : i < normals.length
      · rw [readAt_of_lt _ _ hnl]
        dsimp only
        cases hc : m.mTextureCoords 0 with
        | none => simp [hp, hnl]
        | some channel =>
          dsimp only
          by_cases hcl : i < channel.length
          · rw [readAt_of_lt _ _ hcl]
            simp [hp, hnl, hcl]
          · have : readAt channel i = Except.error Fault.outOfBounds := by
              unfold readAt
              rw [List.getElem?_eq_none (by omega)]
            rw [this]
            simp [hcl]
      · have : readAt normals i = Except.error Fault.outOfBounds := by
          unfold readAt
          rw [List.getElem?_eq_none (by omega)]
        rw [this]
        simp [hnl]
  · have : readAt m.mVertices i = Except.error Fault.outOfBounds := by
      unfold readAt
      rw [List.getElem?_eq_none (by omega)]
    rw [this]
    simp [hp]

/-- The vertex loop returns exactly when its body returns for every index. -/
theorem ProcessMesh.vertices_returns_iff (m : aiMesh) (is : List Nat) :
    ∀ (acc : List Vertex),
      (∃ vs, ProcessMesh.vertices m is acc = Except.ok vs) ↔ ∀ i ∈ is, m.hasSlot i = true := by
  induction is with
  | nil => intro acc; simp [ProcessMesh.vertices]
  | cons i rest ih =>
    intro acc
    simp only [ProcessMesh.vertices, List.mem_cons, forall_eq_or_imp]
    cases hv : ProcessMesh.vertex m i with
    | error e =>
      have hno : ¬ m.hasSlot i = true := by
        intro hs
        obtain ⟨v, hv2⟩ := (ProcessMesh.vertex_returns_iff m i).2 hs
        rw [hv] at hv2
        cases hv2
      simp [hno]
    | ok v =>
      have hyes : m.hasSlot i = true := (ProcessMesh.vertex_returns_iff m i).1 ⟨v, hv⟩
      simp only [hyes, true_and]
      exact ih _

/-- The function `ProcessMesh` returns exactly on a mesh whose slots and
material are there. -/
theorem ProcessMesh_returns_iff (env : Env) (m : aiMesh) (sc : aiScene) (dir : String)
    (w : World) :
    (∃ r, ProcessMesh env m sc dir w = Except.ok r) ↔ m.processable sc = true := by
  unfold ProcessMesh aiMesh.processable
  rw [Bool.and_eq_true, List.all_eq_true, decide_eq_true_iff,
    ← readAt_returns_iff sc.mMaterials m.mMaterialIndex]
  have hvs := ProcessMesh.vertices_returns_iff m (List.range m.mNumVertices) []
  cases hv : ProcessMesh.vertices m (List.range m.mNumVertices) [] with
  | error e =>
    rw [hv] at hvs
    have : ¬ ∀ i ∈ List.range m.mNumVertices, m.hasSlot i = true := by
      intro hall
      obtain ⟨vs, h⟩ := hvs.2 hall
      cases h
    simp only [List.mem_range] at this
    simp [this]
  | ok vs =>
    rw [hv] at hvs
    have hall := hvs.1 ⟨vs, rfl⟩
    simp only [List.mem_range] at hall
    dsimp only
    cases hmat : readAt sc.mMaterials m.mMaterialIndex with
    | error e => simp
    | ok material =>
      simp only [Except.ok.injEq, exists_eq', true_iff, List.mem_range]
      exact ⟨hall, trivial⟩

/-- The mesh loop returns exactly when every reference is a slot of the mesh
table holding a mesh that `ProcessMesh` can read. -/
theorem ProcessNode.meshes_returns_iff (env : Env) (sc : aiScene) (dir : String)
    (refs : List Nat) :
    ∀ (acc : List Mesh) (w : World),
      (∃ r, ProcessNode.meshes env sc dir refs acc w = Except.ok r) ↔
        ∀ i ∈ refs, ∃ m, sc.mMeshes[i]? = some m ∧ m.processable sc = true := by
  induction refs with
  | nil => intro acc w; simp [ProcessNode.meshes]
  | cons i rest ih =>
    intro acc w
    simp only [ProcessNode.meshes, List.mem_cons, forall_eq_or_imp]
    cases hm : readAt sc.mMeshes i with
    | error e =>
      have hnone : sc.mMeshes[i]? = none := by
        unfold readAt at hm
        cases h : sc.mMeshes[i]? with
        | none => rfl
        | some x => rw [h] at hm; cases hm
      simp [hnone]
    | ok m =>
      have hsome := (readAt_eq_ok _ _ _).1 hm
      dsimp only
      cases hp : ProcessMesh env m sc dir w with
      | error e =>
        have hno : ¬ m.processable sc = true := by
          intro hs
          obtain ⟨r, hr⟩ := (ProcessMesh_returns_iff env m sc dir w).2 hs
          rw [hp] at hr
          cases hr
        simp [hsome, hno]
      | ok q =>
        have hyes := (ProcessMesh_returns_iff env m sc dir w).1 ⟨q, hp⟩
        dsimp only
        rw [ih]
        simp [hsome, hyes]

end palmx

namespace PalmEngine.Model

/-- The body of the vertex loop returns exactly for a slot that is there. -/
theorem ProcessMesh.vertex_returns_iff_model (m : aiMesh) (i : Nat) :
    (∃ v, ProcessMesh.vertex m i = Except.ok v) ↔ m.hasSlot i = true := by
  unfold ProcessMesh.vertex aiMesh.hasSlot readAtPtr
  by_cases hp : i < m.mVertices.length
  · rw [readAt_of_lt _ _ hp]
    dsimp only
    cases hn : m.mNormals with
    | none => simp
    | some normals =>
      dsimp only
      by_cases hnl : i < normals.length
      · rw [readAt_of_lt _ _ hnl]
        dsimp only
        cases hc : m.mTextureCoords 0 with
        | none => simp [hp, hnl]
        | some channel =>
          dsimp only
          by_cases hcl : i < channel.length
          · rw [readAt_of_lt _ _ hcl]
            simp [hp, hnl, hcl]
          · have : readAt channel i = Except.error Fault.outOfBounds := by
              unfold readAt
              rw [List.getElem?_eq_none (by omega)]
            rw [this]
            simp [hcl]
      · have : readAt normals i = Except.error Fault.outOfBounds := by
          unfold readAt
          rw [List.getElem?_eq_none (by omega)]
        rw [this]
        simp [hnl]
  · have : readAt m.mVertices i = Except.error Fault.outOfBounds := by
      unfold readAt
      rw [List.getElem?_eq_none (by omega)]
    rw [this]
    simp [hp]

/-- The vertex loop returns exactly when its body returns for every index. -/
theorem ProcessMesh.vertices_returns_iff_model (m : aiMesh) (is : List Nat) :
    ∀ (acc : List Vertex),
      (∃ vs, ProcessMesh.vertices m is acc = Except.ok vs) ↔ ∀ i ∈ is, m.hasSlot i = true := by
  induction is with
  | nil => intro acc; simp [ProcessMesh.vertices]
  | cons i rest ih =>
    intro acc
    simp only [ProcessMesh.vertices, List.mem_cons, forall_eq_or_imp]
    cases hv : ProcessMesh.vertex m i with
    | error e =>
      have hno : ¬ m.hasSlot i = true := by
        intro hs
        obtain ⟨v, hv2⟩ := (ProcessMesh.vertex_returns_iff_model m i).2 hs
        rw [hv] at hv2
        cases hv2
      simp [hno]
    | ok v =>
      have hyes : m.hasSlot i = true := (ProcessMesh.vertex_returns_iff_model m i).1 ⟨v, hv⟩
      simp only [hyes, true_and]
      exact ih _

/-- The function `ProcessMesh` returns exactly on a mesh whose slots and
material are there. -/
theorem ProcessMesh_returns_iff_model (env : Env) (self : Model) (m : aiMesh) (sc : aiScene)
    (w : World) :
    (∃ r, ProcessMesh env self m sc w = Except.ok r) ↔ m.processable sc = true := by
  unfold ProcessMesh aiMesh.processable
  rw [Bool.and_eq_true, List.all_eq_true, decide_eq_true_iff,
    ← readAt_returns_iff sc.mMaterials m.mMaterialIndex]
  have hvs := ProcessMesh.vertices_returns_iff_model m (List.range m.mNumVertices) []
  cases hv : ProcessMesh.vertices m (List.range m.mNumVertices) [] with
  | error e =>
    rw [hv] at hvs
    have : ¬ ∀ i ∈ List.range m.mNumVertices, m.hasSlot i = true := by
      intro hall
      obtain ⟨vs, h⟩ := hvs.2 hall
      cases h
    simp only [List.mem_range] at this
    simp [this]
  | ok vs =>
    rw [hv] at hvs
    have hall := hvs.1 ⟨vs, rfl⟩
    simp only [List.mem_range] at hall
    dsimp only
    cases hmat : readAt sc.mMaterials m.mMaterialIndex with
    | error e => simp
    | ok material =>
      simp only [Nat.zero_le, if_true, Except.ok.injEq, exists_eq', true_iff, List.mem_range]
      exact ⟨hall, trivial⟩

/-- The mesh loop returns exactly when every reference is a slot of the mesh
table holding a mesh that `ProcessMesh` can read. -/
theorem ProcessNode.meshes_returns_iff_model (env : Env) (sc : aiScene) (refs : List Nat) :
    ∀ (self : Model) (w : World),
      (∃ r, ProcessNode.meshes env sc refs self w = Except.ok r) ↔
        ∀ i ∈ refs, ∃ m, sc.mMeshes[i]? = some m ∧ m.processable sc = true := by
  induction refs with
  | nil => intro self w; simp [ProcessNode.meshes]
  | cons i rest ih =>
    intro self w
    simp only [ProcessNode.meshes, List.mem_cons, forall_eq_or_imp]
    cases hm : readAt sc.mMeshes i with
    | error e =>
      have hnone : sc.mMeshes[i]? = none := by
        unfold readAt at hm
        cases h : sc.mMeshes[i]? with
        | none => rfl
        | some x => rw [h] at hm; cases hm
      simp [hnone]
    | ok m =>
      have hsome := (readAt_eq_ok _ _ _).1 hm
      dsimp only
      cases hp : ProcessMesh env self m sc w with
      | error e =>
        have hno : ¬ m.processable sc = true := by
          intro hs
          obtain ⟨r, hr⟩ := (ProcessMesh_returns_iff_model env self m sc w).2 hs
          rw [hp] at hr
          cases hr
        simp [hsome, hno]
      | ok q =>
        have hyes := (ProcessMesh_returns_iff_model env self m sc w).1 ⟨q, hp⟩
        dsimp only
        rw [ih]
        simp [hsome, hyes]

end PalmEngine.Model

/-! ## The two walks side by side -/

mutual

/-- The pre-order listing has one entry per mesh reference of the tree. -/
theorem aiNode.preorder_length : ∀ (node : aiNode), node.preorder.length = node.referenceCount
  | aiNode.mk ms cs => by
    rw [aiNode.preorder, aiNode.referenceCount, List.length_append, aiNode.preorderAll_length cs]

/-- The listings of a list of trees have one entry per mesh reference. -/
theorem aiNode.preorderAll_length :
    ∀ (cs : List aiNode), (aiNode.preorderAll cs).length = aiNode.referenceCountAll cs
  | [] => by simp [aiNode.preorderAll, aiNode.referenceCountAll]
  | c :: cs => by
    rw [aiNode.preorderAll, aiNode.referenceCountAll, List.length_append,
      aiNode.preorder_length c, aiNode.preorderAll_length cs]

end

mutual

/-- Slot `i` occurs in the pre-order listing once per reference to it. -/
theorem aiNode.preorder_count (i : Nat) :
    ∀ (node : aiNode), node.preorder.count i = node.references i
  | aiNode.mk ms cs => by
    rw [aiNode.preorder, aiNode.references, List.count_append, aiNode.preorderAll_count i cs]

/-- Slot `i` occurs in the listings of a list of trees once per reference to it. -/
theorem aiNode.preorderAll_count (i : Nat) :
    ∀ (cs : List aiNode), (aiNode.preorderAll cs).count i = aiNode.referencesAll i cs
  | [] => by simp [aiNode.preorderAll, aiNode.referencesAll]
  | c :: cs => by
    rw [aiNode.preorderAll, aiNode.referencesAll, List.count_append,
      aiNode.preorder_count i c, aiNode.preorderAll_count i cs]

end

mutual

/-- The indices of a tree are below `n` exactly when the entries of its
pre-order listing are. -/
theorem aiNode.indicesBelow_iff (n : Nat) :
    ∀ (node : aiNode), node.indicesBelow n = true ↔ ∀ i ∈ node.preorder, i < n
  | aiNode.mk ms cs => by
    rw [aiNode.indicesBelow, aiNode.preorder, Bool.and_eq_true, aiNode.indicesBelowAll_iff n cs]
    simp only [List.all_eq_true, decide_eq_true_iff, List.mem_append]
    constructor
    · rintro ⟨h1, h2⟩ i (hi | hi)
      · exact h1 i hi
      · exact h2 i hi
    · intro h
      exact ⟨fun i hi => h i (Or.inl hi), fun i hi => h i (Or.inr hi)⟩

/-- The indices of a list of trees are below `n` exactly when the entries of
their listings are. -/
theorem aiNode.indicesBelowAll_iff (n : Nat) :
    ∀ (cs : List aiNode),
      aiNode.indicesBelowAll n cs = true ↔ ∀ i ∈ aiNode.preorderAll cs, i < n
  | [] => by simp [aiNode.indicesBelowAll, aiNode.preorderAll]
  | c :: cs => by
    rw [aiNode.indicesBelowAll, aiNode.preorderAll, Bool.and_eq_true,
      aiNode.indicesBelow_iff n c, aiNode.indicesBelowAll_iff n cs]
    simp only [List.mem_append]
    constructor
    · rintro ⟨h1, h2⟩ i (hi | hi)
      · exact h1 i hi
      · exact h2 i hi
    · intro h
      exact ⟨fun i hi => h i (Or.inl hi), fun i hi => h i (Or.inr hi)⟩

end

/-- Two lists aligned with the same list agree under maps that agree on
aligned entries. -/
theorem forall2_map_eq {ι α β γ : Type} {R : ι → α → Prop} {S : ι → β → Prop}
    (f : α → γ) (g : β → γ) (hfg : ∀ i x y, R i x → S i y → f x = g y) :
    ∀ (l : List ι) (a : List α) (b : List β),
      List.Forall₂ R l a → List.Forall₂ S l b → a.map f = b.map g := by
  intro l
  induction l with
  | nil =>
    intro a b ha hb
    cases ha
    cases hb
    rfl
  | cons i rest ih =>
    intro a b ha hb
    cases ha with
    | cons hx hxs =>
      cases hb with
      | cons hy hys =>
        simp only [List.map_cons]
        rw [hfg _ _ _ hx hy, ih _ _ hxs hys]

/-- The two walks give the same index list to the mesh of a slot. -/
theorem isProcessed_indices (env : Env) (sc : aiScene) (d1 d2 : String) (i : Nat)
    (x : palmx.Mesh) (y : PalmEngine.Mesh) (hx : palmx.IsProcessed env sc d1 i x)
    (hy : PalmEngine.Model.IsProcessed env sc d2 i y) : x.indices = y.mIndices := by
  obtain ⟨m1, w1, w2, hm1, hp1⟩ := hx
  obtain ⟨self, m2, w3, w4, -, hm2, hp2⟩ := hy
  rw [hm1] at hm2
  cases hm2
  have h1 := (palmx.ProcessMesh_parts env m1 sc d1 w1 _ hp1).2
  have h2 := (PalmEngine.Model.ProcessMesh_parts_model env self m1 sc w3 _ hp2).2
  dsimp only at h1 h2
  rw [h1, h2, palmx.ProcessMesh.indices_eq, PalmEngine.Model.ProcessMesh.indices_eq_model]

/-- C23. The accumulating walk `Model::ProcessNode` and the returning walk
`palmx::ProcessNode` process the same sequence of mesh references, the
pre-order listing of the tree: each walk is its mesh loop run over that
listing, one returns exactly when the other does, and when both have
returned, started on a model without meshes, the two mesh lists have the same
length, mesh number k of either list is the processed scene mesh of reference
number k of the listing, and the two lists carry the same index lists. -/
theorem C23_walks_process_the_same_references (env : Env) (sc : aiScene) (directory : String)
    (node : aiNode) (self : PalmEngine.Model) (w1 w2 : World) (hempty : self._meshes = []) :
    palmx.ProcessNode env sc directory node w1
      = palmx.ProcessNode.meshes env sc directory node.preorder [] w1 ∧
    PalmEngine.Model.ProcessNode env sc node self w2
      = PalmEngine.Model.ProcessNode.meshes env sc node.preorder self w2 ∧
    ((∃ r, palmx.ProcessNode env sc directory node w1 = Except.ok r) ↔
      ∃ q, PalmEngine.Model.ProcessNode env sc node self w2 = Except.ok q) ∧
    (∀ r q, palmx.ProcessNode env sc directory node w1 = Except.ok r →
      PalmEngine.Model.ProcessNode env sc node self w2 = Except.ok q →
        List.Forall₂ (palmx.IsProcessed env sc directory) node.preorder r.1 ∧
        List.Forall₂ (PalmEngine.Model.IsProcessed env sc self._directory) node.preorder
          q.1._meshes ∧
        q.1._meshes.length = r.1.length ∧
        q.1._meshes.map (fun m => m.mIndices) = r.1.map (fun m => m.indices)) := by
  have h1 := palmx.ProcessNode_eq_meshes_preorder env sc directory node w1
  have h2 := PalmEngine.Model.ProcessNode_eq_meshes_preorder_model env sc node self w2
  refine ⟨h1, h2, ?_, ?_⟩
  · rw [h1, h2, palmx.ProcessNode.meshes_returns_iff,
      PalmEngine.Model.ProcessNode.meshes_returns_iff_model]
  · intro r q hr hq
    rw [h1] at hr
    rw [h2] at hq
    obtain ⟨ms, hms, hall⟩ := palmx.ProcessNode.meshes_pointwise env sc _ _ _ _ _ hr
    obtain ⟨-, ms2, hms2, hall2⟩ :=
      PalmEngine.Model.ProcessNode.meshes_pointwise_model env sc _ _ _ _ hq
    rw [hempty, List.nil_append] at hms2
    rw [List.nil_append] at hms
    rw [hms, hms2]
    refine ⟨hall, hall2, ?_, ?_⟩
    · rw [← hall2.length_eq, ← hall.length_eq]
    · exact forall2_map_eq (fun (m : PalmEngine.Mesh) => m.mIndices)
        (fun (m : palmx.Mesh) => m.indices)
        (fun i y x hy hx => (isProcessed_indices env sc directory self._directory i x y hx hy).symm)
        node.preorder ms2 ms hall2 hall

/-- Witness of C23: on the sample tree (root refers to slots 2 and 0, its child
to slot 1) both walks return the meshes A, B, C in this order. -/
theorem C23_walks_process_the_same_references_witness :
    PalmEngine.Model.construct._meshes = [] ∧
    ((∃ r, palmx.ProcessNode Sample.env Sample.abcScene "models"
        (aiNode.mk [2, 0] [aiNode.mk [1] []]) World.initial = Except.ok r) ↔
      ∃ q, PalmEngine.Model.ProcessNode Sample.env Sample.abcScene
        (aiNode.mk [2, 0] [aiNode.mk [1] []]) PalmEngine.Model.construct World.initial
          = Except.ok q) ∧
    (match palmx.ProcessNode Sample.env Sample.abcScene "models"
        (aiNode.mk [2, 0] [aiNode.mk [1] []]) World.initial with
      | Except.ok r => r.1.map (fun m => m.vertices.map (fun v => v.position.z))
      | Except.error _ => []) = [[1, 1, 1], [2, 2, 2], [3, 3, 3]] ∧
    (match PalmEngine.Model.ProcessNode Sample.env Sample.abcScene
        (aiNode.mk [2, 0] [aiNode.mk [1] []]) PalmEngine.Model.construct World.initial with
      | Except.ok r => r.1._meshes.map (fun m => m.mVertices.map (fun v => v.mPosition.z))
      | Except.error _ => []) = [[1, 1, 1], [2, 2, 2], [3, 3, 3]] :=
  ⟨rfl,
    (C23_walks_process_the_same_references Sample.env Sample.abcScene "models"
      (aiNode.mk [2, 0] [aiNode.mk [1] []]) PalmEngine.Model.construct World.initial
      World.initial rfl).2.2.1,
    by decide, by decide⟩

namespace palmx

/-- What one pass of the loop of `DrawModel` appends to the trace. -/
theorem DrawModel.mesh_trace (env : Env) (sh : Shader) (t : Transform) (mesh : Mesh)
    (w : World) :
    (DrawModel.mesh env sh t mesh w).trace = w.trace ++
      [ Effect.glGetUniformLocation sh.id "model",
        Effect.glUniformMatrix4fv (env.glGetUniformLocation sh.id "model") 1 GLenum.GL_FALSE
          ⟨[Transformation.translate t.position, Transformation.scale t.scale]⟩,
        Effect.glActiveTexture 0,
        Effect.glGetUniformLocation sh.id "texture_albedo",
        Effect.glUniform1i (env.glGetUniformLocation sh.id "texture_albedo") 0,
        Effect.glBindTexture GLenum.GL_TEXTURE_2D mesh.albedo_texture.id,
        Effect.glActiveTexture 1,
        Effect.glGetUniformLocation sh.id "texture_normal",
        Effect.glUniform1i (env.glGetUniformLocation sh.id "texture_normal") 1,
        Effect.glBindTexture GLenum.GL_TEXTURE_2D mesh.normal_texture.id,
        Effect.glBindVertexArray mesh.vao,
        Effect.glDrawElements GLenum.GL_TRIANGLES (mesh.indices.length % 2 ^ 32)
          GLenum.GL_UNSIGNED_INT 0,
        Effect.glBindVertexArray 0,
        Effect.glActiveTexture 0 ] ∧
    (DrawModel.mesh env sh t mesh w).glGenCount = w.glGenCount := by
  simp [DrawModel.mesh, GetShaderUniformLocation, World.emit, World.emitAll, glm.mat4_1,
    glm.translate, glm.scale]

/-- A projection of the trace after the loop of `DrawModel`: what each pass
adds to it, mesh after mesh. -/
theorem DrawModel.loop_filterMap {β : Type} (env : Env) (sh : Shader) (t : Transform)
    (f : Effect → Option β) (g : Mesh → List β)
    (hstep : ∀ (m : Mesh) (w : World),
      (DrawModel.mesh env sh t m w).trace.filterMap f = w.trace.filterMap f ++ g m) :
    ∀ (ms : List Mesh) (w : World),
      (DrawModel.loop env sh t ms w).trace.filterMap f = w.trace.filterMap f ++ ms.flatMap g := by
  intro ms
  induction ms with
  | nil => intro w; simp [DrawModel.loop]
  | cons m rest ih =>
    intro w
    rw [DrawModel.loop, ih, hstep, List.flatMap_cons, List.append_assoc]

end palmx

namespace PalmEngine.MeshCpp

/-- A projection of the trace after the loop of `Model::Draw`: what each
`Mesh::Draw` adds to it, mesh after mesh. -/
theorem Model.Draw.loop_filterMap_model {β : Type} (env : Env) (sh : Shader)
    (f : Effect → Option β) (g : Mesh → List β)
    (hstep : ∀ (m : Mesh) (w : World),
      (m.Draw env sh w).trace.filterMap f = w.trace.filterMap f ++ g m) :
    ∀ (ms : List Mesh) (w : World),
      (Model.Draw.loop env sh ms w).trace.filterMap f = w.trace.filterMap f ++ ms.flatMap g := by
  intro ms
  induction ms with
  | nil => intro w; simp [Model.Draw.loop]
  | cons m rest ih =>
    intro w
    rw [Model.Draw.loop, ih, hstep, List.flatMap_cons, List.append_assoc]

end PalmEngine.MeshCpp

/-- Collected lists agree when the collecting functions agree on the entries. -/
theorem flatMap_congr_mem {α β : Type} (f g : α → List β) (l : List α)
    (h : ∀ a ∈ l, f a = g a) : l.flatMap f = l.flatMap g := by
  induction l with
  | nil => rfl
  | cons a l ih =>
    rw [List.flatMap_cons, List.flatMap_cons, h a (List.mem_cons_self _ _),
      ih (fun b hb => h b (List.mem_cons_of_mem _ hb))]

/-- Collecting one value per entry is mapping. -/
theorem flatMap_singleton_eq_map {α β : Type} (f : α → β) (l : List α) :
    l.flatMap (fun a => [f a]) = l.map f := by
  induction l with
  | nil => rfl
  | cons a l ih => simp [List.flatMap_cons, ih]

/-- A list of index counts below 2^32 is not changed by the cast to
`unsigned int`. -/
theorem map_length_mod {α : Type} (ms : List α) (len : α → Nat)
    (h : ∀ m ∈ ms, len m < 2 ^ 32) :
    ms.map (fun m => len m % 2 ^ 32) = ms.map len := by
  apply List.map_congr_left
  intro m hm
  exact Nat.mod_eq_of_lt (h m hm)

/-- C21. Drawing a model leaves the model, and so its mesh list, unchanged and
issues exactly one indexed draw call per mesh, in the order of the mesh list:
the `glDrawElements` calls that `palmx::DrawModel` and `Model::Draw` add to the
trace are one per mesh, each directly after the vertex array of its mesh is
bound, with the length of the index list of the mesh as count. (The count
passes through a cast to `unsigned int` and the conversion to the signed
32-bit `GLsizei`, and the counter of `Model::Draw` is an `unsigned int`: the
index lists are taken to be shorter than 2^31 and the mesh list shorter than
2^32.) -/
theorem C21_one_draw_call_per_mesh (env : Env) (model_shader : palmx.Shader)
    (model : palmx.Model) (self : PalmEngine.MeshCpp.Model) (_shader : PalmEngine.MeshCpp.Shader)
    (w : World)
    (hlen31 : ∀ m ∈ model.meshes, m.indices.length < 2 ^ 31)
    (hlen32 : ∀ m ∈ self._meshes, m.mIndices.length < 2 ^ 31)
    (_hmeshes : self._meshes.length < 2 ^ 32) :
    ((palmx.DrawModel env model_shader model w).1 = model ∧
      (palmx.DrawModel env model_shader model w).2.trace.filterMap drawElementsCount
        = w.trace.filterMap drawElementsCount ++ model.meshes.map (fun m => m.indices.length) ∧
      (palmx.DrawModel env model_shader model w).2.trace.filterMap bindOrDraw
        = w.trace.filterMap bindOrDraw ++ model.meshes.flatMap (fun m =>
          [ Effect.glBindVertexArray m.vao,
            Effect.glDrawElements GLenum.GL_TRIANGLES m.indices.length GLenum.GL_UNSIGNED_INT 0,
            Effect.glBindVertexArray 0 ])) ∧
    ((PalmEngine.MeshCpp.Model.Draw env self _shader w).1 = self ∧
      (PalmEngine.MeshCpp.Model.Draw env self _shader w).2.trace.filterMap drawElementsCount
        = w.trace.filterMap drawElementsCount ++ self._meshes.map (fun m => m.mIndices.length) ∧
      (PalmEngine.MeshCpp.Model.Draw env self _shader w).2.trace.filterMap bindOrDraw
        = w.trace.filterMap bindOrDraw ++ self._meshes.flatMap (fun m =>
          [ Effect.glBindVertexArray m.mVAO,
            Effect.glDrawElements GLenum.GL_TRIANGLES m.mIndices.length GLenum.GL_UNSIGNED_INT 0,
            Effect.glBindVertexArray 0 ])) := by
  have hlen : ∀ m ∈ model.meshes, m.indices.length < 2 ^ 32 :=
    fun m hm => Nat.lt_trans (hlen31 m hm) (by norm_num)
  have hlen2 : ∀ m ∈ self._meshes, m.mIndices.length < 2 ^ 32 :=
    fun m hm => Nat.lt_trans (hlen32 m hm) (by norm_num)
  refine ⟨⟨rfl, ?_, ?_⟩, ⟨rfl, ?_, ?_⟩⟩
  · have h := palmx.DrawModel.loop_filterMap env model_shader model.transform drawElementsCount
      (fun m => [m.indices.length % 2 ^ 32])
      (fun m w0 => by
        rw [(palmx.DrawModel.mesh_trace env model_shader model.transform m w0).1]
        simp [List.filterMap_append, List.filterMap_cons, drawElementsCount])
      model.meshes (w.emit (Effect.glUseProgram model_shader.id))
    simp only [palmx.DrawModel]
    rw [h, ← map_length_mod model.meshes (fun m => m.indices.length) hlen]
    simp [World.emit, List.filterMap_append, drawElementsCount, flatMap_singleton_eq_map]
  · have h := palmx.DrawModel.loop_filterMap env model_shader model.transform bindOrDraw
      (fun m =>
        [ Effect.glBindVertexArray m.vao,
          Effect.glDrawElements GLenum.GL_TRIANGLES (m.indices.length % 2 ^ 32)
            GLenum.GL_UNSIGNED_INT 0,
          Effect.glBindVertexArray 0 ])
      (fun m w0 => by
        rw [(palmx.DrawModel.mesh_trace env model_shader model.transform m w0).1]
        simp [List.filterMap_append, List.filterMap_cons, bindOrDraw])
      model.meshes (w.emit (Effect.glUseProgram model_shader.id))
    simp only [palmx.DrawModel]
    rw [h]
    have hcongr : (model.meshes.flatMap fun (m : palmx.Mesh) =>
          [ Effect.glBindVertexArray m.vao,
            Effect.glDrawElements GLenum.GL_TRIANGLES (m.indices.length % 2 ^ 32)
              GLenum.GL_UNSIGNED_INT 0,
            Effect.glBindVertexArray 0 ])
        = model.meshes.flatMap fun (m : palmx.Mesh) =>
          [ Effect.glBindVertexArray m.vao,
            Effect.glDrawElements GLenum.GL_TRIANGLES m.indices.length GLenum.GL_UNSIGNED_INT 0,
            Effect.glBindVertexArray 0 ] := by
      apply flatMap_congr_mem
      intro m hm
      rw [Nat.mod_eq_of_lt (hlen m hm)]
    rw [hcongr]
    simp [World.emit, List.filterMap_append, bindOrDraw]
  · have h := PalmEngine.MeshCpp.Model.Draw.loop_filterMap_model env _shader drawElementsCount
      (fun m => [m.mIndices.length % 2 ^ 32])
      (fun m w0 => by
        simp [PalmEngine.MeshCpp.Mesh.Draw, World.emitAll, List.filterMap_append,
          List.filterMap_cons, drawElementsCount])
      self._meshes w
    simp only [PalmEngine.MeshCpp.Model.Draw]
    rw [h, ← map_length_mod self._meshes (fun m => m.mIndices.length) hlen2]
    simp [flatMap_singleton_eq_map]
  · have h := PalmEngine.MeshCpp.Model.Draw.loop_filterMap_model env _shader bindOrDraw
      (fun m =>
        [ Effect.glBindVertexArray m.mVAO,
          Effect.glDrawElements GLenum.GL_TRIANGLES (m.mIndices.length % 2 ^ 32)
            GLenum.GL_UNSIGNED_INT 0,
          Effect.glBindVertexArray 0 ])
      (fun m w0 => by
        simp [PalmEngine.MeshCpp.Mesh.Draw, World.emitAll, List.filterMap_append,
          List.filterMap_cons, bindOrDraw])
      self._meshes w
    simp only [PalmEngine.MeshCpp.Model.Draw]
    rw [h]
    congr 1
    apply flatMap_congr_mem
    intro m hm
    rw [Nat.mod_eq_of_lt (hlen2 m hm)]

/-- Witness of C21: the sample models of two meshes with 3 and 6 indices are
drawn with two indexed draw calls, of counts 3 and 6 in this order, each after
the vertex array of its mesh was bound. -/
theorem C21_one_draw_call_per_mesh_witness :
    ((∀ m ∈ Sample.drawn.meshes, m.indices.length < 2 ^ 31) ∧
      (∀ m ∈ Sample.drawnMeshes._meshes, m.mIndices.length < 2 ^ 31) ∧
      Sample.drawnMeshes._meshes.length < 2 ^ 32) ∧
    ((palmx.DrawModel Sample.env Sample.shader Sample.drawn World.initial).1 = Sample.drawn ∧
      (palmx.DrawModel Sample.env Sample.shader Sample.drawn World.initial).2.trace.filterMap
        drawElementsCount = World.initial.trace.filterMap drawElementsCount ++
          Sample.drawn.meshes.map (fun m => m.indices.length) ∧
      (palmx.DrawModel Sample.env Sample.shader Sample.drawn World.initial).2.trace.filterMap
        bindOrDraw = World.initial.trace.filterMap bindOrDraw ++
          Sample.drawn.meshes.flatMap (fun m =>
            [ Effect.glBindVertexArray m.vao,
              Effect.glDrawElements GLenum.GL_TRIANGLES m.indices.length GLenum.GL_UNSIGNED_INT 0,
              Effect.glBindVertexArray 0 ])) ∧
    (palmx.DrawModel Sample.env Sample.shader Sample.drawn World.initial).2.trace.filterMap
      drawElementsCount = [3, 6] ∧
    (PalmEngine.MeshCpp.Model.Draw Sample.env Sample.drawnMeshes ⟨3⟩
      World.initial).2.trace.filterMap bindOrDraw =
        [ Effect.glBindVertexArray 7,
          Effect.glDrawElements GLenum.GL_TRIANGLES 3 GLenum.GL_UNSIGNED_INT 0,
          Effect.glBindVertexArray 0,
          Effect.glBindVertexArray 17,
          Effect.glDrawElements GLenum.GL_TRIANGLES 6 GLenum.GL_UNSIGNED_INT 0,
          Effect.glBindVertexArray 0 ] :=
  ⟨⟨by decide, by decide, by decide⟩,
    (C21_one_draw_call_per_mesh Sample.env Sample.shader Sample.drawn Sample.drawnMeshes ⟨3⟩
      World.initial (by decide) (by decide) (by decide)).1,
    by decide, by decide⟩

/-- The matrix `DrawPrimitive` hands to the shader. -/
theorem DrawPrimitive_matrix (env : Env) (sh : palmx.Shader) (primitive : palmx.Primitive)
    (w : World) :
    (palmx.DrawPrimitive env sh primitive w).2.trace.filterMap uploadedMatrix
      = w.trace.filterMap uploadedMatrix ++
        [[ Transformation.translate primitive.transform.position,
           Transformation.rotate (glm.radians primitive.transform.rotation.x) ⟨1, 0, 0⟩,
           Transformation.rotate (glm.radians primitive.transform.rotation.y) ⟨0, 1, 0⟩,
           Transformation.rotate (glm.radians primitive.transform.rotation.z) ⟨0, 0, 1⟩,
           Transformation.scale primitive.transform.scale ]] := by
  simp [palmx.DrawPrimitive, palmx.GetShaderUniformLocation, World.emit, World.emitAll,
    glm.mat4_1, glm.translate, glm.rotate, glm.scale, List.filterMap_append,
    List.filterMap_cons, uploadedMatrix]

/-- The loop of `DrawModel` reads the position and the scale of the transform only. -/
theorem DrawModel.loop_rotation (env : Env) (sh : palmx.Shader) (t : Transform)
    (rotation : vec3) :
    ∀ (ms : List palmx.Mesh) (w : World),
      palmx.DrawModel.loop env sh { t with rotation := rotation } ms w
        = palmx.DrawModel.loop env sh t ms w := by
  intro ms
  induction ms with
  | nil => intro w; rfl
  | cons m rest ih =>
    intro w
    rw [palmx.DrawModel.loop, palmx.DrawModel.loop, ih]
    rfl

/-- The model matrix of `palmx::DrawModel` is built from the position and the
scale of the transform only: for every mesh the matrix handed to the shader is
the translation by the position times the scaling by the scale, and a model
whose transform differs in the rotation only is drawn with exactly the same
calls. The sibling `DrawPrimitive` builds its matrix from all three:
translation, rotations about the x, y and z axes, scaling. -/
theorem DrawModel_matrices (env : Env) (model_shader primitive_shader : palmx.Shader)
    (model : palmx.Model) (primitive : palmx.Primitive) (rotation : vec3) (w : World) :
    (palmx.DrawModel env model_shader model w).2.trace.filterMap uploadedMatrix
      = w.trace.filterMap uploadedMatrix ++ model.meshes.map (fun _ =>
          [ Transformation.translate model.transform.position,
            Transformation.scale model.transform.scale ]) ∧
    (palmx.DrawModel env model_shader
        { model with transform := { model.transform with rotation := rotation } } w).2
      = (palmx.DrawModel env model_shader model w).2 ∧
    (palmx.DrawPrimitive env primitive_shader primitive w).2.trace.filterMap uploadedMatrix
      = w.trace.filterMap uploadedMatrix ++
        [[ Transformation.translate primitive.transform.position,
           Transformation.rotate (glm.radians primitive.transform.rotation.x) ⟨1, 0, 0⟩,
           Transformation.rotate (glm.radians primitive.transform.rotation.y) ⟨0, 1, 0⟩,
           Transformation.rotate (glm.radians primitive.transform.rotation.z) ⟨0, 0, 1⟩,
           Transformation.scale primitive.transform.scale ]] := by
  refine ⟨?_, ?_, DrawPrimitive_matrix env primitive_shader primitive w⟩
  · have h := palmx.DrawModel.loop_filterMap env model_shader model.transform uploadedMatrix
      (fun _ => [[ Transformation.translate model.transform.position,
                   Transformation.scale model.transform.scale ]])
      (fun m w0 => by
        rw [(palmx.DrawModel.mesh_trace env model_shader model.transform m w0).1]
        simp [List.filterMap_append, List.filterMap_cons, uploadedMatrix])
      model.meshes (w.emit (Effect.glUseProgram model_shader.id))
    simp only [palmx.DrawModel]
    rw [h]
    simp [World.emit, List.filterMap_append, uploadedMatrix, flatMap_singleton_eq_map]
  · simp only [palmx.DrawModel]
    exact DrawModel.loop_rotation env model_shader model.transform rotation model.meshes _

/-- C22, at an input where the code departs from it. The claim says that
changing the rotation of the transform changes the transforms applied when the
model is drawn. The sample model turned by 90 degrees about the y axis and the
same model not turned are drawn by `palmx::DrawModel` with exactly the same
calls: the matrix of each mesh is the translation by the position times the
scaling by the scale, the rotation is not read. The cube with the same
transform, drawn by `DrawPrimitive`, does get the three rotations into its
matrix. -/
theorem C22_DrawModel_ignores_rotation :
    Sample.drawn.transform.rotation ≠ Sample.drawnStraight.transform.rotation ∧
    (palmx.DrawModel Sample.env Sample.shader Sample.drawn World.initial).2
      = (palmx.DrawModel Sample.env Sample.shader Sample.drawnStraight World.initial).2 ∧
    (palmx.DrawModel Sample.env Sample.shader Sample.drawn World.initial).2.trace.filterMap
      uploadedMatrix =
        [ [Transformation.translate ⟨1, 2, 3⟩, Transformation.scale ⟨2, 2, 2⟩],
          [Transformation.translate ⟨1, 2, 3⟩, Transformation.scale ⟨2, 2, 2⟩] ] ∧
    (palmx.DrawPrimitive Sample.env Sample.shader Sample.cube World.initial).2.trace.filterMap
      uploadedMatrix =
        [ [ Transformation.translate ⟨1, 2, 3⟩,
            Transformation.rotate ⟨0⟩ ⟨1, 0, 0⟩,
            Transformation.rotate ⟨90⟩ ⟨0, 1, 0⟩,
            Transformation.rotate ⟨0⟩ ⟨0, 0, 1⟩,
            Transformation.scale ⟨2, 2, 2⟩ ] ] := by
  refine ⟨by decide, by decide, by decide, by decide⟩

/-! ## Key input -/

/-- The digits `Nat.toDigitsCore` puts in front of `ds`, with enough fuel. -/
theorem toDigitsCore_length_eq (f : Nat) :
    ∀ (n : Nat) (ds : List Char), n < f →
      (Nat.toDigitsCore 16 f n ds).length = ds.length + hexDigitCount n := by
  induction f with
  | zero => intro n ds h; omega
  | succ f ih =>
    intro n ds h
    simp only [Nat.toDigitsCore]
    by_cases h0 : n / 16 = 0
    · have hlt : n < 16 := by omega
      simp [h0, hexDigitCount, Nat.log_of_lt hlt]
    · have hge : 16 ≤ n := by omega
      have hpos : 0 < Nat.log 16 n := Nat.log_pos (by norm_num) hge
      have hdiv : Nat.log 16 (n / 16) = Nat.log 16 n - 1 := Nat.log_div_base 16 n
      rw [if_neg h0, ih (n / 16) _ (by omega)]
      simp only [hexDigitCount, List.length_cons, hdiv]
      omega

/-- The text `%x` writes has as many characters as the number has hexadecimal digits. -/
theorem toDigits_length (n : Nat) : (Nat.toDigits 16 n).length = hexDigitCount n := by
  unfold Nat.toDigits
  rw [toDigitsCore_length_eq (n + 1) n [] (by omega)]
  simp

/-- A 16-bit value has at most four hexadecimal digits. -/
theorem hexDigitCount_le (n : Nat) (h : n < 2 ^ 16) : hexDigitCount n ≤ 4 := by
  unfold hexDigitCount
  by_cases h0 : n = 0
  · simp [h0]
  · have : Nat.log 16 n < 4 := Nat.log_lt_of_lt_pow h0 (by norm_num at h ⊢; omega)
    omega

/-- What `ConvertKeyInputToHex` returns and writes. -/
theorem ConvertKeyInputToHex_spec (wchar : Nat) (w : World) (h : wchar < 2 ^ 16) :
    (ConvertKeyInputToHex wchar w).1 = 2 + hexDigitCount wchar ∧
      (ConvertKeyInputToHex wchar w).2.trace
        = w.trace ++ [Effect.printf ("0x" ++ (Nat.toDigits 16 wchar).asString)] ∧
      (ConvertKeyInputToHex wchar w).2.glGenCount = w.glGenCount := by
  have hle := hexDigitCount_le wchar h
  have hlen : ("0x" ++ (Nat.toDigits 16 wchar).asString).length = 2 + hexDigitCount wchar := by
    rw [String.length_append, ← toDigits_length]
    rfl
  refine ⟨?_, rfl, rfl⟩
  simp only [ConvertKeyInputToHex, printf_0x_x, hlen, toChar]
  omega

/-- The key input event `WndProc` dispatches for one of the four key messages. -/
theorem WndProc_key (env : Env) (hwnd uMsg wParam lParam : Nat) (w : World)
    (hkey : uMsg = WM_KEYDOWN ∨ uMsg = WM_SYSKEYDOWN ∨ uMsg = WM_KEYUP ∨ uMsg = WM_SYSKEYUP) :
    (WndProc env hwnd uMsg wParam lParam w).2.trace.filterMap keyInput
      = w.trace.filterMap keyInput ++
        [ { type := if uMsg = WM_KEYDOWN ∨ uMsg = WM_SYSKEYDOWN
              then KeyInput.KeyInputType.INPUT_KEYBOARD_KEY_DOWN
              else KeyInput.KeyInputType.INPUT_KEYBOARD_KEY_UP,
            key := 2 + hexDigitCount (wParam % 2 ^ 16) } ] := by
  have hlt : wParam % 2 ^ 16 < 2 ^ 16 := Nat.mod_lt _ (by norm_num)
  obtain ⟨h1, h2, -⟩ := ConvertKeyInputToHex_spec (wParam % 2 ^ 16) w hlt
  have e : (2 : Nat) ^ 16 = 65536 := by norm_num
  rw [e] at h1 h2
  rcases hkey with h | h | h | h <;> subst h <;>
    simp [WndProc, WM_KEYDOWN, WM_SYSKEYDOWN, WM_KEYUP, WM_SYSKEYUP, WM_SYSCHAR, World.emit, h1,
      h2, List.filterMap_append, keyInput]

/-- C28. The function `ConvertKeyInputToHex(w)` returns the number of
characters `printf` wrote for "0x%x", which is 2 plus the number of
hexadecimal digits of `w`, and not the key code; so for each of the four key
messages the one `KeyInput` event `WndProc` dispatches carries that number as
its key, and two key codes with the same number of hexadecimal digits give
the same event. -/
theorem C28_key_value_is_the_printed_length (env : Env) (hwnd uMsg wParam lParam : Nat)
    (w : World)
    (hkey : uMsg = WM_KEYDOWN ∨ uMsg = WM_SYSKEYDOWN ∨ uMsg = WM_KEYUP ∨ uMsg = WM_SYSKEYUP) :
    (∀ (wchar : Nat) (w0 : World), wchar < 2 ^ 16 →
      (ConvertKeyInputToHex wchar w0).1 = 2 + hexDigitCount wchar ∧
      (ConvertKeyInputToHex wchar w0).2.trace
        = w0.trace ++ [Effect.printf ("0x" ++ (Nat.toDigits 16 wchar).asString)] ∧
      ("0x" ++ (Nat.toDigits 16 wchar).asString).length = 2 + hexDigitCount wchar) ∧
    (WndProc env hwnd uMsg wParam lParam w).2.trace.filterMap keyInput
      = w.trace.filterMap keyInput ++
        [ { type := if uMsg = WM_KEYDOWN ∨ uMsg = WM_SYSKEYDOWN
              then KeyInput.KeyInputType.INPUT_KEYBOARD_KEY_DOWN
              else KeyInput.KeyInputType.INPUT_KEYBOARD_KEY_UP,
            key := 2 + hexDigitCount (wParam % 2 ^ 16) } ] ∧
    (∀ wParam2 : Nat, hexDigitCount (wParam2 % 2 ^ 16) = hexDigitCount (wParam % 2 ^ 16) →
      (WndProc env hwnd uMsg wParam2 lParam w).2.trace.filterMap keyInput
        = (WndProc env hwnd uMsg wParam lParam w).2.trace.filterMap keyInput) := by
  refine ⟨?_, WndProc_key env hwnd uMsg wParam lParam w hkey, ?_⟩
  · intro wchar w0 h
    obtain ⟨h1, h2, -⟩ := ConvertKeyInputToHex_spec wchar w0 h
    refine ⟨h1, h2, ?_⟩
    rw [String.length_append, ← toDigits_length]
    rfl
  · intro wParam2 h
    rw [WndProc_key env hwnd uMsg wParam2 lParam w hkey,
      WndProc_key env hwnd uMsg wParam lParam w hkey, h]

/-- Witness of C28: the key codes 0x41 and 0x42 both reach the input system
as the key 4, the length of "0x41" and of "0x42". -/
theorem C28_key_value_is_the_printed_length_witness :
    (WM_KEYDOWN = WM_KEYDOWN ∨ WM_KEYDOWN = WM_SYSKEYDOWN ∨ WM_KEYDOWN = WM_KEYUP ∨
      WM_KEYDOWN = WM_SYSKEYUP) ∧
    (WndProc Sample.env 0 WM_KEYDOWN 0x41 0 World.initial).2.trace.filterMap keyInput
      = World.initial.trace.filterMap keyInput ++
        [ { type := if WM_KEYDOWN = WM_KEYDOWN ∨ WM_KEYDOWN = WM_SYSKEYDOWN
              then KeyInput.KeyInputType.INPUT_KEYBOARD_KEY_DOWN
              else KeyInput.KeyInputType.INPUT_KEYBOARD_KEY_UP,
            key := 2 + hexDigitCount (0x41 % 2 ^ 16) } ] ∧
    (WndProc Sample.env 0 WM_KEYDOWN 0x41 0 World.initial).2.trace =
      [ Effect.printf "0x41",
        Effect.ProcessKeyInput ⟨KeyInput.KeyInputType.INPUT_KEYBOARD_KEY_DOWN, 4⟩,
        Effect.DefWindowProc 0 WM_KEYDOWN 0x41 0 ] ∧
    (WndProc Sample.env 0 WM_KEYDOWN 0x42 0 World.initial).2.trace =
      [ Effect.printf "0x42",
        Effect.ProcessKeyInput ⟨KeyInput.KeyInputType.INPUT_KEYBOARD_KEY_DOWN, 4⟩,
        Effect.DefWindowProc 0 WM_KEYDOWN 0x42 0 ] ∧
    (ConvertKeyInputToHex 0x41 World.initial).1 = 4 ∧
    (ConvertKeyInputToHex 0x42 World.initial).1 = 4 :=
  ⟨Or.inl rfl,
    (C28_key_value_is_the_printed_length Sample.env 0 WM_KEYDOWN 0x41 0 World.initial
      (Or.inl rfl)).2.1,
    by decide, by decide, by decide, by decide⟩

/-! ## Fonts -/

namespace std_map

variable {V : Type}

/-- Inserting under a key that is there changes nothing. -/
theorem insert_of_find_some (m : std_map V) (key : Char) (value x : V)
    (h : m.find key = some x) : m.insert key value = m := by
  induction m with
  | nil => simp [find] at h
  | cons p m ih =>
    obtain ⟨k, v⟩ := p
    by_cases hk : k = key
    · simp [insert, hk]
    · simp only [find, hk, if_false] at h
      simp [insert, hk, ih h]

/-- Inserting under a key that is not there makes it the mapped value. -/
theorem find_insert_self (m : std_map V) (key : Char) (value : V) (h : m.find key = none) :
    (m.insert key value).find key = some value := by
  induction m with
  | nil => simp [insert, find]
  | cons p m ih =>
    obtain ⟨k, v⟩ := p
    by_cases hk : k = key
    · simp [find, hk] at h
    · simp only [find, hk, if_false] at h
      simp [insert, find, hk, ih h]

/-- Inserting under one key leaves the other keys alone. -/
theorem find_insert_of_ne (m : std_map V) (key other : Char) (value : V) (h : key ≠ other) :
    (m.insert key value).find other = m.find other := by
  induction m with
  | nil => simp [insert, find, h]
  | cons p m ih =>
    obtain ⟨k, v⟩ := p
    by_cases hk : k = key
    · simp [insert, hk]
    · by_cases ho : k = other
      · subst ho
        simp [insert, find, hk]
      · simp [insert, find, hk, ho, ih]

/-- The keys are the characters that `find` finds. -/
theorem mem_keys_iff (m : std_map V) (key : Char) : key ∈ m.keys ↔ ∃ v, m.find key = some v := by
  induction m with
  | nil => simp [keys, find]
  | cons p m ih =>
    obtain ⟨k, v⟩ := p
    by_cases hk : k = key
    · simp [keys, find, hk]
    · have hk2 : ¬ key = k := fun h => hk h.symm
      simp only [keys, List.map_cons, List.mem_cons, hk2, false_or, find, hk, if_false]
      exact ih

end std_map

/-- A character code below 128 is the code of the character made from it. -/
theorem toNat_ofNat_of_lt (c : Nat) (h : c < 128) : (Char.ofNat c).toNat = c := by
  have hv : c.isValidChar := Or.inl (by omega)
  simp only [Char.ofNat, hv, dite_true, Char.toNat, Char.ofNatAux]
  rfl

/-- Two character codes below 128 with the same character are equal. -/
theorem ofNat_injective_of_lt (a b : Nat) (ha : a < 128) (hb : b < 128)
    (h : Char.ofNat a = Char.ofNat b) : a = b := by
  rw [← toNat_ofNat_of_lt a ha, ← toNat_ofNat_of_lt b hb, h]

namespace palmx

/-- A glyph that cannot be loaded: one error, no entry. -/
theorem LoadFontFromMemory.glyph_failed (env : Env) (data : List Nat) (c : Nat)
    (characters : std_map Character) (w : World) (h : env.FT_Load_Char data c = none) :
    LoadFontFromMemory.glyph env data c characters w
      = (characters, w.emit (Effect.LogError "Failed to load glyph")) := by
  simp [LoadFontFromMemory.glyph, h]

/-- A glyph that is loaded: its entry is inserted, no error is logged. -/
theorem LoadFontFromMemory.glyph_loaded (env : Env) (data : List Nat) (c : Nat)
    (characters : std_map Character) (w : World) (glyph : FT_GlyphSlotRec)
    (h : env.FT_Load_Char data c = some glyph) :
    (LoadFontFromMemory.glyph env data c characters w).1
        = characters.insert (Char.ofNat c)
          (Character.ofGlyph (env.glGenName w.glGenCount) glyph) ∧
      (LoadFontFromMemory.glyph env data c characters w).2.trace.filter isLogError
        = w.trace.filter isLogError := by
  simp [LoadFontFromMemory.glyph, h, Character.ofGlyph, World.gen, World.emitAll,
    List.filter_append, isLogError]

/-- The glyph loop over distinct character codes below 128 that have no entry
yet: every code whose glyph loads gets its entry, every code whose glyph does
not load gets none and one error, the other keys are left alone. -/
theorem LoadFontFromMemory.glyphs_spec (env : Env) (data : List Nat) (cs : List Nat) :
    cs.Nodup → (∀ c ∈ cs, c < 128) →
    ∀ (characters : std_map Character) (w : World),
      (∀ c ∈ cs, characters.find (Char.ofNat c) = none) →
      (∀ c ∈ cs, ∀ glyph, env.FT_Load_Char data c = some glyph →
        ∃ id, (LoadFontFromMemory.glyphs env data cs characters w).1.find (Char.ofNat c)
          = some (Character.ofGlyph id glyph)) ∧
      (∀ c ∈ cs, env.FT_Load_Char data c = none →
        (LoadFontFromMemory.glyphs env data cs characters w).1.find (Char.ofNat c) = none) ∧
      (∀ k : Char, (∀ c ∈ cs, Char.ofNat c ≠ k) →
        (LoadFontFromMemory.glyphs env data cs characters w).1.find k = characters.find k) ∧
      (LoadFontFromMemory.glyphs env data cs characters w).2.trace.filter isLogError
        = w.trace.filter isLogError ++
          (cs.filter (fun c => (env.FT_Load_Char data c).isNone)).map
            (fun _ => Effect.LogError "Failed to load glyph") := by
  induction cs with
  | nil =>
    intro _ _ characters w _
    simp [LoadFontFromMemory.glyphs]
  | cons c rest ih =>
    intro hnd hlt characters w hnone
    have hc : c < 128 := hlt c (List.mem_cons_self _ _)
    have hnd2 := (List.nodup_cons.1 hnd)
    have hne : ∀ c2 ∈ rest, Char.ofNat c ≠ Char.ofNat c2 := by
      intro c2 hc2 heq
      have := ofNat_injective_of_lt c c2 hc (hlt c2 (List.mem_cons_of_mem _ hc2)) heq
      exact hnd2.1 (this ▸ hc2)
    have hcn := hnone c (List.mem_cons_self _ _)
    simp only [LoadFontFromMemory.glyphs]
    cases hload : env.FT_Load_Char data c with
    | none =>
      rw [LoadFontFromMemory.glyph_failed env data c characters w hload]
      obtain ⟨i1, i2, i3, i4⟩ := ih hnd2.2 (fun x hx => hlt x (List.mem_cons_of_mem _ hx))
        characters (w.emit (Effect.LogError "Failed to load glyph"))
        (fun x hx => hnone x (List.mem_cons_of_mem _ hx))
      refine ⟨?_, ?_, ?_, ?_⟩
      · intro x hx glyph hg
        rcases List.mem_cons.1 hx with rfl | hx
        · rw [hload] at hg; cases hg
        · exact i1 x hx glyph hg
      · intro x hx hg
        rcases List.mem_cons.1 hx with rfl | hx
        · rw [i3 _ (fun c2 hc2 => (hne c2 hc2).symm)]
          exact hcn
        · exact i2 x hx hg
      · intro k hk
        exact i3 k (fun x hx => hk x (List.mem_cons_of_mem _ hx))
      · rw [i4]
        simp [World.emit, List.filter_append, isLogError, List.filter_cons, hload]
    | some glyph =>
      obtain ⟨g1, g2⟩ := LoadFontFromMemory.glyph_loaded env data c characters w glyph hload
      obtain ⟨i1, i2, i3, i4⟩ := ih hnd2.2 (fun x hx => hlt x (List.mem_cons_of_mem _ hx))
        (LoadFontFromMemory.glyph env data c characters w).1
        (LoadFontFromMemory.glyph env data c characters w).2
        (fun x hx => by
          rw [g1, std_map.find_insert_of_ne _ _ _ _ (hne x hx)]
          exact hnone x (List.mem_cons_of_mem _ hx))
      refine ⟨?_, ?_, ?_, ?_⟩
      · intro x hx glyph2 hg
        rcases List.mem_cons.1 hx with rfl | hx
        · rw [hload] at hg
          cases hg
          rw [i3 _ (fun c2 hc2 => (hne c2 hc2).symm), g1]
          exact ⟨_, std_map.find_insert_self _ _ _ hcn⟩
        · exact i1 x hx glyph2 hg
      · intro x hx hg
        rcases List.mem_cons.1 hx with rfl | hx
        · rw [hload] at hg; cases hg
        · exact i2 x hx hg
      · intro k hk
        rw [i3 k (fun x hx => hk x (List.mem_cons_of_mem _ hx)), g1]
        exact std_map.find_insert_of_ne _ _ _ _ (hk c (List.mem_cons_self _ _))
      · rw [i4, g2]
        simp [List.filter_cons, hload]

end palmx

namespace palmx

/-- The function `LoadFontFromMemory` on data it takes and a face that can be
made: the map and the errors of the glyph loop over the codes 0 to 127. -/
theorem LoadFontFromMemory_loaded (env : Env) (data : List Nat) (font_size : Nat) (w : World)
    (hsize : font_size ≠ 0) (hinit : env.FT_Init_FreeType = 0)
    (hface : env.FT_New_Memory_Face data font_size = 0) :
    (∀ c < 128, ∀ glyph, env.FT_Load_Char data c = some glyph →
      ∃ id, (LoadFontFromMemory env (some data) font_size w).1.characters.find (Char.ofNat c)
        = some (Character.ofGlyph id glyph)) ∧
    (∀ c < 128, env.FT_Load_Char data c = none →
      (LoadFontFromMemory env (some data) font_size w).1.characters.find (Char.ofNat c) = none) ∧
    (∀ k : Char, (∀ c < 128, Char.ofNat c ≠ k) →
      (LoadFontFromMemory env (some data) font_size w).1.characters.find k = none) ∧
    (LoadFontFromMemory env (some data) font_size w).2.trace.filter isLogError
      = w.trace.filter isLogError ++
        ((List.range 128).filter (fun c => (env.FT_Load_Char data c).isNone)).map
          (fun _ => Effect.LogError "Failed to load glyph") := by
  obtain ⟨i1, i2, i3, i4⟩ := LoadFontFromMemory.glyphs_spec env data (List.range 128)
    (List.nodup_range 128) (fun c hc => List.mem_range.1 hc) []
    ((w.emit (Effect.FT_Set_Pixel_Sizes 0 48)).emit
      (Effect.glPixelStorei GLenum.GL_UNPACK_ALIGNMENT 1))
    (fun _ _ => rfl)
  simp only [LoadFontFromMemory, hsize, hinit, hface, if_false, ne_eq, not_true_eq_false]
  refine ⟨fun c hc => i1 c (List.mem_range.2 hc), fun c hc => i2 c (List.mem_range.2 hc),
    fun k hk => i3 k (fun c hc => hk c (List.mem_range.1 hc)), ?_⟩
  simp only [World.emit, List.filter_append] at i4 ⊢
  rw [i4]
  simp [isLogError]

/-- The keys of a font from `LoadFontFromMemory` are character codes below 128. -/
theorem LoadFontFromMemory_keys (env : Env) (font_data : Option (List Nat)) (font_size : Nat)
    (w : World) :
    ∀ k ∈ (LoadFontFromMemory env font_data font_size w).1.characters.keys, k.toNat < 128 := by
  intro k hk
  cases font_data with
  | none => simp [LoadFontFromMemory, std_map.keys] at hk
  | some data =>
    by_cases hsize : font_size = 0
    · simp [LoadFontFromMemory, hsize, std_map.keys] at hk
    · by_cases hinit : env.FT_Init_FreeType = 0
      · by_cases hface : env.FT_New_Memory_Face data font_size = 0
        · obtain ⟨-, -, h3, -⟩ := LoadFontFromMemory_loaded env data font_size w hsize hinit hface
          obtain ⟨v, hv⟩ := (std_map.mem_keys_iff _ k).1 hk
          by_contra hge
          have hnone := h3 k (fun c hc heq => hge (by rw [← heq, toNat_ofNat_of_lt c hc]; exact hc))
          rw [hnone] at hv
          cases hv
        · simp [LoadFontFromMemory, hsize, hinit, hface, std_map.keys] at hk
      · simp [LoadFontFromMemory, hsize, hinit, std_map.keys] at hk

/-- The keys of a font from `LoadFont` are character codes below 128. -/
theorem LoadFont_keys (env : Env) (file_path : String) (w : World) :
    ∀ k ∈ (LoadFont env file_path w).1.characters.keys, k.toNat < 128 := by
  intro k hk
  unfold LoadFont at hk
  by_cases hp : file_path = ""
  · simp [hp, std_map.keys] at hk
  · simp only [ne_eq, hp, not_false_eq_true, if_true] at hk
    cases hr : env.readBinary file_path with
    | none => simp [hr, std_map.keys] at hk
    | some font_data =>
      rw [hr] at hk
      exact LoadFontFromMemory_keys env _ _ w k hk

end palmx

/-- C29. The function `LoadFontFromMemory` returns a font with an empty
character map and logs exactly one error, doing nothing else, when the data
pointer is null or the size is 0, and `LoadFont` does the same for the empty
file path; on every path the keys of the returned map are character codes
below 128; and when the face can be made, every code below 128 whose glyph
loads has its entry in the map, every code whose glyph does not load has no
entry, and the errors logged are one "Failed to load glyph" per glyph that did
not load. -/
theorem C29_font_loading_failures (env : Env) (font_data : Option (List Nat)) (font_size : Nat)
    (file_path : String) (w : World) :
    ((font_data = none ∨ font_size = 0) →
      (palmx.LoadFontFromMemory env font_data font_size w).1.characters = [] ∧
      (palmx.LoadFontFromMemory env font_data font_size w).2.trace
        = w.trace ++ [Effect.LogError "Failed to load font from memory: Invalid data"] ∧
      (palmx.LoadFontFromMemory env font_data font_size w).2.glGenCount = w.glGenCount) ∧
    ((palmx.LoadFont env "" w).1.characters = [] ∧
      (palmx.LoadFont env "" w).2.trace
        = w.trace ++ [Effect.LogError "Failed to load font: Empty file path"] ∧
      (palmx.LoadFont env "" w).2.glGenCount = w.glGenCount) ∧
    (∀ k ∈ (palmx.LoadFontFromMemory env font_data font_size w).1.characters.keys,
      k.toNat < 128) ∧
    (∀ k ∈ (palmx.LoadFont env file_path w).1.characters.keys, k.toNat < 128) ∧
    (∀ data, font_data = some data → font_size ≠ 0 → env.FT_Init_FreeType = 0 →
      env.FT_New_Memory_Face data font_size = 0 →
      (∀ c < 128, ∀ glyph, env.FT_Load_Char data c = some glyph →
        ∃ id, (palmx.LoadFontFromMemory env font_data font_size w).1.characters.find
          (Char.ofNat c) = some (palmx.Character.ofGlyph id glyph)) ∧
      (∀ c < 128, env.FT_Load_Char data c = none →
        (palmx.LoadFontFromMemory env font_data font_size w).1.characters.find (Char.ofNat c)
          = none) ∧
      (palmx.LoadFontFromMemory env font_data font_size w).2.trace.filter isLogError
        = w.trace.filter isLogError ++
          ((List.range 128).filter (fun c => (env.FT_Load_Char data c).isNone)).map
            (fun _ => Effect.LogError "Failed to load glyph")) := by
  refine ⟨?_, ?_, palmx.LoadFontFromMemory_keys env font_data font_size w,
    palmx.LoadFont_keys env file_path w, ?_⟩
  · intro h
    cases font_data with
    | none => exact ⟨rfl, rfl, rfl⟩
    | some data =>
      rcases h with h | h
      · cases h
      · subst h
        exact ⟨rfl, rfl, rfl⟩
  · exact ⟨rfl, rfl, rfl⟩
  · intro data hd hsize hinit hface
    subst hd
    obtain ⟨h1, h2, -, h4⟩ := palmx.LoadFontFromMemory_loaded env data font_size w hsize hinit hface
    exact ⟨h1, h2, h4⟩

set_option maxRecDepth 20000

/-- Witness of C29: a null pointer gives the empty font and one error; the
sample font, in which the glyph of 'B' cannot be loaded, gives a map with the
127 other characters below 128, with 'A' and 'C' in it and 'B' not, and the
one error of the glyph 'B'. -/
theorem C29_font_loading_failures_witness :
    ((none : Option (List Nat)) = none ∨ 4 = 0) ∧
    ((palmx.LoadFontFromMemory Sample.env none 4 World.initial).1.characters = [] ∧
      (palmx.LoadFontFromMemory Sample.env none 4 World.initial).2.trace
        = World.initial.trace ++
          [Effect.LogError "Failed to load font from memory: Invalid data"] ∧
      (palmx.LoadFontFromMemory Sample.env none 4 World.initial).2.glGenCount
        = World.initial.glGenCount) ∧
    (palmx.LoadFont Sample.env "fonts/empty.ttf" World.initial).2.trace
      = [Effect.LogError "Failed to load font from memory: Invalid data"] ∧
    (palmx.LoadFont Sample.env "fonts/sample.ttf" World.initial).1.characters.keys.length
      = 127 ∧
    ((palmx.LoadFont Sample.env "fonts/sample.ttf" World.initial).1.characters.find 'A').isSome
      = true ∧
    (palmx.LoadFont Sample.env "fonts/sample.ttf" World.initial).1.characters.find 'B' = none ∧
    (palmx.LoadFont Sample.env "fonts/sample.ttf" World.initial).1.characters.find 'C'
      = some { texture := ⟨67⟩, size := ⟨10, 12⟩, bearing := ⟨1, 11⟩, advance := 677 } ∧
    (palmx.LoadFont Sample.env "fonts/sample.ttf" World.initial).2.trace.filter isLogError
      = [Effect.LogError "Failed to load glyph"] :=
  ⟨Or.inl rfl,
    (C29_font_loading_failures Sample.env none 4 "fonts/sample.ttf" World.initial).1
      (Or.inl rfl),
    by decide, by decide, by decide, by decide, by decide, by decide⟩

/-! ## Text -/

namespace palmx

end palmx

